import Mathlib

/-! # icmond: event heap, schedule, interval timer and reload

A shallow embedding of `eventheap.c` (the minimum heap of scheduled events), of the
schedule functions of `event.c` (parser, scheduling, commit and clear, serialising), of
the interval timer of `daemon_main` and of the reload handler `handle_SIGHUP` with the
functions of `config.c` that it calls, with the properties of the specification proved
about them.

Conventions of the embedding
* `time_t` values are `Int` (64 bit on the target; no operation below leaves that range
  for the inputs the theorems speak about). An `int` that receives a wider value, and the
  result of an `int` multiplication, go through `toInt32` (two's complement wrap-around).
* `g_heap` is `Option (List event_t)`: `none` is the NULL pointer, `some h` is an allocated
  buffer whose slots `1..HEAPSIZE` are the elements of `h` (slot `x` is `h[x-1]`). The size
  cell in slot 0 is `h.length`. Slots above `HEAPSIZE` are never read before they are
  written (every access in `eventheap.c` is guarded by `<= HEAPSIZE` or writes first), so
  they are not part of the state. `calloc`/`realloc` are assumed to succeed.
* Loops and recursions of the source are structural recursions with an explicit bound on
  the number of steps; for each of them a theorem shows that the bound is not reached
  (`bubbleUp_unfold`, `heapify_unfold`, `fetchAllAux_spec`, `event_schedule_clear_spec`).
* C strings are `List Char` (the characters before the terminating NUL); a NULL
  terminated array of strings is a list of strings.
* `errno` is threaded through the parser loop explicitly. `strtol` is the only library
  call in the loop that sets it (to ERANGE, on overflow); no library function sets it to
  zero. The other calls are taken to succeed and to leave it alone.
* The time zone functions `localtime_r` and `mktime` are parameters (`libc_t`), the clock
  reading is the parameter `now`; text written to the log is not modelled, and the lines
  appended to `g_errors` are recorded by entry index and reason instead of as text.
* A function that may end the process has a result type with a constructor for that
  (`create_result`, `reschedule_result`); what `fork()` returns is a parameter.
* The string buffers that `config_t` points to live in an explicit C heap (`cheap`) with
  an allocator that is a parameter; freeing a buffer twice or reading a freed one sets
  the flag `undefined`. The configuration file and the command line are parameters.

The definitions come first, the theorems follow.
-/

namespace Icmond

/-! ## event.h -/

def EVENT_TYPE_DAILY : Int := 1
def EVENT_TYPE_INTERVAL : Int := 2
def EVENT_TYPE_ONCE : Int := 3

def EVENT_ACTION_SUSPEND : Int := 1
def EVENT_ACTION_RESUME : Int := 2
def EVENT_ACTION_POWEROFF : Int := 3
def EVENT_ACTION_POWERON : Int := 4
def EVENT_ACTION_IMPORTTMPFS : Int := 5
def EVENT_ACTION_IMPORTTMPFSTIMEOUT : Int := 6
def EVENT_ACTION_WATCHDOG : Int := 7
def EVENT_ACTION_MAXVALUE : Int := EVENT_ACTION_WATCHDOG

def EVENT_SOURCE_UNKNOWN : Int := 0
def EVENT_SOURCE_INTERNAL : Int := 1
def EVENT_SOURCE_PARSED : Int := 2

def SECONDS_PER_DAY : Int := 86400
def SECONDS_PER_HOUR : Int := 3600
def SECONDS_PER_MINUTE : Int := 60

/-- The struct event_t of event.h. The bit fields `type : 3`, `action : 5` (signed) and
`source : 2` (unsigned) only ever receive the constants above, which fit. -/
structure event_t where
  next_trigger : Int
  localoffset : Int
  type : Int
  action : Int
  source : Int
deriving DecidableEq, Repr, Inhabited

/-! ## eventheap.c -/

def LCHILDINDEX (x : Nat) : Nat := 2 * x
def RCHILDINDEX (x : Nat) : Nat := 2 * x + 1
def PARENTINDEX (x : Nat) : Nat := x / 2

/-- The size cell `*((int *)g_heap)` of an allocated buffer. -/
def HEAPSIZE (h : List event_t) : Nat := h.length

/-- The pointer `g_heap[x]` (1-based). A read outside `1..HEAPSIZE` only happens in
`heapify(1)` on an emptied heap, where the value read is compared with itself. -/
def slot (h : List event_t) (x : Nat) : event_t := h.getD (x - 1) default

/-- The macro `VAL(x)`: `g_heap[x]->next_trigger`. -/
def VAL (h : List event_t) (x : Nat) : Int := (slot h x).next_trigger

/-- The function `swap(index1, index2)`. -/
def swap (h : List event_t) (index1 index2 : Nat) : List event_t :=
  let temp := slot h index1
  let h1 := h.set (index1 - 1) (slot h index2)
  h1.set (index2 - 1) temp

/-- The recursion of `heapify(rootindex)`; the first argument bounds the recursion depth
(see `heapify_unfold`: the bound used by `heapify` is never reached). -/
def heapifyAux : Nat → List event_t → Nat → List event_t
  | 0, h, _ => h
  | fuel + 1, h, rootindex =>
    let smallest :=
      if LCHILDINDEX rootindex ≤ HEAPSIZE h ∧ VAL h (LCHILDINDEX rootindex) < VAL h rootindex
      then LCHILDINDEX rootindex else rootindex
    let smallest :=
      if RCHILDINDEX rootindex ≤ HEAPSIZE h ∧ VAL h (RCHILDINDEX rootindex) < VAL h smallest
      then RCHILDINDEX rootindex else smallest
    if VAL h smallest ≠ VAL h rootindex then
      heapifyAux fuel (swap h smallest rootindex) smallest
    else h

/-- The function `heapify(rootindex)`. -/
def heapify (h : List event_t) (rootindex : Nat) : List event_t :=
  heapifyAux (HEAPSIZE h) h rootindex

/-- The bubble-up loop of `eventheap_insert`; the first argument bounds the number of
iterations (see `bubbleUp_unfold`). -/
def bubbleUpAux : Nat → List event_t → Nat → List event_t
  | 0, h, _ => h
  | fuel + 1, h, index =>
    if index > 1 then
      if VAL h index < VAL h (PARENTINDEX index) then
        bubbleUpAux fuel (swap h index (PARENTINDEX index)) (PARENTINDEX index)
      else h
    else h

/-- The loop `while (index > 1) ...` of `eventheap_insert`, started at `index`. -/
def bubbleUp (h : List event_t) (index : Nat) : List event_t :=
  bubbleUpAux index h index

/-- The function `eventheap_insert(e)`. -/
def eventheap_insert (g : Option (List event_t)) (e : event_t) : Option (List event_t) :=
  -- if (!g_heap) g_heap = calloc(...)
  let h := match g with
    | none => []
    | some h => h
  -- *size += 1; g_heap[*size] = e;
  let h := h ++ [e]
  let index := HEAPSIZE h
  some (bubbleUp h index)

/-- The function `eventheap_size()`. -/
def eventheap_size (g : Option (List event_t)) : Nat :=
  match g with
  | none => 0
  | some h => HEAPSIZE h

/-- The function `eventheap_peek()`. -/
def eventheap_peek (g : Option (List event_t)) : Option event_t :=
  match g with
  | none => none
  | some h => if HEAPSIZE h < 1 then none else some (slot h 1)

/-- The function `eventheap_fetch()`: the returned pointer (none is NULL) and the new
`g_heap`. -/
def eventheap_fetch (g : Option (List event_t)) : Option event_t × Option (List event_t) :=
  match g with
  | none => (none, none)
  | some h =>
    if HEAPSIZE h < 1 then (none, some h)
    else
      let e := slot h 1
      -- g_heap[1] = g_heap[HEAPSIZE]; HEAPSIZE--;
      let h1 := (h.set (1 - 1) (slot h (HEAPSIZE h))).dropLast
      (some e, some (heapify h1 1))

/-- The function `eventheap_fetchtriggered(now)`. -/
def eventheap_fetchtriggered (g : Option (List event_t)) (now : Int) :
    Option event_t × Option (List event_t) :=
  match g with
  | none => (none, none)
  | some h =>
    if HEAPSIZE h < 1 then (none, some h)
    else if VAL h 1 > now then (none, some h)
    else eventheap_fetch (some h)

/-- The function `event_gettriggered(now)` of event.c. -/
def event_gettriggered (g : Option (List event_t)) (now : Int) :
    Option event_t × Option (List event_t) :=
  eventheap_fetchtriggered g now

/-- The loop `while ((event = eventheap_fetch())) ...` as used by `bsprint_eventheap`
and `eventheap_destroy`: the events in the order they come out, and the final heap.
The first argument bounds the number of iterations. -/
def fetchAllAux : Nat → Option (List event_t) →
    Option (List event_t × Option (List event_t))
  | 0, _ => none
  | fuel + 1, g =>
    match eventheap_fetch g with
    | (none, g1) => some ([], g1)
    | (some e, g1) =>
      match fetchAllAux fuel g1 with
      | none => none
      | some r => some (e :: r.1, r.2)

/-- Repeated `eventheap_fetch()` until it returns NULL; `none` would mean that the
iteration bound was used up before NULL came back (which does not happen, see
`fetchAll_spec`). -/
def fetchAll (g : Option (List event_t)) : Option (List event_t × Option (List event_t)) :=
  fetchAllAux (eventheap_size g + 1) g

/-- The min-heap invariant on the slots `1..HEAPSIZE`: every slot is not larger than
its children, where they exist. -/
def MinHeap (h : List event_t) : Prop :=
  ∀ i, i < HEAPSIZE h + 1 → 1 ≤ i →
    (LCHILDINDEX i ≤ HEAPSIZE h → VAL h i ≤ VAL h (LCHILDINDEX i)) ∧
    (RCHILDINDEX i ≤ HEAPSIZE h → VAL h i ≤ VAL h (RCHILDINDEX i))

instance (h : List event_t) : Decidable (MinHeap h) := by
  unfold MinHeap; infer_instance

/-- The invariant of the global `g_heap` (a NULL heap has no events). -/
def heapInvariant (g : Option (List event_t)) : Prop :=
  match g with
  | none => True
  | some h => MinHeap h

instance : (g : Option (List event_t)) → Decidable (heapInvariant g)
  | none => isTrue trivial
  | some h => inferInstanceAs (Decidable (MinHeap h))

/-- The multiset of events held by the heap. -/
def heapEvents (g : Option (List event_t)) : Multiset event_t :=
  match g with
  | none => 0
  | some h => (h : Multiset event_t)

/-! ## Auxiliary definitions for the heap proofs -/

/-- Every slot `2..HEAPSIZE` is not smaller than its parent. -/
def ParentLe (h : List event_t) : Prop :=
  ∀ j, 2 ≤ j → j ≤ h.length → VAL h (j / 2) ≤ VAL h j

/-- The value of the local variable `smallest` of `heapify` before the final test. -/
def heapifySmallest (h : List event_t) (rootindex : Nat) : Nat :=
  let smallest :=
    if LCHILDINDEX rootindex ≤ HEAPSIZE h ∧ VAL h (LCHILDINDEX rootindex) < VAL h rootindex
    then LCHILDINDEX rootindex else rootindex
  if RCHILDINDEX rootindex ≤ HEAPSIZE h ∧ VAL h (RCHILDINDEX rootindex) < VAL h smallest
  then RCHILDINDEX rootindex else smallest

/-- The buffer after `g_heap[1] = g_heap[HEAPSIZE]; HEAPSIZE--;`. -/
def fetchMoved (h : List event_t) : List event_t :=
  (h.set (1 - 1) (slot h (HEAPSIZE h))).dropLast

/-- Inserting a list of events one after the other, as `event_commit_test_schedule`
and the heap test do. -/
def insertAll (g : Option (List event_t)) (es : List event_t) : Option (List event_t) :=
  es.foldl eventheap_insert g

/-- An example heap (next_trigger 10, 40, 20, 50) used to instantiate the theorems. -/
def exampleHeap : Option (List event_t) :=
  some [⟨10, 60, 2, 7, 1⟩, ⟨40, 3600, 1, 1, 2⟩, ⟨20, 7200, 1, 2, 2⟩, ⟨50, 0, 1, 3, 2⟩]

/-! ## C library functions used by the parser

Strings are lists of characters (the bytes before the terminating NUL). The functions
below are modelled from the C standard, for the "C" locale. -/

/-- Modelled from the C standard: `isspace` (space, \t, \n, \v, \f, \r). -/
def isspace (c : Char) : Bool :=
  c.toNat = 32 || (9 ≤ c.toNat && c.toNat ≤ 13)

/-- Modelled from the C standard: `isdigit`. -/
def isdigit (c : Char) : Bool :=
  48 ≤ c.toNat && c.toNat ≤ 57

/-- Modelled from the C standard: `tolower`. -/
def tolower (c : Char) : Char :=
  if 65 ≤ c.toNat ∧ c.toNat ≤ 90 then Char.ofNat (c.toNat + 32) else c

/-- Modelled from the C standard: `strcasecmp(a, b) == 0`. -/
def strcasecmp_eq (a b : List Char) : Bool :=
  a.map tolower = b.map tolower

def LONG_MAX : Int := 9223372036854775807
def LONG_MIN : Int := -9223372036854775808
def ERANGE : Int := 34

/-- The number written by a list of decimal digits. -/
def digitsValue (ds : List Char) : Nat :=
  ds.foldl (fun acc c => 10 * acc + (c.toNat - 48)) 0

/-- What `strtol(nptr, &endptr, 10)` hands back: the value, `endptr` (as the rest of the
string it points to) and whether `errno` was set to ERANGE. -/
structure strtol_result where
  value : Int
  endptr : List Char
  erange : Bool
deriving DecidableEq, Repr

/-- The way `strtol` (base 10) reads the start of a string: leading white space is
skipped, one sign is taken, then the longest run of digits. The result is whether the
sign was a minus, the digits, and the text after them. -/
def scanDecimal (s : List Char) : Bool × List Char × List Char :=
  let t := s.dropWhile isspace
  let t1 := if t.head? = some '-' ∨ t.head? = some '+' then t.tail else t
  (decide (t.head? = some '-'), t1.takeWhile isdigit, t1.dropWhile isdigit)

/-- Modelled from the C standard: `strtol(nptr, &endptr, 10)` with a 64 bit `long`.
With no digit nothing is converted: the value is 0 and `endptr` is `nptr`. A value
outside `long` is clamped and reported with ERANGE; `errno` is otherwise left alone. -/
def strtol (nptr : List Char) : strtol_result :=
  let sc := scanDecimal nptr
  if sc.2.1 = [] then ⟨0, nptr, false⟩
  else
    let v : Int := (digitsValue sc.2.1 : Int)
    if sc.1 then
      if -v < LONG_MIN then ⟨LONG_MIN, sc.2.2, true⟩ else ⟨-v, sc.2.2, false⟩
    else
      if v > LONG_MAX then ⟨LONG_MAX, sc.2.2, true⟩ else ⟨v, sc.2.2, false⟩

/-- Conversion of a wider integer to `int` (32 bit two's complement, as gcc does), also
used for the result of an `int` multiplication. -/
def toInt32 (v : Int) : Int :=
  (v + 2147483648) % 4294967296 - 2147483648

/-- The fields of `struct tm` that event.c reads or writes. -/
structure tm where
  tm_sec : Int
  tm_min : Int
  tm_hour : Int
  tm_mday : Int
  tm_mon : Int
  tm_year : Int
  tm_isdst : Int
deriving DecidableEq, Repr, Inhabited

/-- The time zone functions of the C library, which depend on the system's time zone:
`localtime_r` and `mktime` (the latter returns the time and the normalised struct it
leaves behind). They are parameters of the model. -/
structure libc_t where
  localtime_r : Int → tm
  mktime : tm → Int × tm

/-- The part of `cfg` (config.h) that event.c reads. -/
structure cfg_t where
  powercontrol : Int
  powerupdelay : Int
  apply_dst : Int
deriving DecidableEq, Repr

/-! ## util.c -/

/-- The function `arrcollapse(array)`: the non-empty strings move to the front in their
order, the rest of the array becomes NULL. -/
def arrcollapse (array : List (List Char)) : List (List Char) :=
  array.filter (fun s => s.length ≠ 0)

/-- The function `arrlen(array)`. -/
def arrlen (array : List (List Char)) : Nat := array.length

/-! ## event.c -/

def GETHOURS (s : Int) : Int := Int.tdiv (Int.tmod s SECONDS_PER_DAY) SECONDS_PER_HOUR
def GETMINUTES (s : Int) : Int := Int.tdiv (Int.tmod s SECONDS_PER_HOUR) SECONDS_PER_MINUTE
def GETSECONDS (s : Int) : Int := Int.tmod s SECONDS_PER_MINUTE

/-- One row of the table `event_action[]`. -/
structure event_action_t where
  name : List Char
  default_type : Int
deriving DecidableEq, Repr

/-- The table `event_action[]` (without the terminating NULL row). -/
def event_action : List event_action_t :=
  [ ⟨"(null)".toList, 0⟩,
    ⟨"SUSPEND".toList, EVENT_TYPE_DAILY⟩,
    ⟨"RESUME".toList, EVENT_TYPE_DAILY⟩,
    ⟨"POWEROFF".toList, EVENT_TYPE_DAILY⟩,
    ⟨"POWERON".toList, EVENT_TYPE_DAILY⟩,
    ⟨"IMPORTTMPFS".toList, EVENT_TYPE_INTERVAL⟩,
    ⟨"IMPORTTMPFSTIMEOUT".toList, EVENT_TYPE_ONCE⟩,
    ⟨"WATCHDOG".toList, EVENT_TYPE_INTERVAL⟩ ]

/-- The loop `for (i = ...; i < ARRAY_SIZE(event_action) - 1; i++)` of
`__actionstring2code` over the rows that are left, `i` being the index of the first. -/
def actionstring2code_loop (actionstring : List Char) : List event_action_t → Nat → Int
  | [], _ => 0
  | row :: rows, i =>
    if strcasecmp_eq actionstring row.name then (i : Int)
    else actionstring2code_loop actionstring rows (i + 1)

/-- The function `__actionstring2code(actionstring)` (the pointer is never NULL here). -/
def __actionstring2code (actionstring : List Char) : Int :=
  if actionstring = [] then 0
  else actionstring2code_loop actionstring (event_action.drop 1) 1

/-- The struct `g_today`. -/
structure today_t where
  now : Int
  midnight : Int
  offset : Int
  lst : tm
deriving DecidableEq, Repr

/-- The function `__update_today()`; `now` is what `time()` returns. -/
def __update_today (lib : libc_t) (cfg : cfg_t) (now : Int) : today_t :=
  let offset := Int.tmod now SECONDS_PER_DAY
  let midnight := now - offset
  let lst := lib.localtime_r now
  let lst := if lst.tm_isdst > 0 ∧ cfg.apply_dst = 0 then lib.localtime_r (now - SECONDS_PER_HOUR)
    else lst
  ⟨now, midnight, offset, lst⟩

/-- The function `__schedule_next_trigger(e)`; `now` is what `time()` returns in
`__update_today()`. The messages written with `logerr` are not part of the model. -/
def __schedule_next_trigger (lib : libc_t) (cfg : cfg_t) (now : Int) (e : event_t) : event_t :=
  let g_today := __update_today lib cfg now
  if e.type = EVENT_TYPE_DAILY then
    let localoffset :=
      if e.localoffset ≥ SECONDS_PER_DAY + 2 * SECONDS_PER_HOUR then e.localoffset
      else if e.localoffset < 0 then 0
      else e.localoffset
    let localtm : tm :=
      { tm_sec := GETSECONDS localoffset
        tm_min := GETMINUTES localoffset
        tm_hour := GETHOURS localoffset
        tm_mday := g_today.lst.tm_mday
        tm_mon := g_today.lst.tm_mon
        tm_year := g_today.lst.tm_year
        tm_isdst := cfg.apply_dst }
    let r := lib.mktime localtm
    let eventtime :=
      if r.1 ≤ g_today.now then
        (lib.mktime { r.2 with tm_mday := r.2.tm_mday + 1 }).1
      else r.1
    { e with localoffset := localoffset, next_trigger := eventtime }
  else
    if e.next_trigger ≠ 0 then { e with next_trigger := e.next_trigger + e.localoffset }
    else { e with next_trigger := g_today.now + e.localoffset }

/-- The function `__cmpevent(a, b)`: the difference of the local offsets, returned as
an `int`. -/
def __cmpevent (a b : event_t) : Int :=
  toInt32 (a.localoffset - b.localoffset)

/-- Modelled from the C standard: `qsort` with the comparison `__cmpevent`. The standard
promises a rearrangement of the array that is ordered by the comparison (the order of
elements that compare equal is not specified); the model sorts by insertion. -/
def qsort (l : List event_t) : List event_t :=
  l.insertionSort (fun a b => __cmpevent a b ≤ 0)

/-- The reason why the parser discards an entry: one constructor for each `bsprintf`
to `g_errors` in the loop of `event_test_parse`, in the order of the source. -/
inductive parse_error where
  | empty_string
  | hours_conversion
  | no_hours
  | hours_range
  | hours_negative
  | separator
  | minutes_conversion
  | no_minutes
  | minutes_range
  | missing_code
  | unrecognized_action
  | negative_offset
deriving DecidableEq, Repr

/-- What one pass of the loop of `event_test_parse` does with its entry. -/
inductive entry_outcome where
  | discarded (why : parse_error)
  | accepted (e : event_t)
deriving DecidableEq, Repr

/-- The global variables of event.c and eventheap.c. `g_errors` holds, for each line
that `bsprintf` appended, the index of the entry and the reason; `none` is NULL. -/
structure globals where
  g_parsed : Option (List event_t)
  g_errors : Option (List (Nat × parse_error))
  g_heap : Option (List event_t)
deriving DecidableEq, Repr

/-- The body of the loop `for (index = 0; array[index]; index++)` of
`event_test_parse` for one entry: the value of `errno` afterwards and the outcome.
`errno` is only written by `strtol` (the other library calls are taken to succeed
and to leave it alone). -/
def parse_entry (lib : libc_t) (cfg : cfg_t) (now : Int) (errno : Int) (entry : List Char) :
    Int × entry_outcome :=
  -- memset(&e, 0, sizeof(event_t)); e.source = EVENT_SOURCE_PARSED;
  if entry = [] then (errno, .discarded .empty_string)
  else
    let type :=
      if entry.head? = some '@' then EVENT_TYPE_INTERVAL
      else if entry.head? = some '!' then EVENT_TYPE_ONCE
      else EVENT_TYPE_DAILY
    let sptr := if entry.head? = some '@' ∨ entry.head? = some '!' then entry.tail else entry
    -- Read hours
    let r := strtol sptr
    let readvalue := toInt32 r.value
    let errno := if r.erange then ERANGE else errno
    if errno ≠ 0 then (errno, .discarded .hours_conversion)
    else if r.endptr.length = sptr.length then (errno, .discarded .no_hours)
    else if type = EVENT_TYPE_DAILY ∧ (readvalue < 0 ∨ readvalue > 23) then
      (errno, .discarded .hours_range)
    else if readvalue < 0 then (errno, .discarded .hours_negative)
    else
      let localoffset := toInt32 (readvalue * SECONDS_PER_HOUR)
      if r.endptr.head? ≠ some ':' then (errno, .discarded .separator)
      else
        let sptr := r.endptr.tail
        -- Read minutes
        let r := strtol sptr
        let readvalue := toInt32 r.value
        let errno := if r.erange then ERANGE else errno
        if errno ≠ 0 then (errno, .discarded .minutes_conversion)
        else if r.endptr.length = sptr.length then (errno, .discarded .no_minutes)
        else if readvalue < 0 ∨ readvalue > 59 then (errno, .discarded .minutes_range)
        else
          let localoffset := localoffset + toInt32 (readvalue * SECONDS_PER_MINUTE)
          -- skip whitespace
          let eptr := r.endptr.dropWhile isspace
          if eptr = [] then (errno, .discarded .missing_code)
          else
            let action := __actionstring2code eptr
            if action = 0 then (errno, .discarded .unrecognized_action)
            else if localoffset < 0 then (errno, .discarded .negative_offset)
            else
              (errno, .accepted (__schedule_next_trigger lib cfg now
                { next_trigger := 0, localoffset := localoffset, type := type,
                  action := action, source := EVENT_SOURCE_PARSED }))

/-- The local variables of `event_test_parse` that its loop carries along, with the
part of `g_parsed` filled so far (`n_events` is its length). -/
structure parse_loop_state where
  errno : Int
  parsed : List event_t
  n_discarded : Nat
  errors : Option (List (Nat × parse_error))
deriving DecidableEq, Repr

/-- The function `bsprintf(&g_errors, ...)` as far as the model keeps it: one more line. -/
def bsprintf_error (errors : Option (List (Nat × parse_error))) (index : Nat)
    (why : parse_error) : Option (List (Nat × parse_error)) :=
  match errors with
  | none => some [(index, why)]
  | some l => some (l ++ [(index, why)])

/-- The loop `for (index = 0; array[index]; index++)` of `event_test_parse`. -/
def parse_loop (lib : libc_t) (cfg : cfg_t) (now : Int) :
    List (List Char) → Nat → parse_loop_state → parse_loop_state
  | [], _, st => st
  | entry :: rest, index, st =>
    match parse_entry lib cfg now st.errno entry with
    | (errno, .discarded why) =>
      parse_loop lib cfg now rest (index + 1)
        { st with errno := errno, n_discarded := st.n_discarded + 1,
                  errors := bsprintf_error st.errors index why }
    | (errno, .accepted e) =>
      parse_loop lib cfg now rest (index + 1)
        { st with errno := errno, parsed := st.parsed ++ [e] }

/-- The event `epwron` that `event_test_parse` makes for the RESUME event `r`. -/
def make_poweron (lib : libc_t) (cfg : cfg_t) (now : Int) (r : event_t) : event_t :=
  let localoffset := r.localoffset - cfg.powerupdelay
  let localoffset := if localoffset < 0 then localoffset + SECONDS_PER_DAY else localoffset
  let epwron := __schedule_next_trigger lib cfg now
    { next_trigger := 0, localoffset := localoffset, type := EVENT_TYPE_DAILY,
      action := 0, source := EVENT_SOURCE_PARSED }
  { epwron with action := EVENT_ACTION_POWERON }

/-- The loop `for (;g_parsed[srcidx]; srcidx++)` of `event_test_parse` that copies the
list and puts a POWERON event in front of every RESUME event. -/
def insert_poweron (lib : libc_t) (cfg : cfg_t) (now : Int) : List event_t → List event_t
  | [] => []
  | e :: rest =>
    if e.action = EVENT_ACTION_RESUME then
      make_poweron lib cfg now e :: e :: insert_poweron lib cfg now rest
    else e :: insert_poweron lib cfg now rest

/-- The function `event_test_clear()`. -/
def event_test_clear (st : globals) : globals :=
  { st with g_parsed := none, g_errors := none }

/-- The function `event_test_size()`. -/
def event_test_size (st : globals) : Nat :=
  match st.g_parsed with
  | none => 0
  | some l => l.length

/-- The function `event_test_parse(array)`: the value returned and the globals
afterwards. `array = none` is the NULL argument; otherwise the list holds the strings
before the terminating NULL. `now` is the clock reading of the run (the clock is read
when an event is scheduled; the unit test fixes it with `event_unittest_settime`). -/
def event_test_parse (lib : libc_t) (cfg : cfg_t) (now : Int) (st : globals)
    (array : Option (List (List Char))) : Int × globals :=
  match array with
  | none => (-1, st)
  | some array =>
    let array := arrcollapse array
    if array = [] then (-1, st)
    else
      let st := if st.g_parsed ≠ none then event_test_clear st else st
      -- g_parsed = calloc(arrlen(array) + 1, ...), which leaves errno = 0 from arrlen()
      let l := parse_loop lib cfg now array 0
        { errno := 0, parsed := [], n_discarded := 0, errors := st.g_errors }
      if l.n_discarded ≠ 0 then
        ((l.n_discarded : Int), { st with g_parsed := some l.parsed, g_errors := l.errors })
      else if l.parsed.length = 0 then
        (0, { st with g_parsed := some l.parsed, g_errors := l.errors })
      else
        let n_resume :=
          if cfg.powercontrol ≠ 0 ∧ cfg.powerupdelay ≠ 0 then
            (l.parsed.filter (fun e => e.action = EVENT_ACTION_RESUME)).length
          else 0
        let parsed :=
          if n_resume ≠ 0 then insert_poweron lib cfg now l.parsed else l.parsed
        (0, { st with g_parsed := some (qsort parsed), g_errors := l.errors })

/-- The function `event_commit_test_schedule()`. -/
def event_commit_test_schedule (st : globals) : globals :=
  match st.g_parsed with
  | none => st
  | some parsed =>
    event_test_clear { st with g_heap := insertAll st.g_heap parsed }

/-- What a call of `event_create` ends in: it returns a value, or the process exits
with EXIT_FAILURE. -/
inductive create_result where
  | returned (value : Int) (st : globals)
  | exited
deriving DecidableEq, Repr

/-- The function `event_create(action, seconds)`; `now` is the clock reading of
`__update_today()` and `now2` the later one of `time(NULL)` in `event_create`. -/
def event_create (lib : libc_t) (cfg : cfg_t) (now now2 : Int) (st : globals)
    (action : Int) (seconds : Int) : create_result :=
  if action > EVENT_ACTION_MAXVALUE ∨ action < 1 ∨ seconds < 1 then .returned (-1) st
  else
    let event := __schedule_next_trigger lib cfg now
      { next_trigger := 0, localoffset := seconds,
        type := (event_action.getD action.toNat ⟨[], 0⟩).default_type,
        action := action, source := EVENT_SOURCE_INTERNAL }
    if event.next_trigger < now2 then .exited
    else .returned event.next_trigger { st with g_heap := eventheap_insert st.g_heap event }

/-! ## The parser according to the specification

The definitions of this section follow the words of the specification (the grammar of
the schedule entries and the list of reasons for which an entry is malformed); they are
what the theorems compare `event_test_parse` with. -/

/-- A decimal number field as the parser reads it (white space, a sign, digits), with
its exact value: the number and the text after it, or `none` when there is no digit. -/
def decimalField (s : List Char) : Option (Int × List Char) :=
  let sc := scanDecimal s
  if sc.2.1 = [] then none
  else some ((if sc.1 then -(digitsValue sc.2.1 : Int) else (digitsValue sc.2.1 : Int)), sc.2.2)

/-- The entry has one of the prefixes `@` and `!`. -/
def hasPrefix (s : List Char) : Bool :=
  s.head? = some '@' || s.head? = some '!'

/-- The entry without its prefix. -/
def afterPrefix (s : List Char) : List Char :=
  if hasPrefix s then s.tail else s

/-- The seven recognised action names. -/
def actionNames : List (List Char) :=
  ["SUSPEND".toList, "RESUME".toList, "POWEROFF".toList, "POWERON".toList,
   "IMPORTTMPFS".toList, "IMPORTTMPFSTIMEOUT".toList, "WATCHDOG".toList]

/-- The text is one of the seven recognised names, ignoring case. -/
def recognisedAction (a : List Char) : Bool :=
  actionNames.any (fun n => a.map tolower = n.map tolower)

/-- What follows the time is missing or is not a recognised action. -/
def malformedAction (afterMinutes : List Char) : Bool :=
  let a := afterMinutes.dropWhile isspace
  a = [] || !recognisedAction a

/-- The minute field is missing or outside 0..59, or the action is bad. -/
def malformedMinutes (afterColon : List Char) : Bool :=
  match decimalField afterColon with
  | none => true
  | some (mm, rest) => mm < 0 || mm > 59 || malformedAction rest

/-- An entry is malformed when its hour field is missing or not a number, its hours
are negative or (without prefix) outside 0..23, the character after the hours is not
`:`, its minute field is missing or outside 0..59, no action follows the time, or the
action is not one of the seven recognised names. -/
def malformed (s : List Char) : Bool :=
  match decimalField (afterPrefix s) with
  | none => true
  | some (hh, rest) =>
    hh < 0 || (!hasPrefix s && hh > 23) ||
    (match rest with
     | [] => true
     | c :: rest1 => c != ':' || malformedMinutes rest1)

/-- The numbers of the entry are small enough for the parser's `int` arithmetic: the
hour number lies in -2^31 .. 596523 (so that it fits an `int` and 3600 times it does as
well) and the minute number fits an `int`. -/
def numbersFit (s : List Char) : Bool :=
  match decimalField (afterPrefix s) with
  | none => true
  | some (hh, rest) =>
    -2147483648 ≤ hh && hh ≤ 596523 &&
    (match rest with
     | [] => true
     | c :: rest1 =>
       c != ':' ||
       (match decimalField rest1 with
        | none => true
        | some (mm, _) => -2147483648 ≤ mm && mm ≤ 2147483647))

/-- The type that the prefix of an entry stands for. -/
def prefixType (s : List Char) : Int :=
  if s.head? = some '@' then EVENT_TYPE_INTERVAL
  else if s.head? = some '!' then EVENT_TYPE_ONCE
  else EVENT_TYPE_DAILY

/-- The event that an entry describes, computed with exact integers: its type, local
offset and action code, or `none` when the entry is malformed. -/
def specEvent (s : List Char) : Option (Int × Int × Int) :=
  match decimalField (afterPrefix s) with
  | none => none
  | some (hh, rest) =>
    if hh < 0 ∨ (hasPrefix s = false ∧ hh > 23) then none
    else
      match rest with
      | [] => none
      | c :: rest1 =>
        if c ≠ ':' then none
        else
          match decimalField rest1 with
          | none => none
          | some (mm, rest2) =>
            if mm < 0 ∨ mm > 59 then none
            else if rest2.dropWhile isspace = [] then none
            else if __actionstring2code (rest2.dropWhile isspace) = 0 then none
            else some (prefixType s, 3600 * hh + 60 * mm,
              __actionstring2code (rest2.dropWhile isspace))

/-- The event that the parser stages for an entry that is not malformed. -/
def specStaged (lib : libc_t) (cfg : cfg_t) (now : Int) (s : List Char) : Option event_t :=
  match specEvent s with
  | none => none
  | some (ty, lo, act) =>
    some (__schedule_next_trigger lib cfg now
      { next_trigger := 0, localoffset := lo, type := ty, action := act,
        source := EVENT_SOURCE_PARSED })

/-- The events that the loop of `event_test_parse` accepts from the entries of the
array, in the order of the entries: the contents of `g_parsed` when the loop ends. -/
def parsedEvents (lib : libc_t) (cfg : cfg_t) (now : Int) (array : List (List Char)) :
    List event_t :=
  (parse_loop lib cfg now (arrcollapse array) 0
    { errno := 0, parsed := [], n_discarded := 0, errors := none }).parsed

/-- The value of `n_discarded` when the loop of `event_test_parse` ends. -/
def discardedCount (lib : libc_t) (cfg : cfg_t) (now : Int) (array : List (List Char)) : Nat :=
  (parse_loop lib cfg now (arrcollapse array) 0
    { errno := 0, parsed := [], n_discarded := 0, errors := none }).n_discarded

/-- The staging list `g_parsed` after a call, as a list (empty for NULL). -/
def staged (r : Int × globals) : List event_t :=
  match r.2.g_parsed with
  | none => []
  | some l => l

/-- The text of an entry made of a prefix, the digits of the hours, a colon, the digits
of the minutes, white space and an action name. -/
def entryText (pre hh mm ws name : List Char) : List Char :=
  pre ++ (hh ++ ':' :: (mm ++ (ws ++ name)))

/-- The type that a prefix stands for: none is DAILY, `@` is INTERVAL, `!` is ONCE. -/
def entryType (pre : List Char) : Int :=
  if pre = ['@'] then EVENT_TYPE_INTERVAL
  else if pre = ['!'] then EVENT_TYPE_ONCE
  else EVENT_TYPE_DAILY

/-- The parts make a well-formed entry: the prefix is empty, `@` or `!`; hours and
minutes are non-empty runs of digits; the minutes are at most 59; the space is white
space; the name equals the `k`-th action name (1..7) ignoring case; the hours are at
most 23 without prefix; and 3600 * hours + 60 * minutes fits a 32 bit signed integer. -/
def wellFormedParts (pre hh mm ws name : List Char) (k : Nat) : Bool :=
  (pre = [] || pre = ['@'] || pre = ['!']) &&
  !hh.isEmpty && hh.all isdigit && !mm.isEmpty && mm.all isdigit &&
  decide (digitsValue mm ≤ 59) && ws.all isspace &&
  decide (1 ≤ k) && decide (k ≤ 7) &&
  strcasecmp_eq name (event_action.getD k ⟨[], 0⟩).name &&
  (pre != [] || decide (digitsValue hh ≤ 23)) &&
  decide (3600 * digitsValue hh + 60 * digitsValue mm ≤ 2147483647)

/-- A C library with a plain calendar for the examples: universal time, no daylight
saving, days counted from the epoch in `tm_mday` (month and year stay 0). -/
def exampleLibc : libc_t where
  localtime_r := fun t =>
    { tm_sec := t % 60, tm_min := (t / 60) % 60, tm_hour := (t / 3600) % 24,
      tm_mday := t / 86400, tm_mon := 0, tm_year := 0, tm_isdst := 0 }
  mktime := fun l =>
    let t := l.tm_mday * 86400 + l.tm_hour * 3600 + l.tm_min * 60 + l.tm_sec
    (t, { tm_sec := t % 60, tm_min := (t / 60) % 60, tm_hour := (t / 3600) % 24,
          tm_mday := t / 86400, tm_mon := 0, tm_year := 0, tm_isdst := 0 })

/-- The fields of an event that the parser decides: type, local offset, action and
source (the next trigger comes from the clock and the time zone). -/
def parsedFields (e : event_t) : Int × Int × Int × Int :=
  (e.type, e.localoffset, e.action, e.source)

/-- The default configuration of config.h as far as event.c reads it: power control
off, power-up delay 45 s, no daylight saving. -/
def defaultCfg : cfg_t := ⟨0, 45, 0⟩

/-- A configuration with power control on and a power-up delay of 300 s. -/
def powerCfg : cfg_t := ⟨1, 300, 0⟩

/-- The globals at program start: all pointers NULL. -/
def initialGlobals : globals := ⟨none, none, none⟩

/-- The array `strarr1` of the unit test ut_event.c. -/
def strarr1 : List (List Char) :=
  ["".toList, "a:59 RESUME".toList, "-3:00 RESUME".toList, "20€ off now!".toList,
   "1:on".toList, "2:99 PWRON".toList, "12: pwroff".toList, "23:59 ".toList,
   "04:00 off".toList, "2:2:0".toList, "+12:+10+".toList,
   "16:10 PwrOn16:25 PwrOff".toList]

/-- The array `strarr2` of the unit test ut_event.c. -/
def strarr2 : List (List Char) :=
  ["03:20 SUSPEND".toList, "3:30              poweron".toList, "4:5RESUME".toList,
   "@09:30ImportTMPFS".toList, "!00:01 ImportTMPFStimeout".toList,
   "!49:59 POWEROFF".toList]

/-- What a call of `event_reschedule` ends in: it returns a value, leaving the event
(none for the NULL argument) and the globals as given here, or the process exits with
EXIT_FAILURE. -/
inductive reschedule_result where
  | returned (value : Int) (event : Option event_t) (st : globals)
  | exited
deriving DecidableEq, Repr

/-- The function `event_reschedule(event)`; `now` is the clock reading of
`__update_today()` and `now2` the later one of `time(NULL)` in `event_reschedule`. -/
def event_reschedule (lib : libc_t) (cfg : cfg_t) (now now2 : Int) (st : globals)
    (event : Option event_t) : reschedule_result :=
  match event with
  | none => .returned (-1) none st
  | some e =>
    if e.type = EVENT_TYPE_ONCE then .returned (-1) (some e) st
    else
      let e := __schedule_next_trigger lib cfg now e
      if e.next_trigger < now2 then .exited
      else .returned e.next_trigger (some e) { st with g_heap := eventheap_insert st.g_heap e }

/-- The function `eventheap_destroy()` of eventheap.c: the new `g_heap`, which is NULL;
`none` would mean that the bound of the fetch loop was used up (see
`event_schedule_clear_spec`). -/
def eventheap_destroy (g : Option (List event_t)) : Option (Option (List event_t)) :=
  match g with
  | none => some none
  | some h =>
    match fetchAll (some h) with
    | none => none
    | some _ => some none

/-- The loop `while ((event = eventheap_fetch())) ...` of `event_schedule_clear`: an
event with `event->source & source` non-zero is freed, any other is appended to `tmp`.
The result is `tmp` and the heap when `eventheap_fetch` returned NULL. The first
argument bounds the number of iterations. -/
def schedule_clear_loop : Nat → Int → Option (List event_t) → List event_t →
    Option (List event_t × Option (List event_t))
  | 0, _, _, _ => none
  | fuel + 1, source, g, tmp =>
    match eventheap_fetch g with
    | (none, g1) => some (tmp, g1)
    | (some event, g1) =>
      if Int.land event.source source ≠ 0 then schedule_clear_loop fuel source g1 tmp
      else schedule_clear_loop fuel source g1 (tmp ++ [event])

/-- The function `event_schedule_clear(source)`; `none` would mean that the bound of
the fetch loop was used up, which does not happen (see `event_schedule_clear_spec`). -/
def event_schedule_clear (st : globals) (source : Int) : Option globals :=
  if source > 2 then
    match eventheap_destroy st.g_heap with
    | none => none
    | some g => some { st with g_heap := g }
  else
    match schedule_clear_loop (eventheap_size st.g_heap + 1) source st.g_heap [] with
    | none => none
    | some (tmp, g) => some { st with g_heap := insertAll g tmp }

/-! ## daemon.c: the interval timer -/

/-- The part of the state of daemon.c (`execstats` and `this`) that the interval timer
and the handlers around it use. The counters are `int`; `suspended_by_command` and
`suspended_by_schedule` are `time_t` cells used as truth values; `worker_armed` tells
whether the timer `this.worker.fd` is armed. -/
structure daemon_state where
  n_interval_ticks : Int
  n_datalog_actions : Int
  n_datalog_success : Int
  worker_pid : Int
  worker_armed : Bool
  suspended_by_command : Int
  suspended_by_schedule : Int
deriving DecidableEq, Repr

/-- What the block of the interval timer ends in: the loop goes on in the daemon, or
this process is the child that `fork()` made (it runs `datalogger` and calls `_exit`). -/
inductive tick_result where
  | parent (s : daemon_state)
  | child
deriving DecidableEq, Repr

/-- The block `if (FD_ISSET(this.interval.fd, &this.readfds))` of `daemon_main`;
`fork` is the value that `fork()` returns if it is called. -/
def interval_tick (s : daemon_state) (fork : Int) : tick_result :=
  let s := { s with n_interval_ticks := toInt32 (s.n_interval_ticks + 1) }
  if ¬ (s.suspended_by_command ≠ 0 ∨ s.suspended_by_schedule ≠ 0) then
    if s.worker_pid ≠ 0 then .parent s
    else
      let s := { s with worker_pid := fork }
      if s.worker_pid < 0 then .parent { s with worker_pid := 0 }
      else if s.worker_pid > 0 then
        .parent { s with worker_armed := true,
                         n_datalog_actions := toInt32 (s.n_datalog_actions + 1) }
      else .child
  else .parent s

/-- The function `handle_SIGUSR1()`. -/
def handle_SIGUSR1 (s : daemon_state) : daemon_state :=
  if s.suspended_by_command ≠ 0 then s else { s with suspended_by_command := 1 }

/-- The function `handle_SIGUSR2()`. -/
def handle_SIGUSR2 (s : daemon_state) : daemon_state :=
  if s.suspended_by_command ≠ 0 then { s with suspended_by_command := 0 } else s

/-- The function `daemon_suspend()`. -/
def daemon_suspend (s : daemon_state) : daemon_state :=
  { s with suspended_by_schedule := 1 }

/-- The function `daemon_resume()`. -/
def daemon_resume (s : daemon_state) : daemon_state :=
  { s with suspended_by_schedule := 0 }

/-- The function `handle_SIGCHLD()` as far as it concerns the worker: `pid` is what
`waitpid` returns and `success` tells whether the child exited with code zero. -/
def handle_SIGCHLD (s : daemon_state) (pid : Int) (success : Bool) : daemon_state :=
  if pid = 0 then s
  else if pid = s.worker_pid then
    let s := { s with worker_armed := false }
    let s := if success then { s with n_datalog_success := toInt32 (s.n_datalog_success + 1) }
      else s
    { s with worker_pid := 0 }
  else s

/-- What the main loop of `daemon_main` meets, as far as the worker is concerned: the
interval timer (with the value `fork()` would return), the signals SIGUSR1, SIGUSR2 and
SIGCHLD, and the scheduled events SUSPEND and RESUME. -/
inductive loop_event where
  | interval (fork : Int)
  | sigusr1
  | sigusr2
  | sigchld (pid : Int) (success : Bool)
  | suspend
  | resume
deriving DecidableEq, Repr

/-- One event of the main loop; `none` when this process turns out to be the child. -/
def loop_step (s : daemon_state) : loop_event → Option daemon_state
  | .interval fork =>
    match interval_tick s fork with
    | .parent s1 => some s1
    | .child => none
  | .sigusr1 => some (handle_SIGUSR1 s)
  | .sigusr2 => some (handle_SIGUSR2 s)
  | .sigchld pid success => some (handle_SIGCHLD s pid success)
  | .suspend => some (daemon_suspend s)
  | .resume => some (daemon_resume s)

/-- A sequence of events of the main loop. -/
def loop_run : daemon_state → List loop_event → Option daemon_state
  | s, [] => some s
  | s, ev :: rest =>
    match loop_step s ev with
    | none => none
    | some s1 => loop_run s1 rest

/-- One when the event is an interval tick at which the state before it and the value
of `fork()` satisfy `p`, zero otherwise. -/
def tickOf (p : daemon_state → Int → Bool) (s : daemon_state) : loop_event → Nat
  | .interval fork => if p s fork then 1 else 0
  | _ => 0

/-- The number of interval ticks of a run at which the state before the tick and the
value of `fork()` satisfy `p`. -/
def countTicks (p : daemon_state → Int → Bool) : daemon_state → List loop_event → Nat
  | _, [] => 0
  | s, ev :: rest =>
    tickOf p s ev +
    (match loop_step s ev with
     | none => 0
     | some s1 => countTicks p s1 rest)

/-- Every interval tick. -/
def anyTick (_ : daemon_state) (_ : Int) : Bool := true

/-- A tick at which `suspended_by_command` or `suspended_by_schedule` is set. -/
def suspendedTick (s : daemon_state) (_ : Int) : Bool :=
  s.suspended_by_command ≠ 0 || s.suspended_by_schedule ≠ 0

/-- A tick, not suspended, at which a worker pid is still recorded. -/
def busyTick (s : daemon_state) (f : Int) : Bool :=
  !suspendedTick s f && s.worker_pid ≠ 0

/-- A tick, neither suspended nor busy, at which `fork()` fails. -/
def forkFailedTick (s : daemon_state) (f : Int) : Bool :=
  !suspendedTick s f && s.worker_pid = 0 && f < 0

/-- The state of daemon.c at program start. -/
def initialDaemon : daemon_state := ⟨0, 0, 0, 0, false, 0, 0⟩

/-- A C library for a time zone at a fixed offset of `off` seconds east of universal
time and without daylight saving, with the plain calendar of `exampleLibc` (days
counted in `tm_mday`); `mktime` ignores `tm_isdst`, as there is no daylight saving to
apply. -/
def fixedZoneLibc (off : Int) : libc_t where
  localtime_r := fun t =>
    let u := t + off
    { tm_sec := u % 60, tm_min := (u / 60) % 60, tm_hour := (u / 3600) % 24,
      tm_mday := u / 86400, tm_mon := 0, tm_year := 0, tm_isdst := 0 }
  mktime := fun l =>
    let u := l.tm_mday * 86400 + l.tm_hour * 3600 + l.tm_min * 60 + l.tm_sec
    (u - off, { tm_sec := u % 60, tm_min := (u / 60) % 60, tm_hour := (u / 3600) % 24,
                tm_mday := u / 86400, tm_mon := 0, tm_year := 0, tm_isdst := 0 })

/-- The local offset of a DAILY event after `__schedule_next_trigger` looked at it: a
negative one is replaced by zero. -/
def dailyOffset (e : event_t) : Int :=
  if e.localoffset < 0 then 0 else e.localoffset

/-- One row of the table `event_type[]`; the member `prefix` of the source is `pfx`
here. -/
structure event_scheduling_t where
  pfx : List Char
  name : List Char
deriving DecidableEq, Repr

/-- The table `event_type[]` (without the terminating NULL row). -/
def event_type : List event_scheduling_t :=
  [ ⟨"(null)".toList, "(null)".toList⟩,
    ⟨[], "DAILY".toList⟩,
    ⟨['@'], "INTERVAL".toList⟩,
    ⟨['!'], "ONCE".toList⟩ ]

/-- Modelled from the C standard: the conversion `%02d` of `printf`, a decimal number
of at least two characters, filled with zeros on the left. -/
def printf_02d (n : Int) : List Char :=
  if n < 0 then '-' :: Nat.toDigits 10 n.natAbs
  else if n < 10 then '0' :: Nat.toDigits 10 n.toNat
  else Nat.toDigits 10 n.toNat

/-- The function `bsprint_eventstr(buffer, e)`: the text of the buffer afterwards
(`bsprintf` appends to it); `e = none` is the NULL pointer. -/
def bsprint_eventstr (buffer : List Char) (e : Option event_t) : List Char :=
  match e with
  | none => buffer
  | some e =>
    buffer ++ ((event_type.getD e.type.toNat ⟨[], []⟩).pfx ++
      (printf_02d (GETHOURS e.localoffset) ++ ':' ::
        (printf_02d (GETMINUTES e.localoffset) ++ ' ' ::
          (event_action.getD e.action.toNat ⟨[], 0⟩).name)))

/-- The configuration strings of a list of events: `bsprint_eventstr` with an empty
buffer for each of them. -/
def eventStrings (l : List event_t) : List (List Char) :=
  l.map (fun e => bsprint_eventstr [] (some e))

/-- The type, local offset and action of an event. -/
def eventTriple (e : event_t) : Int × Int × Int :=
  (e.type, e.localoffset, e.action)

/-! ## config.c and the reload handler of daemon.c

The members `inet.pinghosts`, `event.liststring` and `database.tmpfsfilename` of
`config_t` point to string buffers on the C heap. The heap is modelled as a list of
cells; the address of a buffer is its position in the list, counted from 1, and 0 is
the NULL pointer. Which address `malloc` hands out is up to the allocator, which is a
parameter. The file system, the contents of the configuration file and the command
line are parameters as well. -/

/-- A cell of the C heap: an allocated string buffer with its text, or a buffer that
was freed. -/
inductive cell where
  | live (s : List Char)
  | freed
deriving DecidableEq, Repr

/-- The string buffers of the C heap. `undefined` is set when the program frees a
buffer that is not allocated or reads a buffer that was freed: what the program does
from then on is not defined by C, and the rest of the state carries no meaning. -/
structure cheap where
  cells : List cell
  undefined : Bool
deriving DecidableEq, Repr

/-- The addresses of the freed cells. -/
def freedAddresses (cells : List cell) : List Nat :=
  (List.range cells.length).filterMap
    (fun i => if cells.getD i (.live []) = .freed then some (i + 1) else none)

/-- Modelled from the C standard: `strdup(s)` (`malloc` is taken to succeed). The new
buffer is a cell that was never used or, if the allocator `choose` names one, a cell
that was freed. The result is the address and the heap. -/
def strdup (choose : List cell → Nat) (h : cheap) (s : List Char) : Nat × cheap :=
  if choose h.cells ∈ freedAddresses h.cells then
    (choose h.cells, { h with cells := h.cells.set (choose h.cells - 1) (.live s) })
  else
    (h.cells.length + 1, { h with cells := h.cells ++ [.live s] })

/-- Modelled from the C standard: `free(p)`. -/
def free (h : cheap) (p : Nat) : cheap :=
  if p = 0 then h
  else
    match h.cells.getD (p - 1) .freed with
    | .live _ => { h with cells := h.cells.set (p - 1) .freed }
    | .freed => { h with undefined := true }

/-- The string that the pointer `p` points to: `none` for NULL and for a buffer that is
not allocated. -/
def deref (h : cheap) (p : Nat) : Option (List Char) :=
  if p = 0 then none
  else
    match h.cells.getD (p - 1) .freed with
    | .live s => some s
    | .freed => none

/-- Reading the string at `p`: NULL is passed on as `none`; reading a buffer that is not
allocated is undefined. -/
def read_string (h : cheap) (p : Nat) : Option (List Char) × cheap :=
  if p = 0 then (none, h)
  else
    match h.cells.getD (p - 1) .freed with
    | .live s => (some s, h)
    | .freed => (none, { h with undefined := true })

/-- The struct `config_t` of config.h, its nested structs flattened
(`execute.interval` is `execute_interval`). The three `char *` members are addresses. -/
structure config_t where
  filename : List Char
  execute_as_daemon : Int
  execute_tmpfs : Int
  execute_interval : Int
  execute_loglevel : Int
  database_filename : List Char
  database_tmpfsfilename : Nat
  inet_pingtimeout : Int
  inet_pinghosts : Nat
  modem_powercontrol : Int
  modem_powerupdelay : Int
  modem_ip : List Char
  modem_pingtimeout : Int
  modem_scrubber_filename : List Char
  modem_scrubber_timeout : Int
  cmd_createdatabase : Int
  cmd_createconfigfile : Int
  cmd_testdbwriteperf : Int
  event_apply_dst : Int
  event_liststring : Nat
deriving DecidableEq, Repr

def EXIT_SUCCESS : Int := 0
def EXIT_FAILURE : Int := 1

def CFG_DEFAULT_FILECONFIG : List Char := "/etc/icmond.conf".toList
def CFG_DEFAULT_FILEDATABASE : List Char := "/srv/icmond.sqlite3".toList
def CFG_DEFAULT_EXE_LOGLEVEL : Int := 6
def CFG_DEFAULT_EXE_INTERVAL : Int := 10
def CFG_DEFAULT_EXE_ASDAEMON : Int := 1
def CFG_DEFAULT_EXE_TMPFS : Int := 2
def CFG_DEFAULT_INET_PINGHOSTS : List Char := "www.google.com".toList
def CFG_DEFAULT_INET_PINGTIMEOUT : Int := 1000
def CFG_DEFAULT_MODEM_POWERCONTROL : Int := 0
def CFG_DEFAULT_MODEM_POWERUPDELAY : Int := 45
def CFG_DEFAULT_MODEM_PINGTIMEOUT : Int := 200
def CFG_DEFAULT_MODEM_SCRUBBERTIMEOUT : Int := 4000
def CFG_DEFAULT_MODEM_SCRUBBER : List Char := "/usr/local/bin/icmond.scrubber".toList
def CFG_DEFAULT_MODEM_IP : List Char := "192.168.1.1".toList
def CFG_DEFAULT_EVENT_APPLYDST : Int := 0
def CFG_DEFAULT_EVENT_STRING : List Char := []
def CFG_MAX_FILENAME_LEN : Nat := 4096

/-- The part of `cfg` that event.c reads. -/
def eventCfg (c : config_t) : cfg_t :=
  ⟨c.modem_powercontrol, c.modem_powerupdelay, c.event_apply_dst⟩

/-- The function `cfg_dup(config)`: a copy of the struct; the buffers that its members
point to are not copied. -/
def cfg_dup (config : config_t) : config_t := config

/-- The function `cfg_init(new)`: the struct and the heap afterwards. -/
def cfg_init (choose : List cell → Nat) (new : config_t) (h : cheap) : config_t × cheap :=
  let new := { new with
    filename := CFG_DEFAULT_FILECONFIG
    execute_as_daemon := CFG_DEFAULT_EXE_ASDAEMON
    execute_tmpfs := CFG_DEFAULT_EXE_TMPFS
    execute_interval := CFG_DEFAULT_EXE_INTERVAL
    execute_loglevel := CFG_DEFAULT_EXE_LOGLEVEL
    database_filename := CFG_DEFAULT_FILEDATABASE
    database_tmpfsfilename := 0
    inet_pingtimeout := CFG_DEFAULT_INET_PINGTIMEOUT }
  let h := if new.inet_pinghosts ≠ 0 then free h new.inet_pinghosts else h
  let r := strdup choose h CFG_DEFAULT_INET_PINGHOSTS
  let h := r.2
  let new := { new with
    inet_pinghosts := r.1
    modem_powercontrol := CFG_DEFAULT_MODEM_POWERCONTROL
    modem_powerupdelay := CFG_DEFAULT_MODEM_POWERUPDELAY
    modem_ip := CFG_DEFAULT_MODEM_IP
    modem_pingtimeout := CFG_DEFAULT_MODEM_PINGTIMEOUT
    modem_scrubber_filename := CFG_DEFAULT_MODEM_SCRUBBER
    modem_scrubber_timeout := CFG_DEFAULT_MODEM_SCRUBBERTIMEOUT
    cmd_createdatabase := 0
    cmd_createconfigfile := 0
    cmd_testdbwriteperf := 0
    event_apply_dst := CFG_DEFAULT_EVENT_APPLYDST }
  let h := if new.event_liststring ≠ 0 then free h new.event_liststring else h
  if CFG_DEFAULT_EVENT_STRING.length ≠ 0 then
    let r := strdup choose h CFG_DEFAULT_EVENT_STRING
    ({ new with event_liststring := r.1 }, r.2)
  else
    ({ new with event_liststring := 0 }, h)

/-- The function `cfg_commit(config)` for a non-NULL argument: the live `cfg` and the
heap afterwards. -/
def cfg_commit (cfg config : config_t) (h : cheap) : config_t × cheap :=
  let h := if cfg.inet_pinghosts ≠ 0 ∧ cfg.inet_pinghosts ≠ config.inet_pinghosts
    then free h cfg.inet_pinghosts else h
  let h := if cfg.event_liststring ≠ 0 ∧ cfg.event_liststring ≠ config.event_liststring
    then free h cfg.event_liststring else h
  let h := if cfg.database_tmpfsfilename ≠ 0 ∧
      cfg.database_tmpfsfilename ≠ config.database_tmpfsfilename
    then free h cfg.database_tmpfsfilename else h
  (config, h)

/-- The function `cfg_free(config)` for an argument that is neither NULL nor `&cfg`: the
heap afterwards (the struct `*config` itself is not part of the model). -/
def cfg_free (cfg config : config_t) (h : cheap) : cheap :=
  let h := if cfg.event_liststring ≠ config.event_liststring
    then free h config.event_liststring else h
  let h := if cfg.inet_pinghosts ≠ config.inet_pinghosts
    then free h config.inet_pinghosts else h
  let h := if cfg.database_tmpfsfilename ≠ config.database_tmpfsfilename
    then free h cfg.database_tmpfsfilename else h
  h

/-- The macro `isopt(s, o)` of `cfg_preread_commandline`: `o` is the start of `s`. -/
def isopt (s o : List Char) : Bool := o.isPrefixOf s

/-- The loop of `cfg_preread_commandline` over the arguments that are left; it ends
early at a `-config=` name that is too long. -/
def preread_loop : List (List Char) → config_t → config_t
  | [], c => c
  | arg :: rest, c =>
    if isopt arg "-config=".toList then
      let valstr := arg.drop 8
      if valstr.length + 1 > CFG_MAX_FILENAME_LEN + 1 then c
      else preread_loop rest { c with filename := valstr }
    else if isopt arg "-createdb".toList then
      preread_loop rest { c with cmd_createdatabase := 1 }
    else if isopt arg "-writeconfig".toList then
      preread_loop rest { c with cmd_createconfigfile := 1 }
    else preread_loop rest c

/-- The function `cfg_preread_commandline(cfgptr, argv)` as far as it writes to
`*cfgptr`. The value it returns (which depends on whether the file named exists) is
not used by `handle_SIGHUP` and is left out. -/
def cfg_preread_commandline (cfgptr : config_t) (argv : List (List Char)) : config_t :=
  preread_loop argv cfgptr

/-- What a configuration file, or the options of the command line, set: the members
that are not pointers (`scalars`; what it does to the three pointers is ignored), and
for `inet.pinghosts` and `event.liststring` whether the key is not given (`none`), is
given without a value (`some none`, the member becomes NULL) or is given with the text
that `keyval2valstr` puts into a new buffer. `n_errors` counts the settings in error. -/
structure settings where
  scalars : config_t → config_t
  pinghosts : Option (Option (List Char))
  liststring : Option (Option (List Char))
  n_errors : Nat

/-- What `cfg_read_file` finds under the name of the configuration file. -/
inductive file_outcome where
  | absent
  | unreadable
  | lines (s : settings)

/-- Writing the settings `s` into `tmpcfg`. The old buffers are not freed: the pointers
are overwritten. -/
def apply_settings (choose : List cell → Nat) (s : settings) (tmpcfg : config_t)
    (h : cheap) : config_t × cheap :=
  let c := s.scalars tmpcfg
  let c := { c with inet_pinghosts := tmpcfg.inet_pinghosts,
                    event_liststring := tmpcfg.event_liststring,
                    database_tmpfsfilename := tmpcfg.database_tmpfsfilename }
  let r1 : config_t × cheap :=
    match s.pinghosts with
    | none => (c, h)
    | some none => ({ c with inet_pinghosts := 0 }, h)
    | some (some t) =>
      let r := strdup choose h t
      ({ c with inet_pinghosts := r.1 }, r.2)
  match s.liststring with
  | none => r1
  | some none => ({ r1.1 with event_liststring := 0 }, r1.2)
  | some (some t) =>
    let r := strdup choose r1.2 t
    ({ r1.1 with event_liststring := r.1 }, r.2)

/-- The function `cfg_read_file(tmpcfg)`: the value returned, the struct and the heap.
The loop over the lines of the file is summed up by the settings it reads. -/
def cfg_read_file (choose : List cell → Nat) (file : List Char → file_outcome)
    (tmpcfg : config_t) (h : cheap) : Int × config_t × cheap :=
  match file tmpcfg.filename with
  | .absent =>
    if tmpcfg.filename = CFG_DEFAULT_FILECONFIG then (EXIT_SUCCESS, tmpcfg, h)
    else (EXIT_FAILURE, tmpcfg, h)
  | .unreadable => (EXIT_FAILURE, tmpcfg, h)
  | .lines s =>
    let r := apply_settings choose s tmpcfg h
    if s.n_errors ≠ 0 then (EXIT_FAILURE, r.1, r.2) else (EXIT_SUCCESS, r.1, r.2)

/-- The function `cfg_read_argv(tmpcfg, argv)`, the loop over the options summed up by
the settings they make (there is no option for the schedule). -/
def cfg_read_argv (choose : List cell → Nat) (options : settings) (tmpcfg : config_t)
    (h : cheap) : Int × config_t × cheap :=
  let r := apply_settings choose { options with liststring := none } tmpcfg h
  if options.n_errors ≠ 0 then (EXIT_FAILURE, r.1, r.2) else (EXIT_SUCCESS, r.1, r.2)

/-- The macro `isdelim(c)` of util.c. -/
def isdelim (c : Char) : Bool := c = ',' || c = ';'

/-- The pieces of a string between its delimiters (one more than there are
delimiters). -/
def splitDelim : List Char → List (List Char)
  | [] => [[]]
  | c :: rest =>
    if isdelim c then [] :: splitDelim rest
    else
      match splitDelim rest with
      | [] => [[c]]
      | p :: ps => (c :: p) :: ps

/-- A piece without the white space at its start and at its end. -/
def trimSpace (s : List Char) : List Char :=
  ((s.dropWhile isspace).reverse.dropWhile isspace).reverse

/-- The function `str2arr(list)` of util.c: NULL for NULL, otherwise the pieces between
the delimiters `,` and `;`, each without the white space around it. -/
def str2arr (list : Option (List Char)) : Option (List (List Char)) :=
  match list with
  | none => none
  | some s => some ((splitDelim s).map trimSpace)

/-- The function `arrlen(array)` of util.c with the NULL argument: -1 for NULL. -/
def arrlen_null (array : Option (List (List Char))) : Int :=
  match array with
  | none => -1
  | some a => (arrlen a : Int)

/-- The environment of a reload: the allocator, the saved command line and the
settings its options make, the configuration file found under a name, the outcome of
the checks of files in `cfg_check` (`none` when one of them fails, otherwise the struct
with the real paths filled in), the time zone functions and the clock readings of
`cfg_check` and of `daemon_initialize`. -/
structure reload_env where
  choose : List cell → Nat
  cmdline : List (List Char)
  options : settings
  file : List Char → file_outcome
  check_files : config_t → Option config_t
  lib : libc_t
  now : Int
  now_init : Int

/-- The function `cfg_check(config)`: the value returned, `*config`, the heap and the
globals of event.c. `cfg` is the global configuration. The buffers that the function
allocates and frees again for `realpath` are left out. -/
def cfg_check (env : reload_env) (cfg config : config_t) (h : cheap) (st : globals) :
    Int × config_t × cheap × globals :=
  match env.check_files config with
  | none => (EXIT_FAILURE, config, h, st)
  | some config =>
    -- char **eventarray = str2arr(cfg.event.liststring);
    let r := read_string h cfg.event_liststring
    let eventarray := str2arr r.1
    if arrlen_null eventarray ≠ 0 then
      let p := event_test_parse env.lib (eventCfg cfg) env.now st eventarray
      if p.1 ≠ 0 then
        if p.1 < 0 then (EXIT_SUCCESS, config, r.2, p.2)
        else (EXIT_FAILURE, config, r.2, p.2)
      else (EXIT_SUCCESS, config, r.2, p.2)
    else (EXIT_SUCCESS, config, r.2, st)

/-- The timers `this.interval` and `this.schedule` of daemon.c: whether the descriptor
exists, the times set, and the number of calls of `timerfd_settime` so far. -/
structure timers_t where
  interval_fd : Bool
  interval_value : Int
  interval_interval : Int
  schedule_fd : Bool
  schedule_value : Int
  n_settime : Nat
deriving DecidableEq, Repr

/-- The state that a reload works on: the live configuration `cfg`, the C heap, the
globals of event.c and eventheap.c and the timers. -/
structure reload_state where
  cfg : config_t
  heap : cheap
  globals : globals
  timers : timers_t
deriving DecidableEq, Repr

/-- The function `daemon_initialize()` as far as it depends on the configuration and
the schedule (the descriptors for the signals and for the two timeouts are made once
and are left out; the system calls are taken to succeed); `none` would mean that the
loop bound of `event_schedule_clear` was used up. -/
def daemon_initialize (now : Int) (s : reload_state) : Option reload_state :=
  let t := s.timers
  let t :=
    if s.cfg.execute_interval ≠ t.interval_interval then
      { t with interval_fd := true
               interval_value := now + (10 - Int.tmod now 10)
               interval_interval := s.cfg.execute_interval
               n_settime := t.n_settime + 1 }
    else t
  let t := if t.schedule_fd then { t with schedule_fd := false, schedule_value := 0 } else t
  let t :=
    match eventheap_peek s.globals.g_heap with
    | some event =>
      { t with schedule_fd := true, schedule_value := event.next_trigger,
               n_settime := t.n_settime + 1 }
    | none => t
  match event_schedule_clear s.globals EVENT_SOURCE_PARSED with
  | none => none
  | some g => some { s with timers := t, globals := event_commit_test_schedule g }

/-- The function `handle_SIGHUP()`; `none` would mean that the loop bound of
`event_schedule_clear` was used up. -/
def handle_SIGHUP (env : reload_env) (s : reload_state) : Option reload_state :=
  let newcfg := cfg_dup s.cfg
  let r := cfg_init env.choose newcfg s.heap
  let newcfg := cfg_preread_commandline r.1 env.cmdline
  let f := cfg_read_file env.choose env.file newcfg r.2
  if f.1 ≠ 0 then
    some { s with heap := cfg_free s.cfg f.2.1 f.2.2 }
  else
    let a := cfg_read_argv env.choose env.options f.2.1 f.2.2
    let c := cfg_check env s.cfg a.2.1 a.2.2 s.globals
    if c.1 ≠ 0 then
      some { s with heap := c.2.2.1, globals := c.2.2.2 }
    else
      let m := cfg_commit s.cfg c.2.1 c.2.2.1
      let h := cfg_free m.1 c.2.1 m.2
      daemon_initialize env.now_init
        { s with cfg := m.1, heap := h, globals := c.2.2.2 }

/-- A live configuration for the examples: the defaults of `cfg_init` with the given
pointers. -/
def exampleConfig (pinghosts liststring : Nat) : config_t :=
  { filename := CFG_DEFAULT_FILECONFIG
    execute_as_daemon := CFG_DEFAULT_EXE_ASDAEMON
    execute_tmpfs := 0
    execute_interval := CFG_DEFAULT_EXE_INTERVAL
    execute_loglevel := CFG_DEFAULT_EXE_LOGLEVEL
    database_filename := CFG_DEFAULT_FILEDATABASE
    database_tmpfsfilename := 0
    inet_pingtimeout := CFG_DEFAULT_INET_PINGTIMEOUT
    inet_pinghosts := pinghosts
    modem_powercontrol := CFG_DEFAULT_MODEM_POWERCONTROL
    modem_powerupdelay := CFG_DEFAULT_MODEM_POWERUPDELAY
    modem_ip := CFG_DEFAULT_MODEM_IP
    modem_pingtimeout := CFG_DEFAULT_MODEM_PINGTIMEOUT
    modem_scrubber_filename := CFG_DEFAULT_MODEM_SCRUBBER
    modem_scrubber_timeout := CFG_DEFAULT_MODEM_SCRUBBERTIMEOUT
    cmd_createdatabase := 0
    cmd_createconfigfile := 0
    cmd_testdbwriteperf := 0
    event_apply_dst := CFG_DEFAULT_EVENT_APPLYDST
    event_liststring := liststring }

/-- An environment for the examples: the allocator `choose`, no options on the command
line, the configuration file `file`, all checks of files passing, universal time and
the clock at 1000. -/
def exampleEnv (choose : List cell → Nat) (file : file_outcome) : reload_env :=
  { choose := choose
    cmdline := ["icmond".toList]
    options := ⟨fun c => c, none, none, 0⟩
    file := fun _ => file
    check_files := fun c => some c
    lib := exampleLibc
    now := 1000
    now_init := 1000 }

/-- The INTERNAL event that `predaemon_initialize` makes at clock 1000: IMPORTTMPFS
every 600 s. -/
def importEvent : event_t :=
  ⟨1600, 600, EVENT_TYPE_INTERVAL, EVENT_ACTION_IMPORTTMPFS, EVENT_SOURCE_INTERNAL⟩

/-- The timers after the first `daemon_initialize` at clock 1000 with `importEvent` in
the queue. -/
def exampleTimers : timers_t := ⟨true, 1010, 10, true, 1600, 2⟩


/-! ## Timer values made from milliseconds (datalogger.c, icmpecho.c, daemon.c) -/

/-- The struct `timespec`. -/
structure timespec where
  tv_sec : Int
  tv_nsec : Int
deriving DecidableEq, Repr

/-- The struct `itimerspec`. -/
structure itimerspec where
  it_value : timespec
  it_interval : timespec
deriving DecidableEq, Repr

/-- The function `init_scrubber_struct(scriptname, modemip, timeout)` of datalogger.c:
the value it gives `scrubber.tspec` (the copies of the two strings, the descriptor and
the pipe are left out). `timeout` is an `int`, `/` and `%` are those of C. -/
def init_scrubber_struct (timeout : Int) : itimerspec :=
  { it_value := { tv_sec := Int.tdiv timeout 1000, tv_nsec := Int.tmod timeout 1000 }
    it_interval := { tv_sec := 0, tv_nsec := 0 } }

/-- The function `icmp_prepare(host, timeout)` of icmpecho.c: the value it gives
`icmp->timeoutspec`. -/
def icmp_prepare (timeout : Int) : itimerspec :=
  { it_value := { tv_sec := Int.tdiv timeout 1000, tv_nsec := Int.tmod timeout 1000 * 1000000 }
    it_interval := { tv_sec := 0, tv_nsec := 0 } }

def DAEMON_DATALOGGER_TIMEOUT : Int := 4800

/-- The value that `daemon_initialize()` gives `this.worker.tspec`. -/
def worker_tspec : itimerspec :=
  { it_value := { tv_sec := Int.tdiv DAEMON_DATALOGGER_TIMEOUT 1000,
                  tv_nsec := Int.tmod DAEMON_DATALOGGER_TIMEOUT 1000 * 1000000 }
    it_interval := { tv_sec := 0, tv_nsec := 0 } }

/-- The duration of a `timespec` in nanoseconds. -/
def nanoseconds (t : timespec) : Int := t.tv_sec * 1000000000 + t.tv_nsec

/-! ## main.c: the commands and the start of the daemon -/

def EXIT_CANCELLED : Int := 2

/-- What the calls made by `cmd_initdb` return: `euidaccess(filename, F_OK)`,
`euidaccess(filename, W_OK | R_OK)`, `ttyprompt(...)`, `unlink(filename)`,
`user_set_eugid(...)`, `database_initialize(filename)` and `user_restore_eugid()`. -/
structure initdb_calls where
  euidaccess_F_OK : Int
  euidaccess_RW : Int
  ttyprompt : Int
  unlink : Int
  user_set_eugid : Int
  database_initialize : Int
  user_restore_eugid : Int
deriving DecidableEq, Repr

/-- The function `cmd_initdb(filename)`. -/
def cmd_initdb (c : initdb_calls) : Int :=
  if c.euidaccess_F_OK ≠ -1 then
    if c.euidaccess_RW = -1 then EXIT_FAILURE
    else if c.ttyprompt = 0 then EXIT_CANCELLED
    else if c.unlink ≠ 0 then EXIT_FAILURE
    else if c.user_set_eugid = EXIT_FAILURE then EXIT_FAILURE
    else if c.database_initialize ≠ 0 then EXIT_FAILURE
    else if c.user_restore_eugid ≠ 0 then EXIT_FAILURE
    else EXIT_SUCCESS
  else if c.user_set_eugid = EXIT_FAILURE then EXIT_FAILURE
  else if c.database_initialize ≠ 0 then EXIT_FAILURE
  else if c.user_restore_eugid ≠ 0 then EXIT_FAILURE
  else EXIT_SUCCESS

/-- What the calls made by `cmd_writeconfig` return: `euidaccess(filename, F_OK)`,
`access(filename, W_OK | R_OK)`, `ttyprompt(...)`, `unlink(filename)` and
`cfg_writefile(filename)`. -/
structure writeconfig_calls where
  euidaccess_F_OK : Int
  access_RW : Int
  ttyprompt : Int
  unlink : Int
  cfg_writefile : Int
deriving DecidableEq, Repr

/-- The function `cmd_writeconfig(filename)`. -/
def cmd_writeconfig (c : writeconfig_calls) : Int :=
  if c.euidaccess_F_OK ≠ -1 then
    if c.access_RW = -1 then EXIT_FAILURE
    else if c.ttyprompt = 0 then EXIT_CANCELLED
    else if c.unlink ≠ 0 then EXIT_FAILURE
    else if c.cfg_writefile ≠ 0 then EXIT_FAILURE
    else EXIT_SUCCESS
  else if c.cfg_writefile ≠ 0 then EXIT_FAILURE
  else EXIT_SUCCESS

/-- The function `cmd_testdbperf(nsamples)`; `dbperf` tells whether
`database_testwriteperf` returns a result (not NULL). -/
def cmd_testdbperf (nsamples : Int) (dbperf : Bool) : Int :=
  if nsamples < 0 then EXIT_FAILURE
  else if ¬ dbperf then EXIT_FAILURE
  else EXIT_SUCCESS

/-- The part of `main` that runs the commands `-createdb`, `-writeconfig` and
`-testdbwriteperf` of the configuration `cfg`: the exit status of the process (by
`exit` or by `return` from `main`), or `none` when no command was given and `main` goes
on to `cfg_check` and the start of the daemon. -/
def main_commands (cfg : config_t) (initdb : initdb_calls) (writeconfig : writeconfig_calls)
    (dbperf : Bool) : Option Int :=
  let rc1 := if cfg.cmd_createdatabase ≠ 0 then cmd_initdb initdb else EXIT_SUCCESS
  if cfg.cmd_createdatabase ≠ 0 ∧ rc1 = EXIT_CANCELLED then some EXIT_FAILURE
  else if cfg.cmd_createdatabase ≠ 0 ∧ rc1 = EXIT_FAILURE then some EXIT_FAILURE
  else
    let rc2 := if cfg.cmd_createconfigfile ≠ 0 then cmd_writeconfig writeconfig else EXIT_SUCCESS
    if cfg.cmd_createconfigfile ≠ 0 ∧ rc2 = EXIT_CANCELLED then some EXIT_FAILURE
    else if cfg.cmd_createconfigfile ≠ 0 ∧ rc2 = EXIT_FAILURE then some EXIT_FAILURE
    else if cfg.cmd_testdbwriteperf ≠ 0 ∧ cmd_testdbperf cfg.cmd_testdbwriteperf dbperf ≠ 0 then
      some EXIT_FAILURE
    else if cfg.cmd_createdatabase ≠ 0 ∨ cfg.cmd_createconfigfile ≠ 0 ∨
        cfg.cmd_testdbwriteperf ≠ 0 then some EXIT_SUCCESS
    else none

def DAEMON_TMPFS_DATABASEFILE : List Char := "/tmp/icmond.tmpfs/icmond.sqlite3".toList
def DAEMON_IMPORTTMPFS_INTERVAL : Int := 600
def DAEMON_IMPORTTMPFS_TIMEOUT : Int := 60

/-- The environment of `predaemon_initialize`: the allocator, what
`database_testwriteperf` returns (`none` for NULL, otherwise the mean and the maximum
of the delays in milliseconds), the values returned by `tmpfs_mount`, `user_set_eugid`,
`database_initialize` and `user_restore_eugid`, the time zone functions and the two
clock readings of `event_create`. -/
structure predaemon_env where
  choose : List cell → Nat
  dbperf : Option (ℚ × ℚ)
  tmpfs_mount : Int
  user_set_eugid : Int
  database_initialize : Int
  user_restore_eugid : Int
  lib : libc_t
  now : Int
  now2 : Int

/-- What `predaemon_initialize` ends in: it returns a value, with the configuration
`cfg`, the C heap and the globals of event.c as given, or the process exits in
`event_create`. -/
inductive predaemon_result where
  | returned (value : Int) (cfg : config_t) (h : cheap) (st : globals)
  | exited
deriving DecidableEq, Repr

/-- The step `if (cfg.execute.tmpfs == AUTO) ...` of `predaemon_initialize`: `none` when
`database_testwriteperf` fails, otherwise the new value of `cfg.execute.tmpfs`. -/
def predaemon_auto (env : predaemon_env) (cfg : config_t) : Option Int :=
  if cfg.execute_tmpfs = 2 then
    match env.dbperf with
    | none => none
    | some (mean, max) => if mean > 200 ∨ max > 800 then some 1 else some 0
  else some cfg.execute_tmpfs

/-- The function `predaemon_initialize()` of main.c. -/
def predaemon_initialize (env : predaemon_env) (cfg : config_t) (h : cheap) (st : globals) :
    predaemon_result :=
  match predaemon_auto env cfg with
  | none => .returned EXIT_FAILURE cfg h st
  | some tmpfs =>
    let cfg := { cfg with execute_tmpfs := tmpfs }
    if cfg.execute_tmpfs = 1 then
      if env.tmpfs_mount ≠ 0 then .returned EXIT_FAILURE cfg h st
      else
        let r := strdup env.choose h DAEMON_TMPFS_DATABASEFILE
        let cfg := { cfg with database_tmpfsfilename := r.1 }
        let h := r.2
        if env.user_set_eugid = EXIT_FAILURE then .returned EXIT_FAILURE cfg h st
        else if env.database_initialize ≠ 0 then .returned EXIT_FAILURE cfg h st
        else if env.user_restore_eugid ≠ 0 then .returned EXIT_FAILURE cfg h st
        else
          match event_create env.lib (eventCfg cfg) env.now env.now2 st
              EVENT_ACTION_IMPORTTMPFS DAEMON_IMPORTTMPFS_INTERVAL with
          | .exited => .exited
          | .returned value st =>
            if value ≠ 0 then .returned EXIT_FAILURE cfg h st
            else .returned EXIT_SUCCESS cfg h st
    else .returned EXIT_SUCCESS cfg h st

/-- An environment for the examples in which every step succeeds: the clock at 1000,
universal time. -/
def examplePredaemon (choose : List cell → Nat) : predaemon_env :=
  { choose := choose
    dbperf := none
    tmpfs_mount := 0
    user_set_eugid := 0
    database_initialize := 0
    user_restore_eugid := 0
    lib := exampleLibc
    now := 1000
    now2 := 1000 }

/-- The insert target `datafile` of `datalogger` (datalogger.c): the string that the
pointer points to, `none` when the pointer is NULL or its buffer is not allocated. -/
def datalogger_datafile (cfg : config_t) (h : cheap) : Option (List Char) :=
  if cfg.execute_tmpfs ≠ 0 then deref h cfg.database_tmpfsfilename
  else some cfg.database_filename

/-! ## daemon.c: the interval timer and the worker timeout in one wake -/

/-- The calls that the two blocks make: `timerfd_acknowledge(this.interval.fd)`,
`fork()`, `timerfd_start_rel(this.worker.fd, ...)`,
`timerfd_acknowledge(this.worker.fd)`, `timerfd_disarm(this.worker.fd)` and
`kill(pid, SIGKILL)`. -/
inductive daemon_call where
  | acknowledge_interval
  | fork
  | start_worker
  | acknowledge_worker
  | disarm_worker
  | kill (pid : Int)
deriving DecidableEq, Repr

/-- The calls made by the block `if (FD_ISSET(this.interval.fd, &this.readfds))` in the
daemon, in their order (see `interval_tick` for the state). -/
def interval_tick_calls (s : daemon_state) (fork : Int) : List daemon_call :=
  if ¬ (s.suspended_by_command ≠ 0 ∨ s.suspended_by_schedule ≠ 0) then
    if s.worker_pid ≠ 0 then [.acknowledge_interval]
    else if fork < 0 then [.acknowledge_interval, .fork]
    else if fork > 0 then [.acknowledge_interval, .fork, .start_worker]
    else [.acknowledge_interval, .fork]
  else [.acknowledge_interval]

/-- What one wake of the main loop ends in, with the calls made so far: the loop goes
on in the daemon, this process is the child made by `fork()`, or the daemon exits. -/
inductive wake_result where
  | parent (s : daemon_state) (calls : List daemon_call)
  | child (calls : List daemon_call)
  | exited (calls : List daemon_call)
deriving DecidableEq, Repr

/-- The block `if (FD_ISSET(this.worker.fd, &this.readfds))` of `daemon_main`; `kill` is
the value that `kill()` returns: the state, or `none` when the daemon exits. -/
def worker_timeout (s : daemon_state) (kill : Int) : Option daemon_state :=
  let s := { s with worker_armed := false }
  if kill ≠ 0 then none else some s

/-- The blocks of the interval timer and of the worker timeout in one pass of the loop
of `daemon_main`, in the order of the source; `interval_ready` and `worker_ready` tell
which of the two descriptors are set in `this.readfds`. -/
def wake (s : daemon_state) (interval_ready worker_ready : Bool) (fork kill : Int) :
    wake_result :=
  let r : tick_result × List daemon_call :=
    if interval_ready then (interval_tick s fork, interval_tick_calls s fork)
    else (.parent s, [])
  match r.1 with
  | .child => .child r.2
  | .parent s1 =>
    if worker_ready then
      let calls := r.2 ++ [.acknowledge_worker, .disarm_worker, .kill s1.worker_pid]
      match worker_timeout s1 kill with
      | none => .exited calls
      | some s2 => .parent s2 calls
    else .parent s1 r.2

/-! ## keyval.c

A `keyval_t` is the list of the strings that its pointers point to, up to the NULL that
ends the pointer list: the key and then the values. `malloc` is taken to succeed. The
macro `isdelim(c)` of keyval.c agrees with the one of util.c on the characters of a
string. -/

/-- The loop of `__remove_comments(src)` over the rest of the line: the text that it
copies. -/
def remove_comments_loop : List Char → Bool → List Char
  | [], _ => []
  | chr :: rest, f_escape =>
    if chr = '\\' ∧ f_escape = false then chr :: remove_comments_loop rest true
    else if chr = '#' ∧ f_escape = false then []
    else chr :: remove_comments_loop rest false

/-- The function `__remove_comments(src)`. -/
def __remove_comments (src : Option (List Char)) : Option (List Char) :=
  match src with
  | none => none
  | some s => some (remove_comments_loop s false)

/-- The loop `do { end--; } while (end > begin && isspace(*end)); end++;` of
`__trimcpy`. The argument is the index of `end` plus one (before the loop, `len`), the
result is the index of `end` after `end++`. The character at the index of the
terminating NUL is NUL. -/
def trimcpy_end (src : List Char) (begin : Nat) : Nat → Nat
  | 0 => 0
  | e + 1 =>
    if e > begin ∧ isspace (src.getD e (Char.ofNat 0)) then trimcpy_end src begin e
    else e + 1

/-- The function `__trimcpy(dst, src, len)`: the string written to `dst`; `src` is the
text from the pointer `src` to the end of the line. The loop over the leading white
space is not bounded by `len`. In `__getkeyval` the character `src[len]` is `=`, a
delimiter or NUL, so that `begin` does not pass `src + len` and `end - begin` is not
negative. -/
def __trimcpy (src : List Char) (len : Nat) : List Char :=
  let begin := (src.takeWhile isspace).length
  if begin = src.length then []
  else
    let e := trimcpy_end src begin len
    (src.drop begin).take (e - begin)

/-- The inner loop of `__sanitize_values(kv)` over the rest of a string: the text that
it writes. -/
def sanitize_loop : List Char → Bool → List Char
  | [], _ => []
  | chr :: rest, f_escape =>
    if chr = '\\' ∧ f_escape = false then sanitize_loop rest true
    else if chr = '\\' ∧ f_escape = true then chr :: sanitize_loop rest false
    else chr :: sanitize_loop rest false

/-- The function `__sanitize_values(kv)`. -/
def __sanitize_values (kv : Option (List (List Char))) : Option (List (List Char)) :=
  match kv with
  | none => none
  | some l => some (l.map (fun s => sanitize_loop s false))

/-- The first loop of `__getkeyval(src)` over the rest of the line: `f_delim` and the
index that `equalsignptr` points to (the last argument while no `=` was counted). -/
def getkeyval_equalsign : List Char → Nat → Bool → Nat → Nat → Nat × Nat
  | [], _, _, f_delim, equalsign => (f_delim, equalsign)
  | chr :: rest, srcindex, f_escape, f_delim, equalsign =>
    if chr = '\\' ∧ f_escape = false then
      getkeyval_equalsign rest (srcindex + 1) true f_delim equalsign
    else if chr = '#' ∧ f_escape = false then (f_delim, equalsign)
    else if chr = '=' ∧ f_escape = false then
      getkeyval_equalsign rest (srcindex + 1) false (f_delim + 1) srcindex
    else getkeyval_equalsign rest (srcindex + 1) false f_delim equalsign

/-- The loop `for (; scanptr <= (src + strlen(src)); scanptr++)` of `__getkeyval`: the
values that it writes. The first argument is the text at `scanptr` (the empty list when
`scanptr` is at the terminating NUL), the second the text at `valptr` and the third
`scanptr - valptr`. -/
def getkeyval_values : List Char → List Char → Nat → Bool → List (List Char)
  | [], valptr, n, f_escape =>
    if f_escape = false then [__trimcpy valptr n] else []
  | chr :: rest, valptr, n, f_escape =>
    if chr = '\\' ∧ f_escape = false then getkeyval_values rest valptr (n + 1) true
    else if isdelim chr ∧ f_escape = false then
      __trimcpy valptr n :: getkeyval_values rest rest 0 false
    else getkeyval_values rest valptr (n + 1) false

/-- The function `__getkeyval(src)`. The second loop, which counts the delimiters for
the size of the buffer, is left out. -/
def __getkeyval (src : List Char) : Option (List (List Char)) :=
  let r := getkeyval_equalsign src 0 false 0 0
  if r.1 ≠ 1 then none
  else
    let key := __trimcpy src r.2
    let scan := src.drop (r.2 + 1)
    some (key :: getkeyval_values scan scan 0 false)

/-- The function `keyval_create(keyvalstring)`. -/
def keyval_create (keyvalstring : Option (List Char)) : Option (List (List Char)) :=
  match __remove_comments keyvalstring with
  | none => none
  | some workbuffer => __sanitize_values (__getkeyval workbuffer)

/-- The function `keyval_nvalues(kv)`. -/
def keyval_nvalues (kv : Option (List (List Char))) : Int :=
  match kv with
  | none => 0
  | some l => (l.length : Int) - 1

/-- The function `keyval_iskey(kv, keyname)` for a `kv` that is not NULL. -/
def keyval_iskey (kv : List (List Char)) (keyname : List Char) : Bool :=
  strcasecmp_eq (kv.headD []) keyname

/-- The function `keyval_remove_empty_values(kv)` for a `kv` that is not NULL: the
pointers to the values that are not empty move to the front, the other pointers
become NULL. -/
def keyval_remove_empty_values (kv : List (List Char)) : List (List Char) :=
  kv.take 1 ++ (kv.drop 1).filter (fun v => v.length ≠ 0)

/-- The function `keyval2valstr(kv)` for a `kv` that is not NULL: the values with a
`,` between them. -/
def keyval2valstr (kv : List (List Char)) : List Char :=
  List.intercalate [','] (kv.drop 1)

/-- The key and the values of a line with one `=` in the words of the specification:
the text before the `=` without the white space around it, and the pieces of the text
after the `=` between the delimiters `,` and `;`, each without the white space around
it. -/
def specKeyval (line : List Char) : List (List Char) :=
  trimSpace (line.takeWhile (fun c => c ≠ '=')) ::
    (splitDelim ((line.dropWhile (fun c => c ≠ '=')).drop 1)).map trimSpace

/-- The text in which a backslash stands before every `,`, `;`, `=`, `#` and
backslash of `s`. -/
def escape : List Char → List Char
  | [] => []
  | c :: s =>
    if c = ',' ∨ c = ';' ∨ c = '=' ∨ c = '#' ∨ c = '\\' then '\\' :: c :: escape s
    else c :: escape s

/-- The text of further values, each after its delimiter and written with `escape`. -/
def escapeValues : List (Char × List Char) → List Char
  | [] => []
  | p :: rest => p.1 :: (escape p.2 ++ escapeValues rest)

/-- The number of the characters `=` of a line that are neither escaped by a backslash
nor in the comment that an unescaped `#` starts. -/
def unescapedEquals : List Char → Bool → Nat
  | [], _ => 0
  | c :: s, escaped =>
    if escaped then unescapedEquals s false
    else if c = '\\' then unescapedEquals s true
    else if c = '#' then 0
    else if c = '=' then unescapedEquals s false + 1
    else unescapedEquals s false

/-! ## config.c: writing and reading the configuration file -/

/-- Modelled from the C standard: the conversion `%d` of `printf`. -/
def printf_d (n : Int) : List Char :=
  if n < 0 then '-' :: Nat.toDigits 10 n.natAbs else Nat.toDigits 10 n.toNat

/-- The conversion `%s` of `printf` for the pointer `p`, as the GNU C library does it:
the text `(null)` for the NULL pointer (C leaves this case undefined). A buffer that is
not allocated gives no text here. -/
def printf_s (h : cheap) (p : Nat) : List Char :=
  if p = 0 then "(null)".toList
  else
    match deref h p with
    | some s => s
    | none => []

/-- Modelled from the C standard (overflow as the GNU C library does it): `atoi(s)`. -/
def atoi (s : List Char) : Int := toInt32 (strtol s).value

/-- The array `_loglevel[]` of config.c (without the terminating NULL). -/
def _loglevel : List (List Char) :=
  [ "LOG_EMERG".toList, "LOG_ALERT".toList, "LOG_CRIT".toList, "LOG_ERR".toList,
    "LOG_WARNING".toList, "LOG_NOTICE".toList, "LOG_INFO".toList, "LOG_DEBUG".toList ]

/-- The function `cfg_loglevel_val2str(loglevel)` for a level that is not negative:
`none` is NULL. -/
def cfg_loglevel_val2str (loglevel : Int) : Option (List Char) :=
  if loglevel > 7 then none else _loglevel[loglevel.toNat]?

/-- The loop of `cfg_loglevel_str2val` over the rows that are left, `idx` being the
index of the first: the index found, or `none` when the NULL row is reached. -/
def loglevel_str2val_loop (logstr : List Char) : List (List Char) → Nat → Option Nat
  | [], _ => none
  | row :: rows, idx =>
    if strcasecmp_eq logstr row then some idx else loglevel_str2val_loop logstr rows (idx + 1)

/-- The function `cfg_loglevel_str2val(logstr)` for a pointer that is not NULL: the
value returned and whether `errno` is set (to EINVAL; it is 0 otherwise). -/
def cfg_loglevel_str2val (logstr : List Char) : Int × Bool :=
  if logstr = [] then (-1, true)
  else
    match loglevel_str2val_loop logstr _loglevel 0 with
    | none => (-1, true)
    | some idx => ((idx : Int), false)

def CFG_MIN_EXE_INTERVAL : Int := 5
def CFG_MAX_EXE_INTERVAL : Int := 3600
def CFG_MIN_PING_TIMEOUT : Int := 100
def CFG_MAX_PING_TIMEOUT : Int := 3000
def CFG_MIN_MODEM_POWERUPDELAY : Int := 0
def CFG_MAX_MODEM_POWERUPDELAY : Int := 300
def CFG_MIN_MODEM_SCRUBBERTIMEOUT : Int := 200
def CFG_MAX_MODEM_SCRUBBERTIMEOUT : Int := 5000
def INET_ADDRSTRLEN : Nat := 16
def CFG_MAX_CONFIGFILE_ROW_WIDTH : Nat := 1024

/-- The text `TRUE` or `FALSE` for a truth value of C. -/
def truefalse (b : Bool) : List Char := if b then "TRUE".toList else "FALSE".toList

/-- The function `cfg_writefile(cfgfilename)` when `fopen` succeeds: the text written
to the file, one list per call of `fprintf`; `cfg` is the live configuration. -/
def cfg_writefile_lines (cfg : config_t) (h : cheap) (cfgfilename : List Char) :
    List (List Char) :=
  [ "#  ".toList ++ cfgfilename ++ "\n".toList,
    "#\n".toList,
    "#  Configuration file for icmond - Internet Connection MONitor Daemon\n".toList,
    "#\n".toList,
    "\n".toList,
    "# [daemon] Run as daemon?\n".toList,
    "# VALUES  : TRUE or FALSE\n".toList,
    "# DEFAULT : ".toList ++ truefalse (CFG_DEFAULT_EXE_ASDAEMON ≠ 0) ++ "\n".toList,
    "daemon = ".toList ++ truefalse (cfg.execute_as_daemon ≠ 0) ++ "\n".toList,
    "\n".toList,
    "# [ramdisk] Will a tmpfs be mounted for intermediate data storage\n".toList,
    "# VALUES  : TRUE, FALSE or AUTO\n".toList,
    "# DEFAULT : ".toList ++
      (if CFG_DEFAULT_EXE_TMPFS = 2 then "AUTO".toList
        else truefalse (CFG_DEFAULT_EXE_TMPFS ≠ 0)) ++ "\n".toList,
    "daemon = ".toList ++
      (if cfg.execute_tmpfs = 2 then "AUTO".toList
        else truefalse (CFG_DEFAULT_EXE_TMPFS ≠ 0)) ++ "\n".toList,
    "\n".toList,
    "# [interval] modem data logging interval\n".toList,
    "# VALUES  : ".toList ++ printf_d CFG_MIN_EXE_INTERVAL ++ " - ".toList ++
      printf_d CFG_MAX_EXE_INTERVAL ++ "\n".toList,
    "# DEFAULT : ".toList ++ printf_d CFG_DEFAULT_EXE_INTERVAL ++ "\n".toList,
    "interval = ".toList ++ printf_d cfg.execute_interval ++ "\n".toList,
    "\n".toList,
    "# [loglevel] Defines the priority for a message to get logged\n".toList,
    "# NOTE: Does NOT affect monitoring data, only the messages from monitoring software itself.\n".toList,
    "# VALUES  : LOG_ERR , LOG_INFO or LOG_DEBUG\n".toList,
    "# DEFAULT : ".toList ++
      (cfg_loglevel_val2str CFG_DEFAULT_EXE_LOGLEVEL).getD "(null)".toList ++ "\n".toList,
    "loglevel = ".toList ++
      (cfg_loglevel_val2str cfg.execute_loglevel).getD "(null)".toList ++ "\n".toList,
    "\n".toList,
    "# [database] SQLite3 database file where the logging information is stored\n".toList,
    "# NOTE: spaces are not supported (and \" -quotations will not help - sorry!)\n".toList,
    "# VALUES  : (filepath string)\n".toList,
    "# DEFAULT : ".toList ++ CFG_DEFAULT_FILEDATABASE ++ "\n".toList,
    "database = ".toList ++ cfg.database_filename ++ "\n".toList,
    "\n".toList,
    "# [inet pinghosts] host or address of the ping target\n".toList,
    "# VALUES  : single host \"www.host.com\" or list \"www.host1.com,www.host2.com,www.host3.com\"\n".toList,
    "# DEFAULT : ".toList ++ CFG_DEFAULT_INET_PINGHOSTS ++ "\n".toList,
    "inet pinghosts = ".toList ++ printf_s h cfg.inet_pinghosts ++ "\n".toList,
    "\n".toList,
    "# [inet pingtimeout] ping timeout in milliseconds\n".toList,
    "# VALUES  : ".toList ++ printf_d CFG_MIN_PING_TIMEOUT ++ " - ".toList ++
      printf_d CFG_MAX_PING_TIMEOUT ++ "\n".toList,
    "# DEFAULT : ".toList ++ printf_d CFG_DEFAULT_INET_PINGTIMEOUT ++ "\n".toList,
    "inet pingtimeout = ".toList ++ printf_d cfg.inet_pingtimeout ++ "\n".toList,
    "\n".toList,
    "# [modem powercontrol] do scheduled events control mains power\n".toList,
    "# NOT IMPLEMENTED, USE FALSE\n".toList,
    "# VALUES  : TRUE or FALSE\n".toList,
    "# DEFAULT : ".toList ++ truefalse (CFG_DEFAULT_MODEM_POWERCONTROL ≠ 0) ++ "\n".toList,
    "modem powercontrol = ".toList ++ truefalse (cfg.modem_powercontrol ≠ 0) ++ "\n".toList,
    "\n".toList,
    "# [modem powerupdelay] time it takes for the modem to boot up\n".toList,
    "# VALUES  : ".toList ++ printf_d CFG_MIN_MODEM_POWERUPDELAY ++ " - ".toList ++
      printf_d CFG_MAX_MODEM_POWERUPDELAY ++ " seconds\n".toList,
    "# DEFAULT : ".toList ++ printf_d CFG_DEFAULT_MODEM_POWERUPDELAY ++ "\n".toList,
    "modem powerupdelay = ".toList ++ printf_d cfg.modem_powerupdelay ++ "\n".toList,
    "\n".toList,
    "# [modem ip] do scheduled events control mains power\n".toList,
    "# VALUES  : TRUE or FALSE\n".toList,
    "# DEFAULT : ".toList ++ CFG_DEFAULT_MODEM_IP ++ "\n".toList,
    "modem ip = ".toList ++ cfg.modem_ip ++ "\n".toList,
    "\n".toList,
    "# [modem pingtimeout] ping timeout in milliseconds\n".toList,
    "# VALUES  : ".toList ++ printf_d CFG_MIN_PING_TIMEOUT ++ " - ".toList ++
      printf_d CFG_MAX_PING_TIMEOUT ++ "\n".toList,
    "# DEFAULT : ".toList ++ printf_d CFG_DEFAULT_MODEM_PINGTIMEOUT ++ "\n".toList,
    "modem pingtimeout = ".toList ++ printf_d cfg.modem_pingtimeout ++ "\n".toList,
    "\n".toList,
    "# [modem scrubber] script that retrieves data from modem\n".toList,
    "# VALUES  : (full path and filename)\n".toList,
    "# DEFAULT : ".toList ++ CFG_DEFAULT_MODEM_SCRUBBER ++ "\n".toList,
    "modem scrubber = ".toList ++ cfg.modem_scrubber_filename ++ "\n".toList,
    "\n".toList,
    "# [modem scrubbertimeout] scrubber timeout in milliseconds\n".toList,
    "# VALUES  : ".toList ++ printf_d CFG_MIN_MODEM_SCRUBBERTIMEOUT ++ " - ".toList ++
      printf_d CFG_MAX_MODEM_SCRUBBERTIMEOUT ++ " (milliseconds)\n".toList,
    "# DEFAULT : ".toList ++ printf_d CFG_DEFAULT_MODEM_SCRUBBERTIMEOUT ++ "\n".toList,
    "modem scrubbertimeout = ".toList ++ printf_d cfg.modem_scrubber_timeout ++ "\n".toList,
    "\n".toList,
    "# [schedule dst] is daylight savings observed\n".toList,
    "# VALUES  : TRUE or FALSE\n".toList,
    "# DEFAULT : ".toList ++ truefalse (CFG_DEFAULT_EVENT_APPLYDST = 1) ++ "\n".toList,
    "schedule dst = ".toList ++ truefalse (cfg.event_apply_dst = 1) ++ "\n".toList,
    "\n".toList,
    "# [schedule] events to schedule\n".toList,
    "# VALUES  : time in HH:MM followed by SUSPEND or RESUME (example \"04:30 SUSPEND\")\n".toList,
    "# DEFAULT : ".toList ++ CFG_DEFAULT_EVENT_STRING ++ "\n".toList,
    "schedule = ".toList ++ printf_s h cfg.event_liststring ++ "\n".toList,
    "\n".toList,
    "#EOF\n".toList ]

/-- The text of the file that `cfg_writefile(cfgfilename)` writes. -/
def cfg_writefile (cfg : config_t) (h : cheap) (cfgfilename : List Char) : List Char :=
  (cfg_writefile_lines cfg h cfgfilename).flatten

/-- The lines that repeated calls of `fgets(line, CFG_MAX_CONFIGFILE_ROW_WIDTH, fp)`
read from the rest of the file: a line ends after a newline or when the buffer is
full; the second argument is the part of the line read so far. -/
def fgets_loop : List Char → List Char → List (List Char)
  | [], line => if line = [] then [] else [line]
  | c :: rest, line =>
    if c = '\n' ∨ (line ++ [c]).length = CFG_MAX_CONFIGFILE_ROW_WIDTH - 1 then
      (line ++ [c]) :: fgets_loop rest []
    else fgets_loop rest (line ++ [c])

/-- What `file_exist` and `file_useraccess(…, DAEMON_RUN_AS_USER, R_OK | W_OK)` say of
a file name. -/
structure files_t where
  file_exist : List Char → Bool
  file_useraccess : List Char → Bool

/-- The state of the loop of `cfg_read_file`: `*tmpcfg`, the C heap and the counters. -/
structure read_state where
  tmpcfg : config_t
  h : cheap
  n_errors : Nat
  n_warnings : Nat
deriving DecidableEq, Repr

/-- An access to `kv[1]` as a string: when that pointer is NULL (the line ends in an
unescaped backslash), the behaviour is undefined. -/
def with_kv1 (st : read_state) (kv : List (List Char)) (f : List Char → read_state) :
    read_state :=
  match kv.drop 1 with
  | [] => { st with h := { st.h with undefined := true } }
  | v :: _ => f v

/-- The body of the loop `while (fgets(line, ...))` of `cfg_read_file` for one line. -/
def cfg_read_line (choose : List cell → Nat) (fs : files_t) (st : read_state)
    (line : List Char) : read_state :=
  match keyval_create (some line) with
  | none => st
  | some kv =>
    if keyval_iskey kv "daemon".toList then
      with_kv1 st kv fun v =>
        if strcasecmp_eq v "TRUE".toList then
          { st with tmpcfg := { st.tmpcfg with execute_as_daemon := 1 } }
        else if strcasecmp_eq v "FALSE".toList then
          { st with tmpcfg := { st.tmpcfg with execute_as_daemon := 0 } }
        else { st with n_errors := st.n_errors + 1 }
    else if keyval_iskey kv "interval".toList then
      with_kv1 st kv fun v =>
        let st := { st with tmpcfg := { st.tmpcfg with execute_interval := atoi v } }
        if st.tmpcfg.execute_interval < CFG_MIN_EXE_INTERVAL ∨
            st.tmpcfg.execute_interval > CFG_MAX_EXE_INTERVAL then
          { st with n_errors := st.n_errors + 1 }
        else st
    else if keyval_iskey kv "loglevel".toList then
      with_kv1 st kv fun v =>
        let r := cfg_loglevel_str2val v
        let st := { st with tmpcfg := { st.tmpcfg with execute_loglevel := r.1 } }
        if r.2 then { st with n_errors := st.n_errors + 1 } else st
    else if keyval_iskey kv "database".toList then
      with_kv1 st kv fun v =>
        if v.length ≤ CFG_MAX_FILENAME_LEN then
          if st.tmpcfg.cmd_createdatabase = 0 then
            if ¬ fs.file_exist v then { st with n_errors := st.n_errors + 1 }
            else if ¬ fs.file_useraccess v then { st with n_errors := st.n_errors + 1 }
            else { st with tmpcfg := { st.tmpcfg with database_filename := v } }
          else { st with tmpcfg := { st.tmpcfg with database_filename := v } }
        else { st with n_errors := st.n_errors + 1 }
    else if keyval_iskey kv "ramdisk".toList then
      with_kv1 st kv fun v =>
        if strcasecmp_eq v "TRUE".toList then
          { st with tmpcfg := { st.tmpcfg with execute_tmpfs := 1 } }
        else if strcasecmp_eq v "FALSE".toList then
          { st with tmpcfg := { st.tmpcfg with execute_tmpfs := 0 } }
        else if strcasecmp_eq v "AUTO".toList then
          { st with tmpcfg := { st.tmpcfg with execute_tmpfs := 2 } }
        else { st with n_errors := st.n_errors + 1 }
    else if keyval_iskey kv "inet pinghosts".toList then
      let kv := keyval_remove_empty_values kv
      if keyval_nvalues (some kv) ≠ 0 then
        let r := strdup choose st.h (keyval2valstr kv)
        { st with tmpcfg := { st.tmpcfg with inet_pinghosts := r.1 }, h := r.2 }
      else { st with tmpcfg := { st.tmpcfg with inet_pinghosts := 0 } }
    else if keyval_iskey kv "inet pingtimeout".toList then
      with_kv1 st kv fun v =>
        let st := { st with tmpcfg := { st.tmpcfg with inet_pingtimeout := atoi v } }
        if st.tmpcfg.inet_pingtimeout < CFG_MIN_PING_TIMEOUT ∨
            st.tmpcfg.inet_pingtimeout > CFG_MAX_PING_TIMEOUT then
          { st with n_errors := st.n_errors + 1 }
        else st
    else if keyval_iskey kv "modem powercontrol".toList then
      with_kv1 st kv fun v =>
        if strcasecmp_eq v "TRUE".toList then
          { st with tmpcfg := { st.tmpcfg with modem_powercontrol := 1 } }
        else if strcasecmp_eq v "FALSE".toList then
          { st with tmpcfg := { st.tmpcfg with modem_powercontrol := 0 } }
        else { st with n_errors := st.n_errors + 1 }
    else if keyval_iskey kv "modem powerupdelay".toList then
      with_kv1 st kv fun v =>
        let st := { st with tmpcfg := { st.tmpcfg with modem_powerupdelay := atoi v } }
        if st.tmpcfg.modem_powerupdelay < CFG_MIN_MODEM_POWERUPDELAY ∨
            st.tmpcfg.modem_powerupdelay > CFG_MAX_MODEM_POWERUPDELAY then
          { st with n_errors := st.n_errors + 1 }
        else st
    else if keyval_iskey kv "modem ip".toList then
      let kv := keyval_remove_empty_values kv
      if keyval_nvalues (some kv) = 1 then
        with_kv1 st kv fun v =>
          if v.length > INET_ADDRSTRLEN then { st with n_errors := st.n_errors + 1 }
          else { st with tmpcfg := { st.tmpcfg with modem_ip := v } }
      else { st with n_errors := st.n_errors + 1 }
    else if keyval_iskey kv "modem pingtimeout".toList then
      with_kv1 st kv fun v =>
        let st := { st with tmpcfg := { st.tmpcfg with modem_pingtimeout := atoi v } }
        if st.tmpcfg.modem_pingtimeout < CFG_MIN_PING_TIMEOUT ∨
            st.tmpcfg.modem_pingtimeout > CFG_MAX_PING_TIMEOUT then
          { st with n_errors := st.n_errors + 1 }
        else st
    else if keyval_iskey kv "modem scrubber".toList then
      if keyval_nvalues (some kv) = 1 then
        with_kv1 st kv fun v =>
          if v.length > CFG_MAX_FILENAME_LEN then { st with n_errors := st.n_errors + 1 }
          else { st with tmpcfg := { st.tmpcfg with modem_scrubber_filename := v } }
      else { st with n_errors := st.n_errors + 1 }
    else if keyval_iskey kv "modem scrubbertimeout".toList then
      with_kv1 st kv fun v =>
        let st := { st with tmpcfg := { st.tmpcfg with modem_scrubber_timeout := atoi v } }
        if st.tmpcfg.modem_scrubber_timeout < CFG_MIN_MODEM_SCRUBBERTIMEOUT ∨
            st.tmpcfg.modem_scrubber_timeout > CFG_MAX_MODEM_SCRUBBERTIMEOUT then
          { st with n_errors := st.n_errors + 1 }
        else st
    else if keyval_iskey kv "schedule dst".toList then
      with_kv1 st kv fun v =>
        if strcasecmp_eq v "TRUE".toList then
          { st with tmpcfg := { st.tmpcfg with event_apply_dst := 1 } }
        else if strcasecmp_eq v "FALSE".toList then
          { st with tmpcfg := { st.tmpcfg with event_apply_dst := 0 } }
        else { st with n_errors := st.n_errors + 1 }
    else if keyval_iskey kv "schedule".toList then
      let kv := keyval_remove_empty_values kv
      if keyval_nvalues (some kv) ≠ 0 then
        let r := strdup choose st.h (keyval2valstr kv)
        { st with tmpcfg := { st.tmpcfg with event_liststring := r.1 }, h := r.2 }
      else { st with tmpcfg := { st.tmpcfg with event_liststring := 0 } }
    else { st with n_warnings := st.n_warnings + 1 }

/-- The function `cfg_read_file(tmpcfg)` for a file that exists and can be opened, with
the text `text`: the value returned, `*tmpcfg` and the C heap. -/
def cfg_read_file_text (choose : List cell → Nat) (fs : files_t) (text : List Char)
    (tmpcfg : config_t) (h : cheap) : Int × config_t × cheap :=
  let st := (fgets_loop text []).foldl (cfg_read_line choose fs) ⟨tmpcfg, h, 0, 0⟩
  if st.n_errors ≠ 0 then (EXIT_FAILURE, st.tmpcfg, st.h)
  else (EXIT_SUCCESS, st.tmpcfg, st.h)

/-- A file system in which every file exists and can be read and written. -/
def allFiles : files_t := ⟨fun _ => true, fun _ => true⟩

/-- An allocator that never takes a freed buffer again. -/
def freshAllocator : List cell → Nat := fun _ => 0

/-- The C heap of the examples: the default ping host at address 1 and the schedule
`04:30 SUSPEND` at address 2. -/
def exampleHeap2 : cheap :=
  ⟨[.live CFG_DEFAULT_INET_PINGHOSTS, .live "04:30 SUSPEND".toList], false⟩

/-- The round trip of the examples: the file that `cfg_writefile` writes for the live
configuration `cfg` is read by `cfg_read_file` into the configuration that `cfg_init`
makes; every file exists and can be accessed. -/
def roundtrip (cfg : config_t) (h : cheap) : Int × config_t × cheap :=
  cfg_read_file_text freshAllocator allFiles (cfg_writefile cfg h CFG_DEFAULT_FILECONFIG)
    (cfg_init freshAllocator (exampleConfig 0 0) ⟨[], false⟩).1
    (cfg_init freshAllocator (exampleConfig 0 0) ⟨[], false⟩).2

/-! ## daemon.c: the loop of the schedule timer -/

/-- The clock readings of one pass of the loop of the schedule timer: those of
`event_create` in `daemon_importtmpfs` (in `__update_today` and the later `time(NULL)`)
and those of `event_reschedule`. -/
structure drain_clock where
  create_now : Int
  create_now2 : Int
  reschedule_now : Int
  reschedule_now2 : Int
deriving DecidableEq, Repr

/-- What `event_execute` ends in: it returns a value, with the globals of event.c and
the state of daemon.c as given, or the process exits. -/
inductive execute_result where
  | returned (value : Int) (st : globals) (d : daemon_state)
  | exited
deriving DecidableEq, Repr

/-- The function `power_on()` of power.c. -/
def power_on : Int := EXIT_SUCCESS

/-- The function `power_off()` of power.c. -/
def power_off : Int := EXIT_SUCCESS

/-- The function `daemon_importtmpfs()` of daemon.c. -/
def daemon_importtmpfs (lib : libc_t) (cfg : cfg_t) (now now2 : Int) (st : globals)
    (d : daemon_state) : execute_result :=
  match event_create lib cfg now now2 st EVENT_ACTION_IMPORTTMPFSTIMEOUT
      DAEMON_IMPORTTMPFS_TIMEOUT with
  | .exited => .exited
  | .returned value st => if value < 0 then .exited else .returned EXIT_SUCCESS st d

/-- The function `event_execute(event)` of event.c for an event that is not NULL. -/
def event_execute (lib : libc_t) (cfg : cfg_t) (clk : drain_clock) (st : globals)
    (d : daemon_state) (event : event_t) : execute_result :=
  if event.action = EVENT_ACTION_SUSPEND then .returned EXIT_SUCCESS st (daemon_suspend d)
  else if event.action = EVENT_ACTION_RESUME then .returned EXIT_SUCCESS st (daemon_resume d)
  else if event.action = EVENT_ACTION_POWEROFF then .returned power_off st d
  else if event.action = EVENT_ACTION_POWERON then .returned power_on st d
  else if event.action = EVENT_ACTION_IMPORTTMPFS then
    daemon_importtmpfs lib cfg clk.create_now clk.create_now2 st d
  else if event.action = EVENT_ACTION_IMPORTTMPFSTIMEOUT then .returned EXIT_FAILURE st d
  else if event.action = EVENT_ACTION_WATCHDOG then .returned EXIT_FAILURE st d
  else .returned EXIT_FAILURE st d

/-- What one pass of the loop `while ((event = event_gettriggered(now)))` ends in: the
loop is left, the loop goes on, or the process exits. -/
inductive step_result where
  | done (st : globals) (d : daemon_state)
  | next (st : globals) (d : daemon_state)
  | exited
deriving DecidableEq, Repr

/-- One pass of the loop `while ((event = event_gettriggered(now)))` of `daemon_main`:
the test and the body. -/
def drain_step (lib : libc_t) (cfg : cfg_t) (now : Int) (clk : drain_clock) (st : globals)
    (d : daemon_state) : step_result :=
  match event_gettriggered st.g_heap now with
  | (none, g) => .done { st with g_heap := g } d
  | (some event, g) =>
    match event_execute lib cfg clk { st with g_heap := g } d event with
    | .exited => .exited
    | .returned _ st d =>
      if event.type ≠ EVENT_TYPE_ONCE then
        match event_reschedule lib cfg clk.reschedule_now clk.reschedule_now2 st
            (some event) with
        | .exited => .exited
        | .returned _ _ st => .next st d
      else .next st d

/-- What the loop of the schedule timer ends in, with the number `n_events` of the
events taken from the queue: the loop is left, the process exits, or the bound on the
number of passes is used up. -/
inductive drain_result where
  | finished (n_events : Nat) (st : globals) (d : daemon_state)
  | exited (n_events : Nat)
  | out_of_fuel
deriving DecidableEq, Repr

/-- The loop `while ((event = event_gettriggered(now)))` of the block of the schedule
timer in `daemon_main`; `now` is the value of `time(NULL)` before the loop, `clock`
gives the clock readings of each pass, counted from `n_events`. The first argument
bounds the number of passes. -/
def schedule_drain (lib : libc_t) (cfg : cfg_t) (now : Int) (clock : Nat → drain_clock) :
    Nat → Nat → globals → daemon_state → drain_result
  | 0, _, _, _ => .out_of_fuel
  | fuel + 1, n_events, st, d =>
    match drain_step lib cfg now (clock n_events) st d with
    | .done st d => .finished n_events st d
    | .exited => .exited (n_events + 1)
    | .next st d => schedule_drain lib cfg now clock fuel (n_events + 1) st d

/-- A clock that reads `t` throughout. -/
def constClock (t : Int) : Nat → drain_clock := fun _ => ⟨t, t, t, t⟩

/-- Modelled from the C library (POSIX `localtime_r` and `mktime`), for a time zone
with daylight saving: standard time is `off` seconds east of universal time, and while
daylight saving is in force (`dst t` tells so for the time `t`) local time is `save`
seconds ahead of standard time. The calendar is the
plain one of `exampleLibc` (days counted in `tm_mday`). `localtime_r` sets `tm_isdst`
to 1 or 0. `mktime` reads the fields as daylight-saving time when `tm_isdst` is
positive and as standard time when it is zero, whatever is in force at that time; with
a negative `tm_isdst` it finds out itself (the daylight-saving reading when daylight
saving is in force there, else the standard one); these are the three cases that the
comment of `__schedule_next_trigger` lists for `apply_dst`. It leaves behind the struct
that `localtime_r` gives for its result. -/
def dstZoneLibc (off save : Int) (dst : Int → Bool) : libc_t where
  localtime_r := fun t =>
    let u := t + off + (if dst t then save else 0)
    { tm_sec := u % 60, tm_min := (u / 60) % 60, tm_hour := (u / 3600) % 24,
      tm_mday := u / 86400, tm_mon := 0, tm_year := 0, tm_isdst := if dst t then 1 else 0 }
  mktime := fun l =>
    let u := l.tm_mday * 86400 + l.tm_hour * 3600 + l.tm_min * 60 + l.tm_sec
    let t :=
      if l.tm_isdst > 0 then u - off - save
      else if l.tm_isdst = 0 then u - off
      else if dst (u - off - save) then u - off - save
      else u - off
    let v := t + off + (if dst t then save else 0)
    (t, { tm_sec := v % 60, tm_min := (v / 60) % 60, tm_hour := (v / 3600) % 24,
          tm_mday := v / 86400, tm_mon := 0, tm_year := 0,
          tm_isdst := if dst t then 1 else 0 })

/-- The offset from universal time of the time scale in which `__schedule_next_trigger`
keeps DAILY events in the zone of `dstZoneLibc off save dst`: standard time when
`apply_dst` is zero, daylight-saving time when it is positive. -/
def scheduleOffset (off save : Int) (cfg : cfg_t) : Int :=
  off + (if cfg.apply_dst > 0 then save else 0)

/-- The settled clock readings of the zone of `dstZoneLibc off save dst`. When
`apply_dst` is zero and daylight saving is in force at `now`, local time one hour before
`now` is to have the same date as standard time at `now`; when `apply_dst` is positive
and daylight saving is not in force at `now`, standard time plus `save` is to have the
same date as standard time at `now`. These are the readings at which the local date
that `__update_today` reads is the date of `now` on the time scale of the schedule
(`update_today_settled`). -/
def todaySettled (off save : Int) (dst : Int → Bool) (cfg : cfg_t) (now : Int) : Prop :=
  (cfg.apply_dst = 0 → dst now = true →
    (now - SECONDS_PER_HOUR + off + (if dst (now - SECONDS_PER_HOUR) then save else 0))
      / SECONDS_PER_DAY = (now + off) / SECONDS_PER_DAY) ∧
  (0 < cfg.apply_dst → dst now = false →
    (now + off) / SECONDS_PER_DAY = (now + off + save) / SECONDS_PER_DAY)

instance (off save : Int) (dst : Int → Bool) (cfg : cfg_t) (now : Int) :
    Decidable (todaySettled off save dst cfg now) := by
  unfold todaySettled
  infer_instance

/-! # Theorems -/

/-! ## Basic facts about slots and swap -/

theorem length_swap (h : List event_t) (a b : Nat) : (swap h a b).length = h.length := by
  simp [swap]

theorem HEAPSIZE_swap (h : List event_t) (a b : Nat) : HEAPSIZE (swap h a b) = HEAPSIZE h := by
  simp [HEAPSIZE, length_swap]

theorem slot_swap (h : List event_t) (a b k : Nat) (ha : 1 ≤ a) (ha2 : a ≤ h.length)
    (hb : 1 ≤ b) (hb2 : b ≤ h.length) (hk : 1 ≤ k) :
    slot (swap h a b) k = if k = b then slot h a else if k = a then slot h b else slot h k := by
  unfold swap slot
  simp only [List.getD_eq_getElem?_getD, List.getElem?_set, List.length_set]
  by_cases h1 : k = b
  · subst h1
    have l1 : k - 1 < h.length := by omega
    simp [l1]
  · by_cases h2 : k = a
    · subst h2
      have : ¬ (b - 1 = k - 1) := by omega
      have l1 : k - 1 < h.length := by omega
      simp [this, h1, l1]
    · have e1 : ¬ (b - 1 = k - 1) := by omega
      have e2 : ¬ (a - 1 = k - 1) := by omega
      simp [e1, e2, h1, h2]

theorem VAL_swap (h : List event_t) (a b k : Nat) (ha : 1 ≤ a) (ha2 : a ≤ h.length)
    (hb : 1 ≤ b) (hb2 : b ≤ h.length) (hk : 1 ≤ k) :
    VAL (swap h a b) k = if k = b then VAL h a else if k = a then VAL h b else VAL h k := by
  unfold VAL
  rw [slot_swap h a b k ha ha2 hb hb2 hk]
  split
  · rfl
  · split <;> rfl

theorem swap_perm (h : List event_t) (a b : Nat) (ha : 1 ≤ a) (ha2 : a ≤ h.length)
    (hb : 1 ≤ b) (hb2 : b ≤ h.length) : (swap h a b).Perm h := by
  rw [List.perm_iff_count]
  intro x
  unfold swap slot
  have la : a - 1 < h.length := by omega
  have lb : b - 1 < h.length := by omega
  have lb2 : b - 1 < (h.set (a - 1) (h.getD (b - 1) default)).length := by simpa using lb
  rw [List.count_set _ _ _ _ lb2, List.count_set _ _ _ _ la]
  simp only [List.getD_eq_getElem?_getD, List.getElem?_eq_getElem la,
    List.getElem?_eq_getElem lb, Option.getD_some, List.getElem_set]
  have ca : (if h[a - 1] == x then 1 else 0) ≤ h.count x := by
    split
    · rename_i hx
      have : x ∈ h := by
        have := List.getElem_mem la
        simp [← (beq_iff_eq.mp hx)]
      exact List.count_pos_iff.mpr this
    · omega
  have cb : (if h[b - 1] == x then 1 else 0) ≤ h.count x := by
    split
    · rename_i hx
      have : x ∈ h := by
        have := List.getElem_mem lb
        simp [← (beq_iff_eq.mp hx)]
      exact List.count_pos_iff.mpr this
    · omega
  by_cases hab : a - 1 = b - 1
  · simp only [hab, if_true]
    omega
  · simp only [hab, if_false]
    omega

/-! ## The invariant in parent form -/

theorem minHeap_iff_parentLe (h : List event_t) : MinHeap h ↔ ParentLe h := by
  unfold MinHeap ParentLe LCHILDINDEX RCHILDINDEX HEAPSIZE
  constructor
  · intro hm j hj hjl
    have hi := hm (j / 2) (by omega) (by omega)
    rcases Nat.mod_two_eq_zero_or_one j with h0 | h1
    · have e : 2 * (j / 2) = j := by omega
      have := hi.1 (by omega)
      rwa [e] at this
    · have e : 2 * (j / 2) + 1 = j := by omega
      have := hi.2 (by omega)
      rwa [e] at this
  · intro hp i _ hi1
    constructor
    · intro hl
      have := hp (2 * i) (by omega) hl
      have e : 2 * i / 2 = i := by omega
      rwa [e] at this
    · intro hr
      have := hp (2 * i + 1) (by omega) hr
      have e : (2 * i + 1) / 2 = i := by omega
      rwa [e] at this

/-! ## Bubble-up -/

theorem bubbleUpAux_spec : ∀ (fuel : Nat) (h : List event_t) (k : Nat),
    k ≤ fuel → 1 ≤ k → k ≤ h.length →
    (∀ j, 2 ≤ j → j ≤ h.length → j ≠ k → VAL h (j / 2) ≤ VAL h j) →
    (∀ j, 2 ≤ j → j ≤ h.length → j / 2 = k → 2 ≤ k → VAL h (k / 2) ≤ VAL h j) →
    ParentLe (bubbleUpAux fuel h k) ∧ (bubbleUpAux fuel h k).Perm h := by
  intro fuel
  induction fuel with
  | zero => intro h k hk h1; omega
  | succ fuel ih =>
    intro h k hkf hk1 hkl c1 c2
    unfold bubbleUpAux
    by_cases hgt : k > 1
    · simp only [hgt, if_true]
      unfold PARENTINDEX
      by_cases hlt : VAL h k < VAL h (k / 2)
      · simp only [hlt, if_true]
        have hp1 : 1 ≤ k / 2 := by omega
        have hpl : k / 2 ≤ h.length := by omega
        have hpk : k / 2 ≠ k := by omega
        have V : ∀ x, 1 ≤ x → VAL (swap h k (k / 2)) x
            = if x = k / 2 then VAL h k else if x = k then VAL h (k / 2) else VAL h x :=
          fun x hx => VAL_swap h k (k / 2) x hk1 hkl hp1 hpl hx
        have hpp := c1 (k / 2)
        have step := ih (swap h k (k / 2)) (k / 2) (by omega) hp1
          (by rw [length_swap]; exact hpl)
          (by
            intro j hj2 hjl hjp
            rw [length_swap] at hjl
            rw [V j (by omega), V (j / 2) (by omega)]
            by_cases e1 : j = k
            · subst e1
              simp only [if_true, if_neg hjp]
              omega
            · simp only [if_neg hjp, if_neg e1]
              by_cases e2 : j / 2 = k / 2
              · simp only [e2, if_true]
                have := c1 j hj2 hjl e1
                rw [e2] at this
                omega
              · simp only [if_neg e2]
                by_cases e3 : j / 2 = k
                · simp only [e3, if_true]
                  have := c2 j hj2 hjl e3 (by omega)
                  exact this
                · simp only [if_neg e3]
                  exact c1 j hj2 hjl e1)
          (by
            intro j hj2 hjl hjp hp2
            rw [length_swap] at hjl
            rw [V j (by omega), V (k / 2 / 2) (by omega)]
            have n1 : ¬ (k / 2 / 2 = k / 2) := by omega
            have n2 : ¬ (k / 2 / 2 = k) := by omega
            have n3 : ¬ (j = k / 2) := by omega
            simp only [if_neg n1, if_neg n2, if_neg n3]
            have a1 := hpp hp2 hpl hpk
            by_cases e1 : j = k
            · simp only [if_pos e1]
              exact a1
            · simp only [if_neg e1]
              have := c1 j hj2 hjl e1
              rw [hjp] at this
              omega)
        exact ⟨step.1, step.2.trans (swap_perm h k (k / 2) hk1 hkl hp1 hpl)⟩
      · simp only [hlt, if_false]
        refine ⟨?_, List.Perm.refl _⟩
        intro j hj2 hjl
        by_cases e1 : j = k
        · subst e1; omega
        · exact c1 j hj2 hjl e1
    · simp only [hgt, if_false]
      refine ⟨?_, List.Perm.refl _⟩
      intro j hj2 hjl
      exact c1 j hj2 hjl (by omega)

theorem bubbleUpAux_length (fuel : Nat) (h : List event_t) (k : Nat) :
    (bubbleUpAux fuel h k).length = h.length := by
  induction fuel generalizing h k with
  | zero => rfl
  | succ fuel ih =>
    unfold bubbleUpAux
    split
    · split
      · rw [ih, length_swap]
      · rfl
    · rfl

/-- Adequacy of the iteration bound: `bubbleUp` satisfies the equation of the source
loop, `while (index > 1) { if (VAL(index) < VAL(parent)) { swap; index = parent } else break }`. -/
theorem bubbleUp_unfold (h : List event_t) (index : Nat) :
    bubbleUp h index =
      if index > 1 then
        if VAL h index < VAL h (PARENTINDEX index) then
          bubbleUp (swap h index (PARENTINDEX index)) (PARENTINDEX index)
        else h
      else h := by
  have mono : ∀ (f : Nat) (h : List event_t) (k : Nat), k ≤ f →
      bubbleUpAux f h k = bubbleUpAux k h k := by
    intro f
    induction f using Nat.strong_induction_on with
    | _ f ih =>
      intro h k hk
      cases f with
      | zero =>
        have : k = 0 := by omega
        subst this; rfl
      | succ f =>
        cases k with
        | zero => simp [bubbleUpAux]
        | succ k =>
          unfold bubbleUpAux PARENTINDEX
          by_cases hgt : k + 1 > 1
          · simp only [hgt, if_true]
            split
            · rw [ih f (by omega) _ _ (by omega), ih k (by omega) _ _ (by omega)]
            · rfl
          · simp only [hgt, if_false]
  unfold bubbleUp
  cases index with
  | zero => simp [bubbleUpAux]
  | succ k =>
    conv => lhs; unfold bubbleUpAux
    unfold PARENTINDEX
    by_cases hgt : k + 1 > 1
    · simp only [hgt, if_true]
      split
      · rw [mono k _ _ (by omega)]
      · rfl
    · simp only [hgt, if_false]

/-! ## Heapify -/

theorem heapifyAux_succ (fuel : Nat) (h : List event_t) (r : Nat) :
    heapifyAux (fuel + 1) h r =
      if VAL h (heapifySmallest h r) ≠ VAL h r then
        heapifyAux fuel (swap h (heapifySmallest h r) r) (heapifySmallest h r)
      else h := rfl

theorem heapifySmallest_cases (h : List event_t) (r : Nat) :
    (heapifySmallest h r = r ∨
      (heapifySmallest h r = 2 * r ∧ 2 * r ≤ h.length) ∨
      (heapifySmallest h r = 2 * r + 1 ∧ 2 * r + 1 ≤ h.length)) ∧
    VAL h (heapifySmallest h r) ≤ VAL h r ∧
    (2 * r ≤ h.length → VAL h (heapifySmallest h r) ≤ VAL h (2 * r)) ∧
    (2 * r + 1 ≤ h.length → VAL h (heapifySmallest h r) ≤ VAL h (2 * r + 1)) := by
  unfold heapifySmallest LCHILDINDEX RCHILDINDEX HEAPSIZE
  by_cases hL : 2 * r ≤ h.length ∧ VAL h (2 * r) < VAL h r
  · rw [if_pos hL]
    by_cases hR : 2 * r + 1 ≤ h.length ∧ VAL h (2 * r + 1) < VAL h (2 * r)
    · rw [if_pos hR]
      refine ⟨Or.inr (Or.inr ⟨rfl, hR.1⟩), ?_, ?_, ?_⟩
      · omega
      · intro _; omega
      · intro _; omega
    · rw [if_neg hR]
      refine ⟨Or.inr (Or.inl ⟨rfl, hL.1⟩), ?_, ?_, ?_⟩
      · omega
      · intro _; omega
      · intro h2
        by_contra hc
        exact hR ⟨h2, by omega⟩
  · rw [if_neg hL]
    by_cases hR : 2 * r + 1 ≤ h.length ∧ VAL h (2 * r + 1) < VAL h r
    · rw [if_pos hR]
      refine ⟨Or.inr (Or.inr ⟨rfl, hR.1⟩), ?_, ?_, ?_⟩
      · omega
      · intro h2
        by_contra hc
        exact hL ⟨h2, by omega⟩
      · intro _; omega
    · rw [if_neg hR]
      refine ⟨Or.inl rfl, ?_, ?_, ?_⟩
      · omega
      · intro h2
        by_contra hc
        exact hL ⟨h2, by omega⟩
      · intro h2
        by_contra hc
        exact hR ⟨h2, by omega⟩

theorem heapifyAux_spec : ∀ (fuel : Nat) (h : List event_t) (r : Nat),
    h.length + 1 ≤ fuel + r → 1 ≤ r →
    (∀ j, 2 ≤ j → j ≤ h.length → j / 2 ≠ r → VAL h (j / 2) ≤ VAL h j) →
    (∀ j, 2 ≤ j → j ≤ h.length → j / 2 = r → 2 ≤ r → VAL h (r / 2) ≤ VAL h j) →
    ParentLe (heapifyAux fuel h r) ∧ (heapifyAux fuel h r).Perm h := by
  intro fuel
  induction fuel with
  | zero =>
    intro h r hf _ c1 _
    show ParentLe h ∧ h.Perm h
    refine ⟨?_, List.Perm.refl _⟩
    intro j hj2 hjl
    exact c1 j hj2 hjl (by omega)
  | succ fuel ih =>
    intro h r hf hr1 c1 c2
    rw [heapifyAux_succ]
    obtain ⟨hc, hle, hleL, hleR⟩ := heapifySmallest_cases h r
    generalize heapifySmallest h r = s at hc hle hleL hleR
    have child : ∀ j, 2 ≤ j → j ≤ h.length → j / 2 = r → VAL h s ≤ VAL h j := by
      intro j _ hjl hjr
      rcases Nat.mod_two_eq_zero_or_one j with h0 | h1
      · have e : j = 2 * r := by omega
        subst e; exact hleL hjl
      · have e : j = 2 * r + 1 := by omega
        subst e; exact hleR hjl
    by_cases hne : VAL h s ≠ VAL h r
    · rw [if_pos hne]
      have hsr : s ≠ r := fun e => hne (by rw [e])
      have hs : (s = 2 * r ∨ s = 2 * r + 1) ∧ s ≤ h.length := by
        rcases hc with e | ⟨e, l⟩ | ⟨e, l⟩
        · exact absurd e hsr
        · exact ⟨Or.inl e, by omega⟩
        · exact ⟨Or.inr e, by omega⟩
      have hs1 : 1 ≤ s := by omega
      have hsl : s ≤ h.length := hs.2
      have hrl : r ≤ h.length := by omega
      have hs2 : s / 2 = r := by omega
      have V : ∀ x, 1 ≤ x → VAL (swap h s r) x
          = if x = r then VAL h s else if x = s then VAL h r else VAL h x :=
        fun x hx => VAL_swap h s r x hs1 hsl hr1 hrl hx
      have step := ih (swap h s r) s (by rw [length_swap]; omega) hs1
        (by
          intro j hj2 hjl hjs
          rw [length_swap] at hjl
          rw [V j (by omega), V (j / 2) (by omega)]
          by_cases e1 : j = s
          · subst e1
            simp only [hs2, if_true, if_neg hsr]
            omega
          · by_cases e2 : j = r
            · subst e2
              have n1 : ¬ (j / 2 = j) := by omega
              simp only [if_true, if_neg n1, if_neg hjs]
              exact c2 s (by omega) hsl hs2 hj2
            · simp only [if_neg e1, if_neg e2, if_neg hjs]
              by_cases e3 : j / 2 = r
              · simp only [if_pos e3]
                exact child j hj2 hjl e3
              · simp only [if_neg e3]
                exact c1 j hj2 hjl e3)
        (by
          intro j hj2 hjl hjs _
          rw [length_swap] at hjl
          rw [V j (by omega), V (s / 2) (by omega)]
          have n1 : ¬ (j = r) := by omega
          have n2 : ¬ (j = s) := by omega
          simp only [hs2, if_true, if_neg n1, if_neg n2]
          have := c1 j hj2 hjl (by omega)
          rw [hjs] at this
          exact this)
      exact ⟨step.1, step.2.trans (swap_perm h s r hs1 hsl hr1 hrl)⟩
    · rw [if_neg hne]
      refine ⟨?_, List.Perm.refl _⟩
      intro j hj2 hjl
      by_cases e : j / 2 = r
      · have := child j hj2 hjl e
        rw [e]
        have e2 : VAL h s = VAL h r := by
          by_contra hc2; exact hne hc2
        omega
      · exact c1 j hj2 hjl e

theorem heapifyAux_length (fuel : Nat) (h : List event_t) (r : Nat) :
    (heapifyAux fuel h r).length = h.length := by
  induction fuel generalizing h r with
  | zero => rfl
  | succ fuel ih =>
    rw [heapifyAux_succ]
    split
    · rw [ih, length_swap]
    · rfl

/-- Adequacy of the recursion bound: `heapify` satisfies the equation of the source
function (compute `smallest`; if its value differs from the root's, swap and recurse). -/
theorem heapify_unfold (h : List event_t) (rootindex : Nat) (hr : 1 ≤ rootindex) :
    heapify h rootindex =
      if VAL h (heapifySmallest h rootindex) ≠ VAL h rootindex then
        heapify (swap h (heapifySmallest h rootindex) rootindex) (heapifySmallest h rootindex)
      else h := by
  have stable : ∀ (f : Nat) (h : List event_t) (r : Nat), 1 ≤ r → h.length + 1 ≤ f + r →
      heapifyAux (f + 1) h r = heapifyAux f h r := by
    intro f
    induction f with
    | zero =>
      intro h r hr1 hf
      rw [heapifyAux_succ]
      obtain ⟨hc, _⟩ := heapifySmallest_cases h r
      have : heapifySmallest h r = r := by
        rcases hc with e | ⟨_, l⟩ | ⟨_, l⟩
        · exact e
        · omega
        · omega
      simp [this, heapifyAux]
    | succ f ih =>
      intro h r hr1 hf
      rw [heapifyAux_succ (f + 1) h r, heapifyAux_succ f h r]
      split
      · rename_i hne
        obtain ⟨hc, _⟩ := heapifySmallest_cases h r
        have hsr : heapifySmallest h r ≠ r := fun e => hne (by rw [e])
        have : r + 1 ≤ heapifySmallest h r := by
          rcases hc with e | ⟨e, _⟩ | ⟨e, _⟩
          · exact absurd e hsr
          · omega
          · omega
        exact ih _ _ (by omega) (by rw [length_swap]; omega)
      · rfl
  unfold heapify HEAPSIZE
  rw [length_swap, ← stable h.length h rootindex hr (by omega), heapifyAux_succ]

/-! ## Insert, fetch and the drain loop -/

theorem slot_append_left (h : List event_t) (e : event_t) (j : Nat) (hj1 : 1 ≤ j)
    (hj : j ≤ h.length) : slot (h ++ [e]) j = slot h j := by
  unfold slot
  simp only [List.getD_eq_getElem?_getD]
  rw [List.getElem?_append_left (by omega)]

theorem insert_list_spec (h : List event_t) (e : event_t) (hp : ParentLe h) :
    ParentLe (bubbleUp (h ++ [e]) (HEAPSIZE (h ++ [e]))) ∧
    (bubbleUp (h ++ [e]) (HEAPSIZE (h ++ [e]))).Perm (e :: h) := by
  unfold bubbleUp HEAPSIZE
  have hl : (h ++ [e]).length = h.length + 1 := by simp
  have := bubbleUpAux_spec (h ++ [e]).length (h ++ [e]) (h ++ [e]).length (le_refl _)
    (by omega) (le_refl _)
    (by
      intro j hj2 hjl hne
      unfold VAL
      rw [slot_append_left h e j (by omega) (by omega),
        slot_append_left h e (j / 2) (by omega) (by omega)]
      exact hp j hj2 (by omega))
    (by
      intro j hj2 hjl hjk _
      omega)
  refine ⟨this.1, this.2.trans ?_⟩
  exact (List.perm_append_singleton e h)

theorem root_le_all (h : List event_t) (hp : ParentLe h) :
    ∀ k, 1 ≤ k → k ≤ h.length → VAL h 1 ≤ VAL h k := by
  intro k
  induction k using Nat.strong_induction_on with
  | _ k ih =>
    intro hk1 hkl
    by_cases h1 : k = 1
    · subst h1; exact le_refl _
    · have a := ih (k / 2) (by omega) (by omega) (by omega)
      have b := hp k (by omega) hkl
      omega

theorem mem_iff_slot (h : List event_t) (x : event_t) :
    x ∈ h ↔ ∃ k, 1 ≤ k ∧ k ≤ h.length ∧ slot h k = x := by
  unfold slot
  constructor
  · intro hx
    obtain ⟨i, hi, e⟩ := List.getElem_of_mem hx
    refine ⟨i + 1, by omega, by omega, ?_⟩
    simp [List.getD_eq_getElem?_getD, List.getElem?_eq_getElem hi, e]
  · rintro ⟨k, hk1, hkl, e⟩
    have hi : k - 1 < h.length := by omega
    simp only [List.getD_eq_getElem?_getD, List.getElem?_eq_getElem hi, Option.getD_some] at e
    rw [← e]
    exact List.getElem_mem hi

theorem root_is_min (h : List event_t) (hp : ParentLe h) (x : event_t) (hx : x ∈ h) :
    (slot h 1).next_trigger ≤ x.next_trigger := by
  obtain ⟨k, hk1, hkl, e⟩ := (mem_iff_slot h x).mp hx
  have := root_le_all h hp k hk1 hkl
  unfold VAL at this
  rw [e] at this
  exact this

theorem fetchMoved_perm (h : List event_t) (hne : 1 ≤ h.length) :
    (slot h 1 :: fetchMoved h).Perm h := by
  unfold fetchMoved slot HEAPSIZE
  cases h with
  | nil => simp at hne
  | cons a t =>
    rcases List.eq_nil_or_concat t with e | ⟨L, b, e⟩
    · subst e; simp
    · rw [List.concat_eq_append] at e
      subst e
      have e1 : ((a :: (L ++ [b])).set (1 - 1) b) = (b :: L) ++ [b] := by simp
      have e2 : (a :: (L ++ [b])).getD ((a :: (L ++ [b])).length - 1) default = b := by
        simp [List.getD_eq_getElem?_getD]
      rw [e2, e1, List.dropLast_concat]
      simp only [Nat.sub_self, List.getD_cons_zero]
      have : (b :: L).Perm (L ++ [b]) := (List.perm_append_singleton b L).symm
      exact List.Perm.cons a this

theorem fetchMoved_length (h : List event_t) : (fetchMoved h).length = h.length - 1 := by
  simp [fetchMoved]

theorem fetchMoved_slot (h : List event_t) (x : Nat) (hx2 : 2 ≤ x) (hxl : x + 1 ≤ h.length) :
    slot (fetchMoved h) x = slot h x := by
  unfold fetchMoved slot
  simp only [List.getD_eq_getElem?_getD]
  rw [List.getElem?_dropLast]
  have : x - 1 < (h.set (1 - 1) (h[HEAPSIZE h - 1]?.getD default)).length - 1 := by
    simp; omega
  rw [if_pos this, List.getElem?_set_ne (by omega)]

theorem fetch_list_spec (h : List event_t) (hp : ParentLe h) :
    ParentLe (heapify (fetchMoved h) 1) ∧ (heapify (fetchMoved h) 1).Perm (fetchMoved h) := by
  unfold heapify HEAPSIZE
  apply heapifyAux_spec _ _ 1 (by omega) (le_refl _)
  · intro j hj2 hjl hne
    rw [fetchMoved_length] at hjl
    unfold VAL
    rw [fetchMoved_slot h j (by omega) (by omega),
      fetchMoved_slot h (j / 2) (by omega) (by omega)]
    exact hp j hj2 (by omega)
  · intro j _ _ _ h2
    omega

theorem heapInvariant_iff (g : Option (List event_t)) :
    heapInvariant g ↔ ∀ h, g = some h → ParentLe h := by
  cases g with
  | none => simp [heapInvariant]
  | some h => simp [heapInvariant, minHeap_iff_parentLe]

theorem parentLe_nil : ParentLe [] := by
  intro j hj hl
  simp at hl
  omega

theorem eventheap_insert_spec (g : Option (List event_t)) (e : event_t)
    (hinv : heapInvariant g) :
    heapInvariant (eventheap_insert g e) ∧
    eventheap_size (eventheap_insert g e) = eventheap_size g + 1 ∧
    heapEvents (eventheap_insert g e) = e ::ₘ heapEvents g := by
  have key : ∀ h : List event_t, ParentLe h →
      heapInvariant (some (bubbleUp (h ++ [e]) (HEAPSIZE (h ++ [e])))) ∧
      eventheap_size (some (bubbleUp (h ++ [e]) (HEAPSIZE (h ++ [e])))) = h.length + 1 ∧
      heapEvents (some (bubbleUp (h ++ [e]) (HEAPSIZE (h ++ [e])))) = e ::ₘ (h : Multiset event_t) := by
    intro h hp
    obtain ⟨a, b⟩ := insert_list_spec h e hp
    refine ⟨(minHeap_iff_parentLe _).mpr a, ?_, ?_⟩
    · simp [eventheap_size, HEAPSIZE, bubbleUp, bubbleUpAux_length]
    · simp only [heapEvents]
      rw [Multiset.cons_coe]
      exact Multiset.coe_eq_coe.mpr b
  cases g with
  | none =>
    have := key [] parentLe_nil
    simpa [eventheap_insert, eventheap_size, heapEvents] using this
  | some h =>
    have := key h ((minHeap_iff_parentLe h).mp hinv)
    simpa [eventheap_insert, eventheap_size, heapEvents, HEAPSIZE] using this

theorem eventheap_fetch_empty (g : Option (List event_t)) (h0 : eventheap_size g = 0) :
    eventheap_fetch g = (none, g) := by
  cases g with
  | none => rfl
  | some h =>
    simp only [eventheap_size] at h0
    simp [eventheap_fetch, h0]

theorem eventheap_fetch_nonempty (g : Option (List event_t)) (hinv : heapInvariant g)
    (hpos : 0 < eventheap_size g) :
    ∃ e g1, eventheap_fetch g = (some e, g1) ∧ eventheap_peek g = some e ∧
      (∀ x ∈ heapEvents g, e.next_trigger ≤ x.next_trigger) ∧
      heapEvents g = e ::ₘ heapEvents g1 ∧
      eventheap_size g1 + 1 = eventheap_size g ∧
      heapInvariant g1 := by
  cases g with
  | none => simp [eventheap_size] at hpos
  | some h =>
    simp only [eventheap_size, HEAPSIZE] at hpos
    have hp := (minHeap_iff_parentLe h).mp hinv
    have hlt : ¬ (HEAPSIZE h < 1) := by unfold HEAPSIZE; omega
    obtain ⟨a, b⟩ := fetch_list_spec h hp
    refine ⟨slot h 1, some (heapify (fetchMoved h) 1), ?_, ?_, ?_, ?_, ?_, ?_⟩
    · simp only [eventheap_fetch, hlt, if_false, fetchMoved]
    · simp only [eventheap_peek, hlt, if_false]
    · intro x hx
      simp only [heapEvents, Multiset.mem_coe] at hx
      exact root_is_min h hp x hx
    · simp only [heapEvents]
      rw [Multiset.cons_coe]
      apply Multiset.coe_eq_coe.mpr
      exact ((List.Perm.cons _ b).trans (fetchMoved_perm h (by omega))).symm
    · simp only [eventheap_size, HEAPSIZE, heapify, heapifyAux_length, fetchMoved_length]
      omega
    · exact (minHeap_iff_parentLe _).mpr a

theorem fetchAllAux_spec : ∀ (n : Nat) (g : Option (List event_t)),
    eventheap_size g = n → heapInvariant g → ∀ fuel, n + 1 ≤ fuel →
    ∃ out g1, fetchAllAux fuel g = some (out, g1) ∧
      (out : Multiset event_t) = heapEvents g ∧
      out.Pairwise (fun a b => a.next_trigger ≤ b.next_trigger) ∧
      eventheap_size g1 = 0 ∧ (g1 = none ↔ g = none) := by
  intro n
  induction n with
  | zero =>
    intro g hs _ fuel hf
    obtain ⟨f, rfl⟩ : ∃ f, fuel = f + 1 := ⟨fuel - 1, by omega⟩
    refine ⟨[], g, ?_, ?_, List.Pairwise.nil, hs, Iff.rfl⟩
    · simp [fetchAllAux, eventheap_fetch_empty g hs]
    · cases g with
      | none => rfl
      | some h =>
        simp only [eventheap_size, HEAPSIZE] at hs
        simp [heapEvents, List.length_eq_zero.mp hs]
  | succ n ih =>
    intro g hs hinv fuel hf
    obtain ⟨f, rfl⟩ : ∃ f, fuel = f + 1 := ⟨fuel - 1, by omega⟩
    obtain ⟨e, g1, hfe, _, hmin, hev, hsz, hinv1⟩ :=
      eventheap_fetch_nonempty g hinv (by omega)
    obtain ⟨out, g2, hrec, hout, hsorted, hz, hnone⟩ := ih g1 (by omega) hinv1 f (by omega)
    refine ⟨e :: out, g2, ?_, ?_, ?_, hz, ?_⟩
    · simp [fetchAllAux, hfe, hrec]
    · rw [hev, ← hout]; rfl
    · refine List.Pairwise.cons ?_ hsorted
      intro x hx
      apply hmin
      rw [hev, ← hout]
      exact Multiset.mem_cons_of_mem (by simpa using hx)
    · rw [hnone]
      cases g with
      | none => simp [eventheap_size] at hs
      | some h =>
        simp only [eventheap_fetch] at hfe
        split at hfe
        · simp at hfe
        · simp only [Prod.mk.injEq] at hfe
          rw [← hfe.2]; simp

theorem insertAll_spec (es : List event_t) : ∀ (g : Option (List event_t)),
    heapInvariant g →
    heapInvariant (insertAll g es) ∧
    eventheap_size (insertAll g es) = eventheap_size g + es.length ∧
    heapEvents (insertAll g es) = heapEvents g + (es : Multiset event_t) := by
  induction es with
  | nil => intro g hinv; simp [insertAll, hinv]
  | cons e es ih =>
    intro g hinv
    obtain ⟨a, b, c⟩ := eventheap_insert_spec g e hinv
    obtain ⟨a2, b2, c2⟩ := ih (eventheap_insert g e) a
    refine ⟨a2, ?_, ?_⟩
    · show eventheap_size (insertAll (eventheap_insert g e) es) = _
      rw [b2, b]; simp; omega
    · show heapEvents (insertAll (eventheap_insert g e) es) = _
      rw [c2, c, ← Multiset.cons_coe, Multiset.cons_add, Multiset.add_cons]

/-! ## Claims about the event heap -/

/-- C1: on a heap that satisfies the min-heap invariant, `eventheap_insert(e)` yields a
heap that satisfies the invariant again, whose size is the old size plus one and whose
multiset of events is the old multiset plus `e`. -/
theorem eventheap_insert_preserves_invariant (g : Option (List event_t)) (e : event_t)
    (hinv : heapInvariant g) :
    heapInvariant (eventheap_insert g e) ∧
    eventheap_size (eventheap_insert g e) = eventheap_size g + 1 ∧
    heapEvents (eventheap_insert g e) = e ::ₘ heapEvents g :=
  eventheap_insert_spec g e hinv

/-- C1, instance: inserting an event with next_trigger 5 into the example heap. -/
theorem eventheap_insert_preserves_invariant_witness :
    heapInvariant exampleHeap ∧
    heapInvariant (eventheap_insert exampleHeap ⟨5, 60, 2, 5, 1⟩) ∧
    eventheap_size (eventheap_insert exampleHeap ⟨5, 60, 2, 5, 1⟩)
      = eventheap_size exampleHeap + 1 ∧
    heapEvents (eventheap_insert exampleHeap ⟨5, 60, 2, 5, 1⟩)
      = (⟨5, 60, 2, 5, 1⟩ : event_t) ::ₘ heapEvents exampleHeap :=
  ⟨by decide, eventheap_insert_preserves_invariant exampleHeap ⟨5, 60, 2, 5, 1⟩ (by decide)⟩

/-- C2: on a non-empty heap that satisfies the invariant, `eventheap_fetch()` returns an
event whose next_trigger is not larger than that of any event of the heap, removes exactly
that event (the size drops by one, the other events stay) and leaves the invariant
holding; on an empty or never allocated heap it returns NULL and changes nothing. -/
theorem eventheap_fetch_returns_minimum (g : Option (List event_t))
    (hinv : heapInvariant g) :
    (0 < eventheap_size g →
      ∃ e g1, eventheap_fetch g = (some e, g1) ∧
        (∀ x ∈ heapEvents g, e.next_trigger ≤ x.next_trigger) ∧
        heapEvents g = e ::ₘ heapEvents g1 ∧
        eventheap_size g1 + 1 = eventheap_size g ∧
        heapInvariant g1) ∧
    (eventheap_size g = 0 → eventheap_fetch g = (none, g)) := by
  refine ⟨?_, eventheap_fetch_empty g⟩
  intro hpos
  obtain ⟨e, g1, a, _, b, c, d, f⟩ := eventheap_fetch_nonempty g hinv hpos
  exact ⟨e, g1, a, b, c, d, f⟩

/-- C2, instance: fetching from the example heap, which is non-empty. -/
theorem eventheap_fetch_returns_minimum_witness :
    heapInvariant exampleHeap ∧ 0 < eventheap_size exampleHeap ∧
    ∃ e g1, eventheap_fetch exampleHeap = (some e, g1) ∧
      (∀ x ∈ heapEvents exampleHeap, e.next_trigger ≤ x.next_trigger) ∧
      heapEvents exampleHeap = e ::ₘ heapEvents g1 ∧
      eventheap_size g1 + 1 = eventheap_size exampleHeap ∧
      heapInvariant g1 :=
  ⟨by decide, by decide, (eventheap_fetch_returns_minimum exampleHeap (by decide)).1 (by decide)⟩

/-- C3: on a heap that satisfies the invariant, `eventheap_fetchtriggered(now)` and its
wrapper `event_gettriggered(now)` return an event if and only if the heap is non-empty and
its smallest next_trigger is at most `now`; the returned event is the root (what
`eventheap_peek` shows) and is removed from the heap as by `eventheap_fetch`; whenever
NULL is returned the heap is unchanged. -/
theorem eventheap_fetchtriggered_iff (g : Option (List event_t)) (now : Int)
    (hinv : heapInvariant g) :
    event_gettriggered g now = eventheap_fetchtriggered g now ∧
    ((∃ e, (eventheap_fetchtriggered g now).1 = some e) ↔
      (0 < eventheap_size g ∧
        ∃ m ∈ heapEvents g, (∀ x ∈ heapEvents g, m.next_trigger ≤ x.next_trigger) ∧
          m.next_trigger ≤ now)) ∧
    (∀ e, (eventheap_fetchtriggered g now).1 = some e →
      eventheap_peek g = some e ∧
      eventheap_fetchtriggered g now = eventheap_fetch g ∧
      heapEvents g = e ::ₘ heapEvents (eventheap_fetchtriggered g now).2 ∧
      eventheap_size (eventheap_fetchtriggered g now).2 + 1 = eventheap_size g ∧
      heapInvariant (eventheap_fetchtriggered g now).2) ∧
    ((eventheap_fetchtriggered g now).1 = none → (eventheap_fetchtriggered g now).2 = g) := by
  refine ⟨rfl, ?_⟩
  cases g with
  | none =>
    simp [eventheap_fetchtriggered, eventheap_size]
  | some h =>
    by_cases h0 : HEAPSIZE h < 1
    · have hz : eventheap_size (some h) = 0 := by simp only [eventheap_size]; omega
      simp [eventheap_fetchtriggered, h0, hz]
    · have hpos : 0 < eventheap_size (some h) := by simp only [eventheap_size]; omega
      obtain ⟨e, g1, hf, hpk, hmin, hev, hsz, hi1⟩ :=
        eventheap_fetch_nonempty (some h) hinv hpos
      have hroot : e = slot h 1 := by
        simp only [eventheap_peek, h0, if_false, Option.some.injEq] at hpk
        exact hpk.symm
      have hmem : e ∈ heapEvents (some h) := by rw [hev]; exact Multiset.mem_cons_self _ _
      by_cases hgt : VAL h 1 > now
      · have hres : eventheap_fetchtriggered (some h) now = (none, some h) := by
          simp only [eventheap_fetchtriggered, h0, if_false, hgt, if_true]
        rw [hres]
        refine ⟨?_, ?_, ?_⟩
        · constructor
          · rintro ⟨x, hx⟩; simp at hx
          · rintro ⟨_, m, hm, hle, hnow⟩
            exfalso
            have := hle e hmem
            have := hmin m hm
            have : VAL h 1 = e.next_trigger := by rw [hroot]; rfl
            omega
        · intro x hx; simp at hx
        · intro _; rfl
      · have hres : eventheap_fetchtriggered (some h) now = (some e, g1) := by
          simp only [eventheap_fetchtriggered, h0, if_false, hgt]
          exact hf
        rw [hres]
        refine ⟨?_, ?_, ?_⟩
        · constructor
          · intro _
            refine ⟨hpos, e, hmem, hmin, ?_⟩
            have : VAL h 1 = e.next_trigger := by rw [hroot]; rfl
            omega
          · intro _; exact ⟨e, rfl⟩
        · intro x hx
          simp only [Option.some.injEq] at hx
          subst hx
          exact ⟨hpk, hf.symm, hev, hsz, hi1⟩
        · intro hx; simp at hx

/-- C3, instance: at time 15 the example heap hands out its root, which triggers
at 10. -/
theorem eventheap_fetchtriggered_iff_witness :
    heapInvariant exampleHeap ∧
    (eventheap_fetchtriggered exampleHeap 15).1 = some ⟨10, 60, 2, 7, 1⟩ ∧
    ((∃ e, (eventheap_fetchtriggered exampleHeap 15).1 = some e) ↔
      (0 < eventheap_size exampleHeap ∧
        ∃ m ∈ heapEvents exampleHeap,
          (∀ x ∈ heapEvents exampleHeap, m.next_trigger ≤ x.next_trigger) ∧
          m.next_trigger ≤ 15)) :=
  ⟨by decide, by decide, (eventheap_fetchtriggered_iff exampleHeap 15 (by decide)).2.1⟩

/-- C4: for every finite sequence of events inserted with `eventheap_insert` into an
empty (never allocated) heap, repeating `eventheap_fetch` until it returns NULL does reach
NULL, and the events returned before it are every inserted event exactly once, in
non-decreasing order of next_trigger. -/
theorem eventheap_drain_sorted (es : List event_t) :
    ∃ out g1, fetchAll (insertAll none es) = some (out, g1) ∧
      out.Perm es ∧
      out.Pairwise (fun a b => a.next_trigger ≤ b.next_trigger) ∧
      eventheap_fetch g1 = (none, g1) := by
  obtain ⟨hinv, _, hev⟩ := insertAll_spec es none (by simp [heapInvariant])
  obtain ⟨out, g1, hrun, hout, hsorted, hz, _⟩ :=
    fetchAllAux_spec _ (insertAll none es) rfl hinv (eventheap_size (insertAll none es) + 1)
      (le_refl _)
  refine ⟨out, g1, hrun, ?_, hsorted, eventheap_fetch_empty g1 hz⟩
  apply Multiset.coe_eq_coe.mp
  rw [hout, hev]
  simp [heapEvents]

/-! ## The parser: library functions -/

theorem toInt32_of_range (v : Int) (h1 : -2147483648 ≤ v) (h2 : v ≤ 2147483647) :
    toInt32 v = v := by
  unfold toInt32
  omega

theorem strtol_of_decimalField_none (s : List Char) (h : decimalField s = none) :
    strtol s = ⟨0, s, false⟩ := by
  unfold decimalField at h
  unfold strtol
  simp only at h ⊢
  split at h
  · rename_i hds
    rw [if_pos hds]
  · simp at h

theorem strtol_of_decimalField_some (s : List Char) (v : Int) (rest : List Char)
    (h : decimalField s = some (v, rest)) (h1 : LONG_MIN ≤ v) (h2 : v ≤ LONG_MAX) :
    strtol s = ⟨v, rest, false⟩ := by
  unfold decimalField at h
  unfold strtol
  simp only at h ⊢
  generalize scanDecimal s = sc at h
  split at h
  · simp at h
  · rename_i hds
    rw [if_neg hds]
    simp only [Option.some.injEq, Prod.mk.injEq] at h
    obtain ⟨hv, hr⟩ := h
    by_cases hneg : sc.1 = true
    · rw [if_pos hneg] at hv
      rw [if_pos hneg, hv, hr, if_neg (by omega)]
    · rw [if_neg hneg] at hv
      rw [if_neg hneg, hv, hr, if_neg (by omega)]

theorem scanDecimal_length (s : List Char) :
    (scanDecimal s).2.1.length + (scanDecimal s).2.2.length ≤ s.length := by
  unfold scanDecimal
  simp only
  generalize ht1 : (if (List.dropWhile isspace s).head? = some '-' ∨
    (List.dropWhile isspace s).head? = some '+' then (List.dropWhile isspace s).tail
    else List.dropWhile isspace s) = t1
  have e := List.takeWhile_append_dropWhile isdigit t1
  have l1 : (List.takeWhile isdigit t1).length + (List.dropWhile isdigit t1).length
      = t1.length := by
    rw [← List.length_append, e]
  have l3 : t1.length ≤ (List.dropWhile isspace s).length := by
    rw [← ht1]
    split
    · simp
    · exact le_refl _
  have l4 : (List.dropWhile isspace s).length ≤ s.length :=
    (List.dropWhile_sublist isspace).length_le
  omega

theorem decimalField_length (s : List Char) (v : Int) (rest : List Char)
    (h : decimalField s = some (v, rest)) : rest.length < s.length := by
  have hl := scanDecimal_length s
  unfold decimalField at h
  simp only at h
  split at h
  · simp at h
  · rename_i hds
    simp only [Option.some.injEq, Prod.mk.injEq] at h
    obtain ⟨_, hr⟩ := h
    rw [← hr]
    have l2 : 1 ≤ (scanDecimal s).2.1.length := by
      cases hh : (scanDecimal s).2.1 with
      | nil => exact absurd hh hds
      | cons a b => simp
    omega

/-! ## The parser: one entry -/

theorem sptr_eq_afterPrefix (s : List Char) :
    (if s.head? = some '@' ∨ s.head? = some '!' then s.tail else s) = afterPrefix s := by
  unfold afterPrefix hasPrefix
  by_cases h : s.head? = some '@' ∨ s.head? = some '!'
  · rw [if_pos h]
    rcases h with h | h <;> simp [h]
  · rw [if_neg h]
    push_neg at h
    simp [h.1, h.2]

theorem type_eq_prefixType (s : List Char) :
    (if s.head? = some '@' then EVENT_TYPE_INTERVAL
      else if s.head? = some '!' then EVENT_TYPE_ONCE else EVENT_TYPE_DAILY) = prefixType s := rfl

theorem prefixType_daily_iff (s : List Char) :
    prefixType s = EVENT_TYPE_DAILY ↔ hasPrefix s = false := by
  unfold prefixType hasPrefix EVENT_TYPE_DAILY EVENT_TYPE_INTERVAL EVENT_TYPE_ONCE
  by_cases h1 : s.head? = some '@'
  · simp [h1]
  · by_cases h2 : s.head? = some '!'
    · simp [h1, h2]
    · simp [h1, h2]

theorem parse_entry_eq (lib : libc_t) (cfg : cfg_t) (now : Int) (s : List Char)
    (hs : s ≠ []) (hfit : numbersFit s = true) :
    ∃ o, parse_entry lib cfg now 0 s = (0, o) ∧
    (specEvent s = none → ∃ why, o = .discarded why) ∧
    (∀ ty lo act, specEvent s = some (ty, lo, act) →
      o = .accepted (__schedule_next_trigger lib cfg now
        { next_trigger := 0, localoffset := lo, type := ty, action := act,
          source := EVENT_SOURCE_PARSED })) := by
  unfold parse_entry
  rw [if_neg hs]
  simp only [sptr_eq_afterPrefix, type_eq_prefixType]
  unfold specEvent
  unfold numbersFit at hfit
  cases hd : decimalField (afterPrefix s) with
  | none =>
    rw [strtol_of_decimalField_none _ hd]
    exact ⟨.discarded .no_hours, by simp, by simp, by simp⟩
  | some p =>
    obtain ⟨hh, rest⟩ := p
    rw [hd] at hfit
    simp only [Bool.and_eq_true, decide_eq_true_eq] at hfit
    obtain ⟨⟨hb1, hb2⟩, hfit2⟩ := hfit
    rw [strtol_of_decimalField_some _ _ _ hd (by unfold LONG_MIN; omega) (by unfold LONG_MAX; omega)]
    have hlen := decimalField_length _ _ _ hd
    have hlen2 : ¬ (rest.length = (afterPrefix s).length) := by omega
    simp only [toInt32_of_range hh hb1 (by omega), Bool.false_eq_true, if_false, ne_eq,
      not_true_eq_false, if_neg hlen2]
    by_cases hc1 : prefixType s = EVENT_TYPE_DAILY ∧ (hh < 0 ∨ hh > 23)
    · rw [if_pos hc1]
      refine ⟨.discarded .hours_range, rfl, fun _ => ⟨_, rfl⟩, ?_⟩
      intro ty lo act h
      rw [prefixType_daily_iff] at hc1
      have : hh < 0 ∨ hasPrefix s = false ∧ hh > 23 := by
        rcases hc1.2 with h1 | h1
        · exact Or.inl h1
        · exact Or.inr ⟨hc1.1, h1⟩
      rw [if_pos this] at h
      simp at h
    · rw [if_neg hc1]
      by_cases hc2 : hh < 0
      · rw [if_pos hc2]
        refine ⟨.discarded .hours_negative, rfl, fun _ => ⟨_, rfl⟩, ?_⟩
        intro ty lo act h
        rw [if_pos (Or.inl hc2)] at h
        simp at h
      · rw [if_neg hc2]
        have hc1b : ¬ (hh < 0 ∨ hasPrefix s = false ∧ hh > 23) := by
          rw [prefixType_daily_iff] at hc1
          rintro (h1 | ⟨h1, h2⟩)
          · exact hc2 h1
          · exact hc1 ⟨h1, Or.inr h2⟩
        rw [if_neg hc1b]
        have hmul : toInt32 (hh * SECONDS_PER_HOUR) = hh * 3600 := by
          unfold SECONDS_PER_HOUR
          exact toInt32_of_range _ (by omega) (by omega)
        rw [hmul]
        cases rest with
        | nil =>
          exact ⟨.discarded .separator, by simp, fun _ => ⟨_, rfl⟩, by simp⟩
        | cons c rest1 =>
          by_cases hc3 : c = ':'
          · subst hc3
            simp only [List.head?_cons, not_true_eq_false, if_false, List.tail_cons, ne_eq]
            simp only [bne_self_eq_false, Bool.false_or] at hfit2
            cases hd2 : decimalField rest1 with
            | none =>
              simp only [strtol_of_decimalField_none _ hd2]
              exact ⟨.discarded .no_minutes, by simp, fun _ => ⟨_, rfl⟩, by simp⟩
            | some q =>
              obtain ⟨mm, rest2⟩ := q
              rw [hd2] at hfit2
              simp only [Bool.and_eq_true, decide_eq_true_eq] at hfit2
              obtain ⟨hm1, hm2⟩ := hfit2
              simp only [strtol_of_decimalField_some _ _ _ hd2 (by unfold LONG_MIN; omega)
                (by unfold LONG_MAX; omega)]
              have hlen3 := decimalField_length _ _ _ hd2
              have hlen4 : ¬ (rest2.length = rest1.length) := by omega
              simp only [toInt32_of_range mm hm1 hm2, Bool.false_eq_true, if_false,
                not_true_eq_false, if_neg hlen4]
              by_cases hc4 : mm < 0 ∨ mm > 59
              · rw [if_pos hc4]
                refine ⟨.discarded .minutes_range, rfl, fun _ => ⟨_, rfl⟩, ?_⟩
                intro ty lo act h
                simp [hc4] at h
              · rw [if_neg hc4, if_neg hc4]
                by_cases hc5 : List.dropWhile isspace rest2 = []
                · rw [if_pos hc5]
                  refine ⟨.discarded .missing_code, rfl, fun _ => ⟨_, rfl⟩, ?_⟩
                  intro ty lo act h
                  simp [hc5] at h
                · rw [if_neg hc5, if_neg hc5]
                  by_cases hc6 : __actionstring2code (List.dropWhile isspace rest2) = 0
                  · rw [if_pos hc6]
                    refine ⟨.discarded .unrecognized_action, rfl, fun _ => ⟨_, rfl⟩, ?_⟩
                    intro ty lo act h
                    simp [hc6] at h
                  · rw [if_neg hc6, if_neg hc6]
                    have hmul2 : toInt32 (mm * SECONDS_PER_MINUTE) = mm * 60 := by
                      unfold SECONDS_PER_MINUTE
                      exact toInt32_of_range _ (by omega) (by omega)
                    rw [hmul2]
                    have hnn : ¬ (hh * 3600 + mm * 60 < 0) := by omega
                    rw [if_neg hnn]
                    refine ⟨_, rfl, ?_, ?_⟩
                    · intro h; simp at h
                    · intro ty lo act h
                      simp only [ite_not, Option.some.injEq, Prod.mk.injEq] at h
                      obtain ⟨h1, h2, h3⟩ := h
                      subst h1 h2 h3
                      have : hh * 3600 + mm * 60 = 3600 * hh + 60 * mm := by ring
                      rw [this]
          · have hh2 : ¬ (some c = some ':') := by simpa using hc3
            simp only [List.head?_cons, hh2, not_false_eq_true, if_true]
            refine ⟨.discarded .separator, rfl, fun _ => ⟨_, rfl⟩, ?_⟩
            intro ty lo act h
            simp [hc3] at h

theorem actionstring2code_eq_zero_iff (a : List Char) (ha : a ≠ []) :
    __actionstring2code a = 0 ↔ recognisedAction a = false := by
  unfold __actionstring2code
  rw [if_neg ha]
  simp only [event_action, List.drop, actionstring2code_loop, strcasecmp_eq]
  unfold recognisedAction actionNames
  simp only [List.any_cons, List.any_nil, Bool.or_false, Bool.or_eq_false_iff,
    decide_eq_false_iff_not, decide_eq_true_eq]
  split_ifs <;> simp_all

theorem malformed_iff_specEvent_none (s : List Char) :
    malformed s = true ↔ specEvent s = none := by
  unfold malformed specEvent
  cases decimalField (afterPrefix s) with
  | none => simp
  | some p =>
    obtain ⟨hh, rest⟩ := p
    simp only
    by_cases h1 : hh < 0 ∨ hasPrefix s = false ∧ hh > 23
    · rw [if_pos h1]
      rcases h1 with h | ⟨h, h2⟩ <;> simp [h, *]
    · rw [if_neg h1]
      have e1 : decide (hh < 0) = false := by
        simp only [decide_eq_false_iff_not]; intro h; exact h1 (Or.inl h)
      have e2 : (!hasPrefix s && decide (hh > 23)) = false := by
        by_contra hc
        simp only [Bool.not_eq_false, Bool.and_eq_true, Bool.not_eq_eq_eq_not, Bool.not_true, decide_eq_true_eq] at hc
        exact h1 (Or.inr hc)
      rw [e1, e2]
      simp only [Bool.false_or]
      cases rest with
      | nil => simp
      | cons c rest1 =>
        simp only
        by_cases hc : c = ':'
        · subst hc
          simp only [bne_self_eq_false, Bool.false_or, ne_eq, not_true_eq_false, if_false]
          unfold malformedMinutes
          cases decimalField rest1 with
          | none => simp
          | some q =>
            obtain ⟨mm, rest2⟩ := q
            simp only
            by_cases h2 : mm < 0 ∨ mm > 59
            · rw [if_pos h2]
              rcases h2 with h | h <;> simp [h]
            · rw [if_neg h2]
              have e3 : decide (mm < 0) = false := by
                simp only [decide_eq_false_iff_not]; intro h; exact h2 (Or.inl h)
              have e4 : decide (mm > 59) = false := by
                simp only [decide_eq_false_iff_not]; intro h; exact h2 (Or.inr h)
              rw [e3, e4]
              simp only [Bool.false_or]
              unfold malformedAction
              simp only
              by_cases h3 : List.dropWhile isspace rest2 = []
              · simp [h3]
              · rw [if_neg h3]
                have := actionstring2code_eq_zero_iff _ h3
                by_cases h4 : __actionstring2code (List.dropWhile isspace rest2) = 0
                · rw [if_pos h4]
                  simp [this.mp h4]
                · rw [if_neg h4]
                  have : recognisedAction (List.dropWhile isspace rest2) = true := by
                    by_contra hc
                    exact h4 (this.mpr (by simpa using hc))
                  simp [h3, this]
        · simp [hc]

/-! ## The parser: scheduling keeps the parsed fields -/

theorem schedule_type (lib : libc_t) (cfg : cfg_t) (now : Int) (e : event_t) :
    (__schedule_next_trigger lib cfg now e).type = e.type := by
  unfold __schedule_next_trigger
  simp only
  split
  · rfl
  · split <;> rfl

theorem schedule_action (lib : libc_t) (cfg : cfg_t) (now : Int) (e : event_t) :
    (__schedule_next_trigger lib cfg now e).action = e.action := by
  unfold __schedule_next_trigger
  simp only
  split
  · rfl
  · split <;> rfl

theorem schedule_source (lib : libc_t) (cfg : cfg_t) (now : Int) (e : event_t) :
    (__schedule_next_trigger lib cfg now e).source = e.source := by
  unfold __schedule_next_trigger
  simp only
  split
  · rfl
  · split <;> rfl

theorem schedule_localoffset (lib : libc_t) (cfg : cfg_t) (now : Int) (e : event_t)
    (h : 0 ≤ e.localoffset) :
    (__schedule_next_trigger lib cfg now e).localoffset = e.localoffset := by
  unfold __schedule_next_trigger
  simp only
  split
  · simp only
    split
    · rfl
    · rw [if_neg (by omega)]
  · split <;> rfl

/-! ## The parser: the loop over the entries -/

theorem parse_loop_errors_irrelevant (lib : libc_t) (cfg : cfg_t) (now : Int) :
    ∀ (arr : List (List Char)) (idx : Nat) (st1 st2 : parse_loop_state),
    st1.errno = st2.errno → st1.parsed = st2.parsed → st1.n_discarded = st2.n_discarded →
    (parse_loop lib cfg now arr idx st1).errno = (parse_loop lib cfg now arr idx st2).errno ∧
    (parse_loop lib cfg now arr idx st1).parsed = (parse_loop lib cfg now arr idx st2).parsed ∧
    (parse_loop lib cfg now arr idx st1).n_discarded
      = (parse_loop lib cfg now arr idx st2).n_discarded := by
  intro arr
  induction arr with
  | nil => intro idx st1 st2 h1 h2 h3; exact ⟨h1, h2, h3⟩
  | cons s rest ih =>
    intro idx st1 st2 h1 h2 h3
    unfold parse_loop
    rw [h1]
    rcases hp : parse_entry lib cfg now st2.errno s with ⟨errno, o⟩
    cases o with
    | discarded why =>
      simp only
      exact ih _ _ _ rfl h2 (by simp [h3])
    | accepted e =>
      simp only
      exact ih _ _ _ rfl (by simp [h2]) h3

theorem parse_loop_fit (lib : libc_t) (cfg : cfg_t) (now : Int) :
    ∀ (arr : List (List Char)) (idx : Nat) (st : parse_loop_state),
    st.errno = 0 → (∀ s ∈ arr, s ≠ [] ∧ numbersFit s = true) →
    (parse_loop lib cfg now arr idx st).errno = 0 ∧
    (parse_loop lib cfg now arr idx st).n_discarded
      = st.n_discarded + arr.countP malformed ∧
    (parse_loop lib cfg now arr idx st).parsed
      = st.parsed ++ arr.filterMap (specStaged lib cfg now) := by
  intro arr
  induction arr with
  | nil => intro idx st h0 _; simp [parse_loop, h0]
  | cons s rest ih =>
    intro idx st h0 hall
    have hs := hall s (List.mem_cons_self _ _)
    have hrest : ∀ x ∈ rest, x ≠ [] ∧ numbersFit x = true :=
      fun x hx => hall x (List.mem_cons_of_mem _ hx)
    obtain ⟨o, he, hnone, hsome⟩ := parse_entry_eq lib cfg now s hs.1 hs.2
    unfold parse_loop
    rw [h0, he]
    cases hsp : specEvent s with
    | none =>
      obtain ⟨why, hw⟩ := hnone hsp
      subst hw
      simp only
      obtain ⟨a, b, c⟩ := ih (idx + 1)
        { st with errno := 0, n_discarded := st.n_discarded + 1,
                  errors := bsprintf_error st.errors idx why } rfl hrest
      refine ⟨a, ?_, ?_⟩
      · rw [b]
        have : malformed s = true := (malformed_iff_specEvent_none s).mpr hsp
        simp [List.countP_cons, this]; omega
      · rw [c]
        simp [List.filterMap_cons, specStaged, hsp]
    | some t =>
      obtain ⟨ty, lo, act⟩ := t
      have hw := hsome ty lo act hsp
      subst hw
      simp only
      obtain ⟨a, b, c⟩ := ih (idx + 1)
        { st with errno := 0, parsed := st.parsed ++ [__schedule_next_trigger lib cfg now
            { next_trigger := 0, localoffset := lo, type := ty, action := act,
              source := EVENT_SOURCE_PARSED }] } rfl hrest
      refine ⟨a, ?_, ?_⟩
      · rw [b]
        have : ¬ (malformed s = true) := by
          rw [malformed_iff_specEvent_none, hsp]; simp
        simp [List.countP_cons, this]
      · rw [c]
        simp [List.filterMap_cons, specStaged, hsp]

theorem parse_entry_shape (lib : libc_t) (cfg : cfg_t) (now : Int) (errno : Int)
    (s : List Char) :
    (∃ why, (parse_entry lib cfg now errno s).2 = .discarded why) ∨
    (∃ lo act, 0 ≤ lo ∧ act ≠ 0 ∧
      (parse_entry lib cfg now errno s).2 = .accepted (__schedule_next_trigger lib cfg now
        { next_trigger := 0, localoffset := lo, type := prefixType s, action := act,
          source := EVENT_SOURCE_PARSED })) := by
  unfold parse_entry
  simp only [type_eq_prefixType, sptr_eq_afterPrefix]
  by_cases h0 : s = []
  · rw [if_pos h0]; exact Or.inl ⟨_, rfl⟩
  rw [if_neg h0]
  generalize strtol (afterPrefix s) = r1
  generalize (if r1.erange = true then ERANGE else errno) = e1
  generalize toInt32 r1.value = v1
  by_cases h1 : e1 ≠ 0
  · rw [if_pos h1]; exact Or.inl ⟨_, rfl⟩
  rw [if_neg h1]
  by_cases h2 : r1.endptr.length = (afterPrefix s).length
  · rw [if_pos h2]; exact Or.inl ⟨_, rfl⟩
  rw [if_neg h2]
  by_cases h3 : prefixType s = EVENT_TYPE_DAILY ∧ (v1 < 0 ∨ v1 > 23)
  · rw [if_pos h3]; exact Or.inl ⟨_, rfl⟩
  rw [if_neg h3]
  by_cases h4 : v1 < 0
  · rw [if_pos h4]; exact Or.inl ⟨_, rfl⟩
  rw [if_neg h4]
  by_cases h5 : r1.endptr.head? ≠ some ':'
  · rw [if_pos h5]; exact Or.inl ⟨_, rfl⟩
  rw [if_neg h5]
  generalize strtol r1.endptr.tail = r2
  generalize (if r2.erange = true then ERANGE else e1) = e2
  generalize toInt32 r2.value = v2
  by_cases h6 : e2 ≠ 0
  · rw [if_pos h6]; exact Or.inl ⟨_, rfl⟩
  rw [if_neg h6]
  by_cases h7 : r2.endptr.length = r1.endptr.tail.length
  · rw [if_pos h7]; exact Or.inl ⟨_, rfl⟩
  rw [if_neg h7]
  by_cases h8 : v2 < 0 ∨ v2 > 59
  · rw [if_pos h8]; exact Or.inl ⟨_, rfl⟩
  rw [if_neg h8]
  by_cases h9 : List.dropWhile isspace r2.endptr = []
  · rw [if_pos h9]; exact Or.inl ⟨_, rfl⟩
  rw [if_neg h9]
  by_cases h10 : __actionstring2code (List.dropWhile isspace r2.endptr) = 0
  · rw [if_pos h10]; exact Or.inl ⟨_, rfl⟩
  rw [if_neg h10]
  by_cases h11 : toInt32 (v1 * SECONDS_PER_HOUR) + toInt32 (v2 * SECONDS_PER_MINUTE) < 0
  · rw [if_pos h11]; exact Or.inl ⟨_, rfl⟩
  rw [if_neg h11]
  exact Or.inr ⟨_, _, by omega, h10, rfl⟩

theorem parse_entry_accepted (lib : libc_t) (cfg : cfg_t) (now : Int) (errno : Int)
    (s : List Char) (errno1 : Int) (e : event_t)
    (h : parse_entry lib cfg now errno s = (errno1, .accepted e)) :
    0 ≤ e.localoffset ∧ e.source = EVENT_SOURCE_PARSED ∧ e.action ≠ 0 ∧
    e.type = prefixType s := by
  have h2 : (parse_entry lib cfg now errno s).2 = .accepted e := by rw [h]
  rcases parse_entry_shape lib cfg now errno s with ⟨why, hw⟩ | ⟨lo, act, hlo, hact, hw⟩
  · rw [hw] at h2; simp at h2
  · rw [hw] at h2
    simp only [entry_outcome.accepted.injEq] at h2
    rw [← h2]
    refine ⟨?_, ?_, ?_, ?_⟩
    · rw [schedule_localoffset _ _ _ _ hlo]; exact hlo
    · rw [schedule_source]
    · rw [schedule_action]; exact hact
    · rw [schedule_type]

theorem parse_loop_general (lib : libc_t) (cfg : cfg_t) (now : Int) :
    ∀ (arr : List (List Char)) (idx : Nat) (st : parse_loop_state),
    (parse_loop lib cfg now arr idx st).parsed.length
        + (parse_loop lib cfg now arr idx st).n_discarded
      = st.parsed.length + st.n_discarded + arr.length ∧
    (∀ e ∈ (parse_loop lib cfg now arr idx st).parsed,
      e ∈ st.parsed ∨ (0 ≤ e.localoffset ∧ e.source = EVENT_SOURCE_PARSED ∧ e.action ≠ 0)) := by
  intro arr
  induction arr with
  | nil =>
    intro idx st
    exact ⟨by simp [parse_loop], fun e he => Or.inl he⟩
  | cons s rest ih =>
    intro idx st
    unfold parse_loop
    rcases hp : parse_entry lib cfg now st.errno s with ⟨errno, o⟩
    cases o with
    | discarded why =>
      simp only
      obtain ⟨a, b⟩ := ih (idx + 1)
        { st with errno := errno, n_discarded := st.n_discarded + 1,
                  errors := bsprintf_error st.errors idx why }
      refine ⟨?_, b⟩
      rw [a]; simp; omega
    | accepted e =>
      simp only
      obtain ⟨a, b⟩ := ih (idx + 1) { st with errno := errno, parsed := st.parsed ++ [e] }
      refine ⟨?_, ?_⟩
      · rw [a]; simp; omega
      · intro x hx
        rcases b x hx with h1 | h1
        · simp only [List.mem_append, List.mem_singleton] at h1
          rcases h1 with h1 | h1
          · exact Or.inl h1
          · subst h1
            obtain ⟨p1, p2, p3, _⟩ := parse_entry_accepted lib cfg now st.errno s errno x hp
            exact Or.inr ⟨p1, p2, p3⟩
        · exact Or.inr h1

/-! ## The parser: the whole function -/

theorem insert_poweron_of_no_resume (lib : libc_t) (cfg : cfg_t) (now : Int) :
    ∀ l : List event_t, (l.filter (fun e => e.action = EVENT_ACTION_RESUME)).length = 0 →
    insert_poweron lib cfg now l = l := by
  intro l
  induction l with
  | nil => intro _; rfl
  | cons e rest ih =>
    intro h
    unfold insert_poweron
    by_cases he : e.action = EVENT_ACTION_RESUME
    · simp [List.filter_cons, he] at h
    · rw [if_neg he]
      simp only [List.filter_cons, he, decide_False, Bool.false_eq_true, if_false] at h
      rw [ih h]

theorem insert_poweron_perm (lib : libc_t) (cfg : cfg_t) (now : Int) :
    ∀ l : List event_t, (insert_poweron lib cfg now l).Perm
      (l ++ (l.filter (fun e => e.action = EVENT_ACTION_RESUME)).map
        (make_poweron lib cfg now)) := by
  intro l
  induction l with
  | nil => exact List.Perm.refl _
  | cons e rest ih =>
    unfold insert_poweron
    by_cases he : e.action = EVENT_ACTION_RESUME
    · rw [if_pos he]
      simp only [List.filter_cons, he, decide_True, if_true, List.map_cons, List.cons_append]
      have h1 : (make_poweron lib cfg now e :: e :: insert_poweron lib cfg now rest).Perm
          (e :: make_poweron lib cfg now e :: insert_poweron lib cfg now rest) :=
        List.Perm.swap _ _ _
      refine h1.trans (List.Perm.cons e ?_)
      have h2 : (make_poweron lib cfg now e :: insert_poweron lib cfg now rest).Perm
          (make_poweron lib cfg now e :: (rest ++ List.map (make_poweron lib cfg now)
            (List.filter (fun e => decide (e.action = EVENT_ACTION_RESUME)) rest))) :=
        List.Perm.cons _ ih
      exact h2.trans List.perm_middle.symm
    · rw [if_neg he]
      simp only [List.filter_cons, he, decide_False, Bool.false_eq_true, if_false,
        List.cons_append]
      exact List.Perm.cons e ih

theorem make_poweron_spec (lib : libc_t) (cfg : cfg_t) (now : Int) (r : event_t)
    (hr : 0 ≤ r.localoffset) (hd : cfg.powerupdelay ≤ 86400) :
    (make_poweron lib cfg now r).action = EVENT_ACTION_POWERON ∧
    (make_poweron lib cfg now r).type = EVENT_TYPE_DAILY ∧
    (make_poweron lib cfg now r).source = EVENT_SOURCE_PARSED ∧
    (make_poweron lib cfg now r).localoffset =
      (if r.localoffset - cfg.powerupdelay < 0
        then r.localoffset - cfg.powerupdelay + SECONDS_PER_DAY
        else r.localoffset - cfg.powerupdelay) := by
  unfold make_poweron
  refine ⟨rfl, ?_, ?_, ?_⟩
  · simp only
    rw [schedule_type]
  · simp only
    rw [schedule_source]
  · simp only
    rw [schedule_localoffset]
    simp only
    unfold SECONDS_PER_DAY
    split <;> omega

theorem event_test_parse_null (lib : libc_t) (cfg : cfg_t) (now : Int) (st : globals) :
    event_test_parse lib cfg now st none = (-1, st) := rfl

theorem event_test_parse_empty (lib : libc_t) (cfg : cfg_t) (now : Int) (st : globals)
    (array : List (List Char)) (h : arrcollapse array = []) :
    event_test_parse lib cfg now st (some array) = (-1, st) := by
  unfold event_test_parse
  simp only [h, if_true]

theorem event_test_parse_eq (lib : libc_t) (cfg : cfg_t) (now : Int) (st : globals)
    (array : List (List Char)) (h : arrcollapse array ≠ []) :
    (event_test_parse lib cfg now st (some array)).1 = (discardedCount lib cfg now array : Int) ∧
    (event_test_parse lib cfg now st (some array)).2.g_heap = st.g_heap ∧
    (discardedCount lib cfg now array ≠ 0 →
      staged (event_test_parse lib cfg now st (some array)) = parsedEvents lib cfg now array) ∧
    (discardedCount lib cfg now array = 0 →
      staged (event_test_parse lib cfg now st (some array)) =
        qsort (if cfg.powercontrol ≠ 0 ∧ cfg.powerupdelay ≠ 0
          then insert_poweron lib cfg now (parsedEvents lib cfg now array)
          else parsedEvents lib cfg now array)) := by
  unfold event_test_parse staged
  simp only [if_neg h]
  generalize hst : (if st.g_parsed ≠ none then event_test_clear st else st) = st1
  have hheap : st1.g_heap = st.g_heap := by
    rw [← hst]; split <;> rfl
  obtain ⟨_, hp, hn⟩ := parse_loop_errors_irrelevant lib cfg now (arrcollapse array) 0
    { errno := 0, parsed := [], n_discarded := 0, errors := st1.g_errors }
    { errno := 0, parsed := [], n_discarded := 0, errors := none } rfl rfl rfl
  generalize parse_loop lib cfg now (arrcollapse array) 0
    { errno := 0, parsed := [], n_discarded := 0, errors := st1.g_errors } = l at hp hn
  unfold discardedCount parsedEvents
  rw [← hp, ← hn]
  by_cases hd : l.n_discarded ≠ 0
  · rw [if_pos hd]
    exact ⟨rfl, hheap, fun _ => rfl, fun h0 => absurd h0 hd⟩
  · rw [if_neg hd]
    have hd0 : l.n_discarded = 0 := by
      by_contra hc; exact hd hc
    by_cases hz : l.parsed.length = 0
    · rw [if_pos hz]
      have hnil : l.parsed = [] := List.length_eq_zero.mp hz
      refine ⟨by simp [hd0], hheap, fun h1 => absurd hd0 h1, fun _ => ?_⟩
      simp only [hnil]
      split <;> rfl
    · rw [if_neg hz]
      refine ⟨by simp [hd0], hheap, fun h1 => absurd hd0 h1, fun _ => ?_⟩
      simp only
      by_cases hc : cfg.powercontrol ≠ 0 ∧ cfg.powerupdelay ≠ 0
      · rw [if_pos hc, if_pos hc]
        by_cases hr : (l.parsed.filter (fun e => e.action = EVENT_ACTION_RESUME)).length ≠ 0
        · rw [if_pos hr]
        · rw [if_neg hr]
          have hr0 : (l.parsed.filter (fun e => e.action = EVENT_ACTION_RESUME)).length = 0 := by
            by_contra hc2; exact hr hc2
          rw [insert_poweron_of_no_resume lib cfg now _ hr0]
      · rw [if_neg hc, if_neg hc]
        simp

theorem qsort_perm (l : List event_t) : (qsort l).Perm l :=
  List.perm_insertionSort _ l

/-! ## The parser: well-formed entries -/

theorem while_all_append (p : Char → Bool) (l r : List Char) (hl : ∀ c ∈ l, p c = true)
    (hr : ∀ c, r.head? = some c → p c = false) :
    (l ++ r).takeWhile p = l ∧ (l ++ r).dropWhile p = r := by
  induction l with
  | nil =>
    cases r with
    | nil => simp
    | cons c t =>
      have := hr c rfl
      simp [List.takeWhile_cons, List.dropWhile_cons, this]
  | cons a t ih =>
    have ha := hl a (List.mem_cons_self _ _)
    obtain ⟨i1, i2⟩ := ih (fun c hc => hl c (List.mem_cons_of_mem _ hc))
    simp [List.takeWhile_cons, List.dropWhile_cons, ha, i1, i2]

theorem isdigit_facts (c : Char) (h : isdigit c = true) :
    isspace c = false ∧ c ≠ '-' ∧ c ≠ '+' ∧ c ≠ '@' ∧ c ≠ '!' := by
  refine ⟨?_, ?_, ?_, ?_, ?_⟩
  · unfold isdigit at h
    unfold isspace
    simp only [Bool.and_eq_true, decide_eq_true_eq] at h
    simp only [Bool.or_eq_false_iff, decide_eq_false_iff_not, Bool.and_eq_false_imp,
      decide_eq_true_eq]
    omega
  all_goals
    intro hc
    rw [hc] at h
    exact absurd h (by decide)

theorem decimalField_digits (ds rest : List Char) (hne : ds ≠ [])
    (hds : ∀ c ∈ ds, isdigit c = true) (hr : ∀ c, rest.head? = some c → isdigit c = false) :
    decimalField (ds ++ rest) = some ((digitsValue ds : Int), rest) := by
  obtain ⟨d, t, rfl⟩ : ∃ d t, ds = d :: t := by
    cases ds with
    | nil => exact absurd rfl hne
    | cons d t => exact ⟨d, t, rfl⟩
  obtain ⟨f1, f2, f3, _, _⟩ := isdigit_facts d (hds d (List.mem_cons_self _ _))
  obtain ⟨w1, w2⟩ := while_all_append isdigit (d :: t) rest hds hr
  have hsc : scanDecimal (d :: t ++ rest) = (false, d :: t, rest) := by
    unfold scanDecimal
    have e1 : List.dropWhile isspace (d :: t ++ rest) = d :: t ++ rest := by
      simp [List.dropWhile_cons, f1]
    simp only [e1]
    have e2 : (d :: t ++ rest).head? = some d := rfl
    have e3 : ¬ (some d = some '-' ∨ some d = some '+') := by
      simp only [Option.some.injEq]
      rintro (h | h)
      · exact f2 h
      · exact f3 h
    have e4 : ¬ (some d = some '-') := by
      simp only [Option.some.injEq]; exact f2
    rw [e2, if_neg e3, w1, w2]
    simp [e4]
  unfold decimalField
  simp only [hsc]
  simp

theorem tolower_letter (c x : Char) (h : tolower c = x) (h1 : 97 ≤ x.toNat)
    (h2 : x.toNat ≤ 122) : isdigit c = false ∧ isspace c = false := by
  unfold tolower at h
  unfold isdigit isspace
  simp only [Bool.and_eq_false_imp, decide_eq_true_eq, decide_eq_false_iff_not,
    Bool.or_eq_false_iff]
  by_cases hu : 65 ≤ c.toNat ∧ c.toNat ≤ 90
  · omega
  · rw [if_neg hu] at h
    subst h
    omega

theorem action_name_facts (name : List Char) (k : Nat) (hk1 : 1 ≤ k) (hk7 : k ≤ 7)
    (hname : strcasecmp_eq name (event_action.getD k ⟨[], 0⟩).name = true) :
    name ≠ [] ∧ (∀ c, name.head? = some c → isdigit c = false ∧ isspace c = false) ∧
    __actionstring2code name = (k : Int) := by
  unfold strcasecmp_eq at hname
  simp only [decide_eq_true_eq] at hname
  have hne : name ≠ [] := by
    intro h
    subst h
    interval_cases k <;> exact absurd hname (by decide)
  refine ⟨hne, ?_, ?_⟩
  · intro c hc
    obtain ⟨t, rfl⟩ : ∃ t, name = c :: t := by
      cases name with
      | nil => simp at hc
      | cons a t =>
        simp only [List.head?_cons, Option.some.injEq] at hc
        exact ⟨t, by rw [hc]⟩
    simp only [List.map_cons] at hname
    interval_cases k
    all_goals
      have h0 := List.head_eq_of_cons_eq hname
      exact tolower_letter c _ h0 (by decide) (by decide)
  · unfold __actionstring2code
    rw [if_neg hne]
    simp only [event_action, List.drop, actionstring2code_loop, strcasecmp_eq]
    interval_cases k
    all_goals
      simp only [event_action, List.getD_cons_succ, List.getD_cons_zero,
        List.getD_eq_getElem?_getD] at hname
      simp only [hname]
      decide

theorem wellFormed_specEvent (pre hh mm ws name : List Char) (k : Nat)
    (h : wellFormedParts pre hh mm ws name k = true) :
    entryText pre hh mm ws name ≠ [] ∧
    numbersFit (entryText pre hh mm ws name) = true ∧
    specEvent (entryText pre hh mm ws name) =
      some (entryType pre, 3600 * (digitsValue hh : Int) + 60 * (digitsValue mm : Int),
        (k : Int)) := by
  unfold wellFormedParts at h
  simp only [Bool.and_eq_true, Bool.or_eq_true, decide_eq_true_eq, Bool.not_eq_eq_eq_not, Bool.not_true,
    List.isEmpty_eq_false, List.all_eq_true, bne_iff_ne, ne_eq] at h
  obtain ⟨⟨⟨⟨⟨⟨⟨⟨⟨⟨⟨hpre, hhne⟩, hhd⟩, hmne⟩, hmd⟩, hm59⟩, hws⟩, hk1⟩, hk7⟩, hname⟩, h23⟩, hfits⟩ := h
  obtain ⟨nne, nhead, ncode⟩ := action_name_facts name k hk1 hk7 hname
  -- the text after the minutes
  have hwn : ∀ c, (ws ++ name).head? = some c → isdigit c = false := by
    intro c hc
    cases ws with
    | nil => exact (nhead c (by simpa using hc)).1
    | cons w t =>
      simp only [List.cons_append, List.head?_cons, Option.some.injEq] at hc
      subst hc
      have := hws w (List.mem_cons_self _ _)
      by_contra hd
      have := (isdigit_facts w (by simpa using hd)).1
      simp_all
  have hdrop : (ws ++ name).dropWhile isspace = name :=
    (while_all_append isspace ws name hws (fun c hc => (nhead c hc).2)).2
  have hcolon : ∀ c, (':' :: (mm ++ (ws ++ name))).head? = some c → isdigit c = false := by
    intro c hc
    simp only [List.head?_cons, Option.some.injEq] at hc
    subst hc
    decide
  have dh := decimalField_digits hh (':' :: (mm ++ (ws ++ name))) hhne hhd hcolon
  have dm := decimalField_digits mm (ws ++ name) hmne hmd hwn
  -- the prefix
  obtain ⟨d, t, hdt⟩ : ∃ d t, hh = d :: t := by
    cases hh with
    | nil => exact absurd rfl hhne
    | cons d t => exact ⟨d, t, rfl⟩
  obtain ⟨_, _, _, fat, fbang⟩ := isdigit_facts d (hhd d (by rw [hdt]; exact List.mem_cons_self _ _))
  have hpf : afterPrefix (entryText pre hh mm ws name) = hh ++ ':' :: (mm ++ (ws ++ name)) ∧
      hasPrefix (entryText pre hh mm ws name) = (pre != []) ∧
      prefixType (entryText pre hh mm ws name) = entryType pre := by
    unfold afterPrefix hasPrefix prefixType entryType entryText
    rcases hpre with (hp | hp) | hp
    · subst hp
      subst hdt
      have e1 : ¬ (some d = some '@') := by simpa using fat
      have e2 : ¬ (some d = some '!') := by simpa using fbang
      simp [e1, e2, fat, fbang]
    · subst hp; simp
    · subst hp; simp
  obtain ⟨hp1, hp2, hp3⟩ := hpf
  have hHH : (digitsValue hh : Int) ≤ 596523 := by omega
  refine ⟨?_, ?_, ?_⟩
  · unfold entryText
    subst hdt
    simp
  · unfold numbersFit
    simp only [hp1, dh, dm]
    simp only [bne_self_eq_false, Bool.false_or, Bool.and_eq_true, decide_eq_true_eq]
    omega
  · unfold specEvent
    simp only [hp1, dh, dm, hp2, hp3, hdrop, ncode]
    have c1 : ¬ ((digitsValue hh : Int) < 0 ∨ (pre != []) = false ∧ (digitsValue hh : Int) > 23) := by
      rintro (h1 | ⟨h1, h2⟩)
      · omega
      · rcases h23 with h3 | h3
        · simp [h3] at h1
        · omega
    have c2 : ¬ ((digitsValue mm : Int) < 0 ∨ (digitsValue mm : Int) > 59) := by omega
    have c3 : ¬ ((k : Int) = 0) := by omega
    simp only [if_neg c1, ne_eq, not_true_eq_false, if_false, if_neg c2, if_neg nne, if_neg c3]

/-! ## The parser: facts used by several claims -/

theorem arrcollapse_eq_filter (array : List (List Char)) :
    arrcollapse array = array.filter (fun s => s ≠ []) := by
  unfold arrcollapse
  congr 1
  funext s
  cases s <;> simp

theorem arrcollapse_mem (array : List (List Char)) (s : List Char) :
    s ∈ arrcollapse array ↔ s ∈ array ∧ s ≠ [] := by
  rw [arrcollapse_eq_filter]
  simp [List.mem_filter]

theorem arrcollapse_ne_nil (array : List (List Char)) (h : ∃ s ∈ array, s ≠ []) :
    arrcollapse array ≠ [] := by
  obtain ⟨s, hs, hne⟩ := h
  intro hc
  have := (arrcollapse_mem array s).mpr ⟨hs, hne⟩
  rw [hc] at this
  simp at this

theorem parse_fit (lib : libc_t) (cfg : cfg_t) (now : Int) (array : List (List Char))
    (hfit : ∀ s ∈ array, s ≠ [] → numbersFit s = true) :
    discardedCount lib cfg now array = (arrcollapse array).countP malformed ∧
    parsedEvents lib cfg now array = (arrcollapse array).filterMap (specStaged lib cfg now) := by
  obtain ⟨_, b, c⟩ := parse_loop_fit lib cfg now (arrcollapse array) 0
    { errno := 0, parsed := [], n_discarded := 0, errors := none } rfl
    (fun s hs => by
      obtain ⟨h1, h2⟩ := (arrcollapse_mem array s).mp hs
      exact ⟨h2, hfit s h1 h2⟩)
  unfold discardedCount parsedEvents
  rw [b, c]
  simp

theorem parsedEvents_length (lib : libc_t) (cfg : cfg_t) (now : Int)
    (array : List (List Char)) :
    (parsedEvents lib cfg now array).length + discardedCount lib cfg now array
      = (arrcollapse array).length := by
  have := (parse_loop_general lib cfg now (arrcollapse array) 0
    { errno := 0, parsed := [], n_discarded := 0, errors := none }).1
  unfold parsedEvents discardedCount
  rw [this]
  simp

theorem parsedEvents_props (lib : libc_t) (cfg : cfg_t) (now : Int)
    (array : List (List Char)) (e : event_t) (he : e ∈ parsedEvents lib cfg now array) :
    0 ≤ e.localoffset ∧ e.source = EVENT_SOURCE_PARSED ∧ e.action ≠ 0 := by
  have := (parse_loop_general lib cfg now (arrcollapse array) 0
    { errno := 0, parsed := [], n_discarded := 0, errors := none }).2 e he
  rcases this with h | h
  · simp at h
  · exact h

theorem parsed_sub_staged (lib : libc_t) (cfg : cfg_t) (now : Int) (st : globals)
    (array : List (List Char)) (h : arrcollapse array ≠ [])
    (e : event_t) (he : e ∈ parsedEvents lib cfg now array) :
    e ∈ staged (event_test_parse lib cfg now st (some array)) := by
  obtain ⟨_, _, h1, h2⟩ := event_test_parse_eq lib cfg now st array h
  by_cases hd : discardedCount lib cfg now array = 0
  · rw [h2 hd]
    apply (qsort_perm _).mem_iff.mpr
    split
    · apply (insert_poweron_perm lib cfg now _).mem_iff.mpr
      exact List.mem_append_left _ he
    · exact he
  · rw [h1 hd]
    exact he

theorem commit_events (r : Int × globals) (hinv : heapInvariant r.2.g_heap) :
    heapInvariant (event_commit_test_schedule r.2).g_heap ∧
    heapEvents (event_commit_test_schedule r.2).g_heap
      = heapEvents r.2.g_heap + (staged r : Multiset event_t) ∧
    (event_commit_test_schedule r.2).g_parsed = none ∧
    (r.2.g_parsed ≠ none → (event_commit_test_schedule r.2).g_errors = none) := by
  unfold event_commit_test_schedule staged
  cases hg : r.2.g_parsed with
  | none =>
    simp only
    exact ⟨hinv, by simp, hg, fun h => absurd rfl h⟩
  | some l =>
    simp only [event_test_clear]
    obtain ⟨a, _, c⟩ := insertAll_spec l r.2.g_heap hinv
    exact ⟨a, c, trivial, fun _ => trivial⟩

/-! ## Claims about the schedule parser -/

/-- C5, counterexample: the entry `@2147483648:00 WATCHDOG` is not malformed in the
sense of the claim (hours present, numeric, not negative, prefix given, minutes 00,
action WATCHDOG), but `event_test_parse` discards it and returns 1: the hour number
does not fit the `int` it is stored in and is read as a negative value. -/
theorem event_test_parse_count_counterexample :
    malformed "@2147483648:00 WATCHDOG".toList = false ∧
    ((["@2147483648:00 WATCHDOG".toList].filter (fun s => s ≠ [])).countP malformed = 0) ∧
    (event_test_parse exampleLibc defaultCfg 0 initialGlobals
      (some ["@2147483648:00 WATCHDOG".toList])).1 = 1 := by
  decide

/-- C5, amended: `event_test_parse` returns -1 if the array is NULL or holds no
non-empty string; otherwise, provided the hour and minute numbers of the entries are
small enough for the parser's `int` arithmetic (`numbersFit`), it returns exactly the
number of non-empty entries that are malformed; empty entries are skipped and never
counted. For the twelve entries of the unit test's rejection set the result is 11 and
no event is staged. -/
theorem event_test_parse_counts_malformed (lib : libc_t) (cfg : cfg_t) (now : Int)
    (st : globals) (array : List (List Char))
    (hfit : ∀ s ∈ array, numbersFit s = true) :
    (event_test_parse lib cfg now st none).1 = -1 ∧
    ((∀ s ∈ array, s = []) → (event_test_parse lib cfg now st (some array)).1 = -1) ∧
    ((∃ s ∈ array, s ≠ []) →
      (event_test_parse lib cfg now st (some array)).1
        = (((array.filter (fun s => s ≠ [])).countP malformed : Nat) : Int)) ∧
    ((event_test_parse lib cfg now st (some strarr1)).1 = 11 ∧
      staged (event_test_parse lib cfg now st (some strarr1)) = []) := by
  have general : ∀ arr : List (List Char), (∀ s ∈ arr, numbersFit s = true) →
      (∃ s ∈ arr, s ≠ []) →
      (event_test_parse lib cfg now st (some arr)).1
        = (((arr.filter (fun s => s ≠ [])).countP malformed : Nat) : Int) := by
    intro arr hf hne
    obtain ⟨a, _⟩ := event_test_parse_eq lib cfg now st arr (arrcollapse_ne_nil arr hne)
    rw [a, (parse_fit lib cfg now arr (fun s hs _ => hf s hs)).1, arrcollapse_eq_filter]
  refine ⟨rfl, ?_, general array hfit, ?_, ?_⟩
  · intro hall
    have : arrcollapse array = [] := by
      rw [arrcollapse_eq_filter, List.filter_eq_nil_iff]
      intro s hs
      simp [hall s hs]
    rw [event_test_parse_empty lib cfg now st array this]
  · rw [general strarr1 (by decide) (by decide)]
    decide
  · have hne : arrcollapse strarr1 ≠ [] := by decide
    obtain ⟨_, _, h1, _⟩ := event_test_parse_eq lib cfg now st strarr1 hne
    have hd : discardedCount lib cfg now strarr1 = 11 := by
      rw [(parse_fit lib cfg now strarr1 (fun s hs _ => by revert s; decide)).1]
      decide
    rw [h1 (by omega)]
    have hl := parsedEvents_length lib cfg now strarr1
    rw [hd] at hl
    have : (arrcollapse strarr1).length = 11 := by decide
    exact List.length_eq_zero.mp (by omega)

/-- C5, instance: of the three entries `03:20 SUSPEND`, the empty string and
`2:99 PWRON` exactly one is counted. -/
theorem event_test_parse_counts_malformed_witness :
    (∀ s ∈ ["03:20 SUSPEND".toList, "".toList, "2:99 PWRON".toList], numbersFit s = true) ∧
    (event_test_parse exampleLibc defaultCfg 0 initialGlobals
      (some ["03:20 SUSPEND".toList, "".toList, "2:99 PWRON".toList])).1 = 1 :=
  ⟨by decide,
    ((event_test_parse_counts_malformed exampleLibc defaultCfg 0 initialGlobals
      ["03:20 SUSPEND".toList, "".toList, "2:99 PWRON".toList] (by decide)).2.2.1
        ⟨"03:20 SUSPEND".toList, by decide, by decide⟩).trans (by decide)⟩

/-- What the code keeps of C6 in an array whose numbers fit the parser's `int`
arithmetic: an entry made of an optional prefix (`@` or `!`), a decimal hour number HH,
`:`, a decimal minute number MM in 0..59, zero or more white space characters and an
action name equal, ignoring case, to the `k`-th of the seven names, with HH in 0..23
without prefix and 3600*HH + 60*MM within a 32 bit signed integer, is accepted by
`event_test_parse`: an event with source PARSED, type DAILY (no prefix), INTERVAL (`@`)
or ONCE (`!`), local offset 3600*HH + 60*MM and action code `k` is staged for it, and
when all non-empty entries are of this form the function returns 0. For the six
entries of the unit test's acceptance set (power control off, as in the default
configuration) it returns 0 and the staged events are those of
types DAILY, DAILY, DAILY, INTERVAL, ONCE, ONCE, entry by entry (the staging list holds
them sorted by local offset). -/
theorem event_test_parse_accepts_wellformed (lib : libc_t) (cfg : cfg_t) (now : Int)
    (st : globals) (array : List (List Char))
    (hfit : ∀ s ∈ array, numbersFit s = true) :
    (∀ pre hh mm ws name k, entryText pre hh mm ws name ∈ array →
      wellFormedParts pre hh mm ws name k = true →
      ∃ e ∈ staged (event_test_parse lib cfg now st (some array)),
        e.source = EVENT_SOURCE_PARSED ∧ e.type = entryType pre ∧
        e.localoffset = 3600 * (digitsValue hh : Int) + 60 * (digitsValue mm : Int) ∧
        e.action = (k : Int)) ∧
    ((∀ s ∈ array, s ≠ [] → ∃ pre hh mm ws name k,
        s = entryText pre hh mm ws name ∧ wellFormedParts pre hh mm ws name k = true) →
      (∃ s ∈ array, s ≠ []) →
      (event_test_parse lib cfg now st (some array)).1 = 0) ∧
    (cfg.powercontrol = 0 →
      (event_test_parse lib cfg now st (some strarr2)).1 = 0 ∧
      ((staged (event_test_parse lib cfg now st (some strarr2))).map parsedFields).Perm
        [(EVENT_TYPE_DAILY, 12000, EVENT_ACTION_SUSPEND, EVENT_SOURCE_PARSED),
         (EVENT_TYPE_DAILY, 12600, EVENT_ACTION_POWERON, EVENT_SOURCE_PARSED),
         (EVENT_TYPE_DAILY, 14700, EVENT_ACTION_RESUME, EVENT_SOURCE_PARSED),
         (EVENT_TYPE_INTERVAL, 34200, EVENT_ACTION_IMPORTTMPFS, EVENT_SOURCE_PARSED),
         (EVENT_TYPE_ONCE, 60, EVENT_ACTION_IMPORTTMPFSTIMEOUT, EVENT_SOURCE_PARSED),
         (EVENT_TYPE_ONCE, 179940, EVENT_ACTION_POWEROFF, EVENT_SOURCE_PARSED)]) := by
  obtain ⟨hcount, hparsed⟩ := parse_fit lib cfg now array (fun s hs _ => hfit s hs)
  refine ⟨?_, ?_, ?_⟩
  · intro pre hh mm ws name k hmem hw
    obtain ⟨n1, _, n3⟩ := wellFormed_specEvent pre hh mm ws name k hw
    have hcol := arrcollapse_ne_nil array ⟨_, hmem, n1⟩
    have hin : entryText pre hh mm ws name ∈ arrcollapse array :=
      (arrcollapse_mem array _).mpr ⟨hmem, n1⟩
    refine ⟨__schedule_next_trigger lib cfg now
      { next_trigger := 0,
        localoffset := 3600 * (digitsValue hh : Int) + 60 * (digitsValue mm : Int),
        type := entryType pre, action := (k : Int), source := EVENT_SOURCE_PARSED }, ?_, ?_, ?_, ?_, ?_⟩
    · apply parsed_sub_staged lib cfg now st array hcol
      rw [hparsed, List.mem_filterMap]
      exact ⟨_, hin, by simp [specStaged, n3]⟩
    · rw [schedule_source]
    · rw [schedule_type]
    · rw [schedule_localoffset]
      simp only
      omega
    · rw [schedule_action]
  · intro hall hne
    have hcol := arrcollapse_ne_nil array hne
    obtain ⟨hres, _, _, _⟩ := event_test_parse_eq lib cfg now st array hcol
    rw [hres, hcount]
    have : List.countP malformed (arrcollapse array) = 0 := by
      rw [List.countP_eq_zero]
      intro s hs
      obtain ⟨h1, h2⟩ := (arrcollapse_mem array s).mp hs
      obtain ⟨pre, hh, mm, ws, name, k, rfl, hw⟩ := hall s h1 h2
      rw [malformed_iff_specEvent_none, (wellFormed_specEvent pre hh mm ws name k hw).2.2]
      simp
    rw [this]; rfl
  · intro hpc
    have hne2 : arrcollapse strarr2 ≠ [] := by decide
    obtain ⟨r1, _, _, r4⟩ := event_test_parse_eq lib cfg now st strarr2 hne2
    obtain ⟨c1, c2⟩ := parse_fit lib cfg now strarr2 (fun s hs _ => by revert s; decide)
    have hz : discardedCount lib cfg now strarr2 = 0 := by
      rw [c1]; decide
    refine ⟨by rw [r1, hz]; rfl, ?_⟩
    rw [r4 hz]
    have hcond : ¬ (cfg.powercontrol ≠ 0 ∧ cfg.powerupdelay ≠ 0) := fun h => h.1 hpc
    rw [if_neg hcond]
    refine ((qsort_perm _).map parsedFields).trans ?_
    rw [c2]
    have e1 : specEvent "03:20 SUSPEND".toList = some (1, 12000, 1) := by decide
    have e2 : specEvent "3:30              poweron".toList = some (1, 12600, 4) := by decide
    have e3 : specEvent "4:5RESUME".toList = some (1, 14700, 2) := by decide
    have e4 : specEvent "@09:30ImportTMPFS".toList = some (2, 34200, 5) := by decide
    have e5 : specEvent "!00:01 ImportTMPFStimeout".toList = some (3, 60, 6) := by decide
    have e6 : specEvent "!49:59 POWEROFF".toList = some (3, 179940, 3) := by decide
    have hcl : arrcollapse strarr2 = strarr2 := by decide
    rw [hcl]
    simp only [strarr2, List.filterMap_cons, List.filterMap_nil, specStaged, e1, e2, e3, e4, e5,
      e6, List.map_cons, List.map_nil, parsedFields, schedule_type, schedule_action,
      schedule_source]
    rw [schedule_localoffset _ _ _ _ (by simp), schedule_localoffset _ _ _ _ (by simp),
      schedule_localoffset _ _ _ _ (by simp), schedule_localoffset _ _ _ _ (by simp),
      schedule_localoffset _ _ _ _ (by simp), schedule_localoffset _ _ _ _ (by simp)]
    exact List.Perm.refl _

/-- An instance of `event_test_parse_accepts_wellformed`: in the array `@09:30ImportTMPFS`, `04:00 off` the first entry is of
the stated form (prefix `@`, hours `09`, minutes `30`, no space, the fifth name) and is
staged as an INTERVAL event with local offset 34200 and action IMPORTTMPFS, although
its neighbour is malformed. -/
theorem event_test_parse_accepts_wellformed_witness :
    (∀ s ∈ ["@09:30ImportTMPFS".toList, "04:00 off".toList], numbersFit s = true) ∧
    wellFormedParts "@".toList "09".toList "30".toList [] "ImportTMPFS".toList 5 = true ∧
    (∃ e ∈ staged (event_test_parse exampleLibc defaultCfg 1000 initialGlobals
        (some ["@09:30ImportTMPFS".toList, "04:00 off".toList])),
      e.source = EVENT_SOURCE_PARSED ∧ e.type = entryType "@".toList ∧
      e.localoffset = 3600 * (digitsValue "09".toList : Int)
        + 60 * (digitsValue "30".toList : Int) ∧
      e.action = ((5 : Nat) : Int)) ∧
    staged (event_test_parse exampleLibc defaultCfg 1000 initialGlobals
      (some ["@09:30ImportTMPFS".toList, "04:00 off".toList])) = [⟨35200, 34200, 2, 5, 2⟩] :=
  ⟨by decide, by decide,
    (event_test_parse_accepts_wellformed exampleLibc defaultCfg 1000 initialGlobals
      ["@09:30ImportTMPFS".toList, "04:00 off".toList] (by decide)).1
      "@".toList "09".toList "30".toList [] "ImportTMPFS".toList 5 (by decide) (by decide),
    by decide⟩

/-- C6, the code at a failing input: `@09:30ImportTMPFS`, an entry of the unit test's
acceptance set, has the form of the claim (prefix `@`, hours `09`, minutes `30`, no
white space, the fifth action name). Alone it is accepted (result 0) and staged as an
INTERVAL event with local offset 34200, action IMPORTTMPFS and source PARSED. In an
array in which it follows `!99999999999999999999:00 POWEROFF`, whose hour number does
not fit a `long`, it is discarded: the result is 2 and nothing is staged. -/
theorem event_test_parse_discards_wellformed :
    entryText "@".toList "09".toList "30".toList [] "ImportTMPFS".toList
      = "@09:30ImportTMPFS".toList ∧
    wellFormedParts "@".toList "09".toList "30".toList [] "ImportTMPFS".toList 5 = true ∧
    (event_test_parse exampleLibc defaultCfg 1000 initialGlobals
      (some ["@09:30ImportTMPFS".toList])).1 = 0 ∧
    (staged (event_test_parse exampleLibc defaultCfg 1000 initialGlobals
      (some ["@09:30ImportTMPFS".toList]))).map parsedFields
      = [(EVENT_TYPE_INTERVAL, 34200, EVENT_ACTION_IMPORTTMPFS, EVENT_SOURCE_PARSED)] ∧
    (event_test_parse exampleLibc defaultCfg 1000 initialGlobals
      (some ["!99999999999999999999:00 POWEROFF".toList, "@09:30ImportTMPFS".toList])).1 = 2 ∧
    staged (event_test_parse exampleLibc defaultCfg 1000 initialGlobals
      (some ["!99999999999999999999:00 POWEROFF".toList, "@09:30ImportTMPFS".toList])) = [] := by
  refine ⟨by decide, by decide, by decide, by decide, by decide, by decide⟩

/-- C7, the code at the failing input: alone, the entry `03:20 SUSPEND` is accepted
(result 0, one event staged); after the entry `99999999999999999999:00 SUSPEND`, whose
hour number makes `strtol` set `errno`, the same entry is discarded with the message
for a failed hour conversion (result 2, nothing staged), because `errno` is tested
after `strtol` but never cleared before it. -/
theorem event_test_parse_errno_carries_over :
    (event_test_parse exampleLibc defaultCfg 1000 initialGlobals
      (some ["03:20 SUSPEND".toList])).1 = 0 ∧
    (staged (event_test_parse exampleLibc defaultCfg 1000 initialGlobals
      (some ["03:20 SUSPEND".toList]))).map parsedFields
        = [(EVENT_TYPE_DAILY, 12000, EVENT_ACTION_SUSPEND, EVENT_SOURCE_PARSED)] ∧
    malformed "03:20 SUSPEND".toList = false ∧
    (event_test_parse exampleLibc defaultCfg 1000 initialGlobals
      (some ["99999999999999999999:00 SUSPEND".toList, "03:20 SUSPEND".toList])).1 = 2 ∧
    staged (event_test_parse exampleLibc defaultCfg 1000 initialGlobals
      (some ["99999999999999999999:00 SUSPEND".toList, "03:20 SUSPEND".toList])) = [] ∧
    (event_test_parse exampleLibc defaultCfg 1000 initialGlobals
      (some ["99999999999999999999:00 SUSPEND".toList, "03:20 SUSPEND".toList])).2.g_errors
        = some [(0, parse_error.hours_conversion), (1, parse_error.hours_conversion)] := by
  decide

/-- C8, the code at the failing input: `event_test_parse` accepts the entry
`@00:00 WATCHDOG` (result 0) and stages an INTERVAL event whose local offset is 0; the
same holds for the ONCE entry `!00:00 WATCHDOG`. -/
theorem event_test_parse_stages_zero_interval :
    (event_test_parse exampleLibc defaultCfg 1000 initialGlobals
      (some ["@00:00 WATCHDOG".toList])).1 = 0 ∧
    staged (event_test_parse exampleLibc defaultCfg 1000 initialGlobals
      (some ["@00:00 WATCHDOG".toList]))
        = [⟨1000, 0, EVENT_TYPE_INTERVAL, EVENT_ACTION_WATCHDOG, EVENT_SOURCE_PARSED⟩] ∧
    staged (event_test_parse exampleLibc defaultCfg 1000 initialGlobals
      (some ["!00:00 WATCHDOG".toList]))
        = [⟨1000, 0, EVENT_TYPE_ONCE, EVENT_ACTION_WATCHDOG, EVENT_SOURCE_PARSED⟩] := by
  decide

/-- The other half of C8, which the code keeps: `event_create` refuses `seconds < 1`
and otherwise only inserts an event whose local offset is `seconds`. -/
theorem event_create_offset_positive (lib : libc_t) (cfg : cfg_t) (now now2 : Int)
    (st : globals) (action seconds : Int) :
    (seconds < 1 → event_create lib cfg now now2 st action seconds = .returned (-1) st) ∧
    (∀ v st1, event_create lib cfg now now2 st action seconds = .returned v st1 →
      st1 = st ∨ ∃ e, st1 = { st with g_heap := eventheap_insert st.g_heap e } ∧
        e.localoffset = seconds ∧ 1 ≤ e.localoffset ∧ e.source = EVENT_SOURCE_INTERNAL) := by
  unfold event_create
  constructor
  · intro h
    rw [if_pos (Or.inr (Or.inr h))]
  · intro v st1 h
    by_cases hc : action > EVENT_ACTION_MAXVALUE ∨ action < 1 ∨ seconds < 1
    · rw [if_pos hc] at h
      simp only [create_result.returned.injEq] at h
      exact Or.inl h.2.symm
    · rw [if_neg hc] at h
      simp only at h
      split at h
      · simp at h
      · simp only [create_result.returned.injEq] at h
        refine Or.inr ⟨_, h.2.symm, ?_, ?_, ?_⟩
        · rw [schedule_localoffset]
          simp only; omega
        · rw [schedule_localoffset]
          · simp only; omega
          · simp only; omega
        · rw [schedule_source]

/-- C9, the code at the failing input: with power control on and a power-up delay of
300 s, `event_test_parse` accepts `@30:00 RESUME` and stages next to it a POWERON event
of type DAILY whose local offset 107700 is not below SECONDS_PER_DAY + 2 *
SECONDS_PER_HOUR = 93600. -/
theorem event_test_parse_stages_daily_out_of_range :
    (event_test_parse exampleLibc powerCfg 1000 initialGlobals
      (some ["@30:00 RESUME".toList])).1 = 0 ∧
    (staged (event_test_parse exampleLibc powerCfg 1000 initialGlobals
      (some ["@30:00 RESUME".toList]))).map parsedFields
        = [(EVENT_TYPE_DAILY, 107700, EVENT_ACTION_POWERON, EVENT_SOURCE_PARSED),
           (EVENT_TYPE_INTERVAL, 108000, EVENT_ACTION_RESUME, EVENT_SOURCE_PARSED)] ∧
    ¬ ((107700 : Int) < SECONDS_PER_DAY + 2 * SECONDS_PER_HOUR) := by
  decide

/-- C10: let `event_test_parse` accept every entry (return 0), let `parsed` be the
events it made from the entries and `resumes` those of them with action RESUME. With
power control on and 0 < power-up delay <= 300, the staging list holds the parsed events
and exactly one more event for each RESUME event `r`: `make_poweron r`, with action
POWERON, type DAILY, source PARSED and local offset `r.localoffset - delay`, increased by
SECONDS_PER_DAY when that is negative, so that `(r.localoffset - p.localoffset) mod
SECONDS_PER_DAY = delay`; the list has (number of entries + number of RESUME entries)
events, and after the commit both `r` and its POWERON are in the queue. With power
control off or delay 0 the staging list holds the parsed events and nothing else. For
the input `05:00 RESUME` with delay 300 the committed queue holds RESUME at 05:00
(18000 s) and POWERON at 04:55 (17700 s). -/
theorem event_test_parse_inserts_poweron (lib : libc_t) (cfg : cfg_t) (now : Int)
    (st : globals) (array : List (List Char))
    (hok : (event_test_parse lib cfg now st (some array)).1 = 0) :
    (parsedEvents lib cfg now array).length = (arrcollapse array).length ∧
    (cfg.powercontrol ≠ 0 → 0 < cfg.powerupdelay → cfg.powerupdelay ≤ 300 →
      (staged (event_test_parse lib cfg now st (some array))).Perm
        (parsedEvents lib cfg now array ++
          ((parsedEvents lib cfg now array).filter
            (fun e => e.action = EVENT_ACTION_RESUME)).map (make_poweron lib cfg now)) ∧
      (staged (event_test_parse lib cfg now st (some array))).length
        = (arrcollapse array).length +
          ((parsedEvents lib cfg now array).filter
            (fun e => e.action = EVENT_ACTION_RESUME)).length ∧
      (∀ r ∈ staged (event_test_parse lib cfg now st (some array)),
        r.action = EVENT_ACTION_RESUME →
        r ∈ parsedEvents lib cfg now array ∧
        make_poweron lib cfg now r ∈ staged (event_test_parse lib cfg now st (some array)) ∧
        (make_poweron lib cfg now r).action = EVENT_ACTION_POWERON ∧
        (make_poweron lib cfg now r).type = EVENT_TYPE_DAILY ∧
        (make_poweron lib cfg now r).source = EVENT_SOURCE_PARSED ∧
        (make_poweron lib cfg now r).localoffset =
          (if r.localoffset - cfg.powerupdelay < 0
            then r.localoffset - cfg.powerupdelay + SECONDS_PER_DAY
            else r.localoffset - cfg.powerupdelay) ∧
        (r.localoffset - (make_poweron lib cfg now r).localoffset) % SECONDS_PER_DAY
          = cfg.powerupdelay ∧
        (heapInvariant st.g_heap →
          r ∈ heapEvents (event_commit_test_schedule
            (event_test_parse lib cfg now st (some array)).2).g_heap ∧
          make_poweron lib cfg now r ∈ heapEvents (event_commit_test_schedule
            (event_test_parse lib cfg now st (some array)).2).g_heap))) ∧
    ((cfg.powercontrol = 0 ∨ cfg.powerupdelay = 0) →
      (staged (event_test_parse lib cfg now st (some array))).Perm
        (parsedEvents lib cfg now array)) ∧
    (cfg.powercontrol ≠ 0 → cfg.powerupdelay = 300 →
      (heapEvents (event_commit_test_schedule
        (event_test_parse lib cfg now initialGlobals
          (some ["05:00 RESUME".toList])).2).g_heap).map parsedFields
        = {(EVENT_TYPE_DAILY, 18000, EVENT_ACTION_RESUME, EVENT_SOURCE_PARSED),
           (EVENT_TYPE_DAILY, 17700, EVENT_ACTION_POWERON, EVENT_SOURCE_PARSED)}) := by
  have staged_of_ok : ∀ (st0 : globals) (arr : List (List Char)),
      (event_test_parse lib cfg now st0 (some arr)).1 = 0 →
      arrcollapse arr ≠ [] ∧ discardedCount lib cfg now arr = 0 ∧
      staged (event_test_parse lib cfg now st0 (some arr)) =
        qsort (if cfg.powercontrol ≠ 0 ∧ cfg.powerupdelay ≠ 0
          then insert_poweron lib cfg now (parsedEvents lib cfg now arr)
          else parsedEvents lib cfg now arr) ∧
      (event_test_parse lib cfg now st0 (some arr)).2.g_heap = st0.g_heap := by
    intro st0 arr h0
    have hcol : arrcollapse arr ≠ [] := by
      intro hc
      rw [event_test_parse_empty lib cfg now st0 arr hc] at h0
      simp at h0
    obtain ⟨a, b, _, d⟩ := event_test_parse_eq lib cfg now st0 arr hcol
    have hz : discardedCount lib cfg now arr = 0 := by
      rw [a] at h0; exact_mod_cast h0
    exact ⟨hcol, hz, d hz, b⟩
  obtain ⟨hcol, hz, hst, hheap⟩ := staged_of_ok st array hok
  have hlen := parsedEvents_length lib cfg now array
  rw [hz] at hlen
  refine ⟨by omega, ?_, ?_, ?_⟩
  · intro hpc hd0 hd1
    have hcond : cfg.powercontrol ≠ 0 ∧ cfg.powerupdelay ≠ 0 := ⟨hpc, by omega⟩
    rw [if_pos hcond] at hst
    have hperm : (staged (event_test_parse lib cfg now st (some array))).Perm
        (parsedEvents lib cfg now array ++
          ((parsedEvents lib cfg now array).filter
            (fun e => e.action = EVENT_ACTION_RESUME)).map (make_poweron lib cfg now)) := by
      rw [hst]
      exact (qsort_perm _).trans (insert_poweron_perm lib cfg now _)
    refine ⟨hperm, ?_, ?_⟩
    · rw [hperm.length_eq]
      simp only [List.length_append, List.length_map]
      omega
    · intro r hr hact
      have hmem := hperm.mem_iff.mp hr
      have hrp : r ∈ parsedEvents lib cfg now array := by
        rcases List.mem_append.mp hmem with h | h
        · exact h
        · exfalso
          obtain ⟨x, hx, hxe⟩ := List.mem_map.mp h
          have hx2 := (List.mem_filter.mp hx).1
          have := (make_poweron_spec lib cfg now x
            (parsedEvents_props lib cfg now array x hx2).1 (by omega)).1
          rw [hxe, hact] at this
          exact absurd this (by decide)
      have hpos := (parsedEvents_props lib cfg now array r hrp).1
      obtain ⟨p1, p2, p3, p4⟩ := make_poweron_spec lib cfg now r hpos (by omega)
      have hpin : make_poweron lib cfg now r ∈
          staged (event_test_parse lib cfg now st (some array)) := by
        apply hperm.mem_iff.mpr
        apply List.mem_append_right
        exact List.mem_map.mpr ⟨r, List.mem_filter.mpr ⟨hrp, by simpa using hact⟩, rfl⟩
      refine ⟨hrp, hpin, p1, p2, p3, p4, ?_, ?_⟩
      · rw [p4]
        unfold SECONDS_PER_DAY
        split <;> omega
      · intro hinv
        have hinv2 : heapInvariant (event_test_parse lib cfg now st (some array)).2.g_heap := by
          rw [hheap]; exact hinv
        obtain ⟨_, hev, _⟩ := commit_events (event_test_parse lib cfg now st (some array)) hinv2
        rw [hev]
        exact ⟨Multiset.mem_add.mpr (Or.inr (by simpa using hr)),
          Multiset.mem_add.mpr (Or.inr (by simpa using hpin))⟩
  · intro hoff
    have hcond : ¬ (cfg.powercontrol ≠ 0 ∧ cfg.powerupdelay ≠ 0) := by
      rintro ⟨h1, h2⟩
      rcases hoff with h | h
      · exact h1 h
      · exact h2 h
    rw [if_neg hcond] at hst
    rw [hst]
    exact qsort_perm _
  · intro hpc hd
    have hfit := parse_fit lib cfg now ["05:00 RESUME".toList] (fun s hs _ => by revert s; decide)
    have e1 : specEvent "05:00 RESUME".toList = some (1, 18000, 2) := by decide
    have hcl : arrcollapse ["05:00 RESUME".toList] = ["05:00 RESUME".toList] := by decide
    have hpe : parsedEvents lib cfg now ["05:00 RESUME".toList] =
        [__schedule_next_trigger lib cfg now ⟨0, 18000, 1, 2, EVENT_SOURCE_PARSED⟩] := by
      rw [hfit.2, hcl]
      simp only [List.filterMap_cons, List.filterMap_nil, specStaged, e1]
    have hz1 : discardedCount lib cfg now ["05:00 RESUME".toList] = 0 := by
      rw [hfit.1, hcl]; decide
    obtain ⟨a, b, _, d⟩ := event_test_parse_eq lib cfg now initialGlobals
      ["05:00 RESUME".toList] (by decide)
    have hcond : cfg.powercontrol ≠ 0 ∧ cfg.powerupdelay ≠ 0 := ⟨hpc, by omega⟩
    have hs := d hz1
    rw [if_pos hcond, hpe] at hs
    have hinv2 : heapInvariant (event_test_parse lib cfg now initialGlobals
        (some ["05:00 RESUME".toList])).2.g_heap := by
      rw [b]; decide
    obtain ⟨_, hev, _⟩ := commit_events (event_test_parse lib cfg now initialGlobals
      (some ["05:00 RESUME".toList])) hinv2
    rw [hev, b, hs]
    have hq := (qsort_perm (insert_poweron lib cfg now
      [__schedule_next_trigger lib cfg now ⟨0, 18000, 1, 2, EVENT_SOURCE_PARSED⟩]))
    rw [Multiset.coe_eq_coe.mpr hq]
    have hra : (__schedule_next_trigger lib cfg now
        ⟨0, 18000, 1, 2, EVENT_SOURCE_PARSED⟩).action = EVENT_ACTION_RESUME := by
      rw [schedule_action]; rfl
    have hrl : (__schedule_next_trigger lib cfg now
        ⟨0, 18000, 1, 2, EVENT_SOURCE_PARSED⟩).localoffset = 18000 := by
      rw [schedule_localoffset]; simp
    obtain ⟨p1, p2, p3, p4⟩ := make_poweron_spec lib cfg now
      (__schedule_next_trigger lib cfg now ⟨0, 18000, 1, 2, EVENT_SOURCE_PARSED⟩)
      (by rw [hrl]; omega) (by omega)
    rw [hrl, hd] at p4
    simp only [insert_poweron, hra, if_true, initialGlobals, heapEvents, zero_add,
      Multiset.map_coe, List.map_cons, List.map_nil, parsedFields, p1, p2, p3, p4,
      schedule_type, schedule_source, hrl]
    rw [← Multiset.coe_eq_coe.mpr (List.Perm.swap _ _ _)]
    rfl

/-- C10, instance: `05:00 RESUME`, `11:15 SUSPEND` with power control on and delay
300 s is accepted and stages three events. -/
theorem event_test_parse_inserts_poweron_witness :
    (event_test_parse exampleLibc powerCfg 1000 initialGlobals
      (some ["05:00 RESUME".toList, "11:15 SUSPEND".toList])).1 = 0 ∧
    (staged (event_test_parse exampleLibc powerCfg 1000 initialGlobals
      (some ["05:00 RESUME".toList, "11:15 SUSPEND".toList]))).length = 3 ∧
    (parsedEvents exampleLibc powerCfg 1000
      ["05:00 RESUME".toList, "11:15 SUSPEND".toList]).length
      = (arrcollapse ["05:00 RESUME".toList, "11:15 SUSPEND".toList]).length :=
  ⟨by decide, by decide,
    (event_test_parse_inserts_poweron exampleLibc powerCfg 1000 initialGlobals
      ["05:00 RESUME".toList, "11:15 SUSPEND".toList] (by decide)).1⟩

/-! ## The schedule: rescheduling, clearing and committing -/

theorem size_zero_facts (g : Option (List event_t)) (h0 : eventheap_size g = 0) :
    heapInvariant g ∧ heapEvents g = 0 := by
  cases g with
  | none => exact ⟨trivial, rfl⟩
  | some h =>
    simp only [eventheap_size, HEAPSIZE] at h0
    have hn : h = [] := List.length_eq_zero.mp h0
    subst hn
    exact ⟨(minHeap_iff_parentLe _).mpr parentLe_nil, rfl⟩

theorem schedule_clear_loop_eq (source : Int) : ∀ (fuel : Nat) (g : Option (List event_t))
    (tmp : List event_t),
    schedule_clear_loop fuel source g tmp =
      match fetchAllAux fuel g with
      | none => none
      | some r => some (tmp ++ r.1.filter (fun e => Int.land e.source source = 0), r.2) := by
  intro fuel
  induction fuel with
  | zero => intro g tmp; rfl
  | succ f ih =>
    intro g tmp
    unfold schedule_clear_loop fetchAllAux
    rcases hf : eventheap_fetch g with ⟨o, g1⟩
    cases o with
    | none => simp
    | some e =>
      simp only
      by_cases hk : Int.land e.source source = 0
      · rw [if_neg (by simpa using hk), ih]
        cases fetchAllAux f g1 with
        | none => rfl
        | some r => simp [List.filter_cons, hk]
      · rw [if_pos hk, ih]
        cases fetchAllAux f g1 with
        | none => rfl
        | some r => simp [List.filter_cons, hk]

theorem event_schedule_clear_spec (st : globals) (source : Int)
    (hinv : heapInvariant st.g_heap) :
    ∃ st1, event_schedule_clear st source = some st1 ∧
      st1.g_parsed = st.g_parsed ∧ st1.g_errors = st.g_errors ∧
      heapInvariant st1.g_heap ∧
      (source > 2 → st1.g_heap = none) ∧
      (¬ source > 2 → heapEvents st1.g_heap =
        (heapEvents st.g_heap).filter (fun e => Int.land e.source source = 0)) := by
  obtain ⟨out, g1, hfa, hout, _, hz, _⟩ :=
    fetchAllAux_spec (eventheap_size st.g_heap) st.g_heap rfl hinv
      (eventheap_size st.g_heap + 1) (le_refl _)
  unfold event_schedule_clear
  by_cases hs : source > 2
  · rw [if_pos hs]
    cases hg : st.g_heap with
    | none =>
      refine ⟨{ st with g_heap := none }, by simp [eventheap_destroy], rfl, rfl, trivial,
        fun _ => rfl, fun h => absurd hs h⟩
    | some h =>
      rw [hg] at hfa
      refine ⟨{ st with g_heap := none }, ?_, rfl, rfl, trivial, fun _ => rfl,
        fun h => absurd hs h⟩
      simp only [eventheap_destroy, fetchAll, hfa]
  · rw [if_neg hs, schedule_clear_loop_eq, hfa]
    simp only [List.nil_append]
    obtain ⟨hi1, he1⟩ := size_zero_facts g1 hz
    obtain ⟨a, _, c⟩ := insertAll_spec
      (out.filter (fun e => Int.land e.source source = 0)) g1 hi1
    refine ⟨_, rfl, rfl, rfl, a, fun h => absurd h hs, fun _ => ?_⟩
    simp only
    rw [c, he1, zero_add, ← hout, Multiset.filter_coe]

theorem event_test_parse_heap (lib : libc_t) (cfg : cfg_t) (now : Int) (st : globals)
    (array : Option (List (List Char))) :
    (event_test_parse lib cfg now st array).2.g_heap = st.g_heap := by
  cases array with
  | none => rfl
  | some a =>
    by_cases h : arrcollapse a = []
    · rw [event_test_parse_empty lib cfg now st a h]
    · exact (event_test_parse_eq lib cfg now st a h).2.1

theorem make_poweron_source (lib : libc_t) (cfg : cfg_t) (now : Int) (r : event_t) :
    (make_poweron lib cfg now r).source = EVENT_SOURCE_PARSED := by
  unfold make_poweron
  simp only
  rw [schedule_source]

theorem staged_source (lib : libc_t) (cfg : cfg_t) (now : Int) (st : globals)
    (array : Option (List (List Char)))
    (hst : ∀ l, st.g_parsed = some l → ∀ e ∈ l, e.source = EVENT_SOURCE_PARSED) :
    ∀ e ∈ staged (event_test_parse lib cfg now st array), e.source = EVENT_SOURCE_PARSED := by
  have hold : ∀ e ∈ staged ((-1 : Int), st), e.source = EVENT_SOURCE_PARSED := by
    intro e he
    unfold staged at he
    cases hg : st.g_parsed with
    | none => rw [hg] at he; simp at he
    | some l => rw [hg] at he; exact hst l hg e he
  cases array with
  | none => exact hold
  | some a =>
    by_cases h : arrcollapse a = []
    · rw [event_test_parse_empty lib cfg now st a h]; exact hold
    · obtain ⟨_, _, h1, h2⟩ := event_test_parse_eq lib cfg now st a h
      intro e he
      by_cases hd : discardedCount lib cfg now a = 0
      · rw [h2 hd] at he
        have he2 := (qsort_perm _).mem_iff.mp he
        split at he2
        · have he3 := (insert_poweron_perm lib cfg now _).mem_iff.mp he2
          rcases List.mem_append.mp he3 with h4 | h4
          · exact (parsedEvents_props lib cfg now a e h4).2.1
          · obtain ⟨r, _, hr⟩ := List.mem_map.mp h4
            rw [← hr]
            exact make_poweron_source lib cfg now r
        · exact (parsedEvents_props lib cfg now a e he2).2.1
      · rw [h1 hd] at he
        exact (parsedEvents_props lib cfg now a e he).2.1

theorem land_parsed (e : event_t)
    (h : e.source = EVENT_SOURCE_INTERNAL ∨ e.source = EVENT_SOURCE_PARSED) :
    Int.land e.source EVENT_SOURCE_PARSED = 0 ↔ e.source = EVENT_SOURCE_INTERNAL := by
  rcases h with h | h <;> rw [h] <;> decide

/-! ## Claims about the schedule -/

/-- C11: for an event of type INTERVAL or ONCE, `__schedule_next_trigger` sets
next_trigger to now + localoffset when next_trigger is zero, and otherwise to the old
next_trigger plus localoffset whatever the clock reads, leaving the other fields alone;
`event_reschedule` returns -1 for an event of type ONCE and changes neither the event
nor the globals (the queue among them). -/
theorem schedule_interval_once (lib : libc_t) (cfg : cfg_t) (now : Int) (e : event_t)
    (h : e.type = EVENT_TYPE_INTERVAL ∨ e.type = EVENT_TYPE_ONCE) :
    (e.next_trigger = 0 → __schedule_next_trigger lib cfg now e
      = { e with next_trigger := now + e.localoffset }) ∧
    (e.next_trigger ≠ 0 → ∀ now1 : Int, __schedule_next_trigger lib cfg now1 e
      = { e with next_trigger := e.next_trigger + e.localoffset }) ∧
    (e.type = EVENT_TYPE_ONCE → ∀ (now2 : Int) (st : globals),
      event_reschedule lib cfg now now2 st (some e) = .returned (-1) (some e) st) := by
  have hnd : ¬ e.type = EVENT_TYPE_DAILY := by
    rcases h with h | h <;> rw [h] <;> decide
  refine ⟨fun h0 => ?_, fun h0 now1 => ?_, fun h3 now2 st => ?_⟩
  · unfold __schedule_next_trigger
    simp only [if_neg hnd]
    rw [if_neg (by simpa using h0)]
    rfl
  · unfold __schedule_next_trigger
    simp only [if_neg hnd]
    rw [if_pos h0]
  · unfold event_reschedule
    simp only [if_pos h3]

/-- C11, instance: the INTERVAL event of ten minutes, first scheduled at clock 1000
and then again. -/
theorem schedule_interval_once_witness :
    (EVENT_TYPE_INTERVAL = EVENT_TYPE_INTERVAL ∨ EVENT_TYPE_INTERVAL = EVENT_TYPE_ONCE) ∧
    __schedule_next_trigger exampleLibc defaultCfg 1000
      ⟨0, 600, EVENT_TYPE_INTERVAL, EVENT_ACTION_WATCHDOG, EVENT_SOURCE_PARSED⟩
      = ⟨1600, 600, EVENT_TYPE_INTERVAL, EVENT_ACTION_WATCHDOG, EVENT_SOURCE_PARSED⟩ ∧
    __schedule_next_trigger exampleLibc defaultCfg 5000
      ⟨1600, 600, EVENT_TYPE_INTERVAL, EVENT_ACTION_WATCHDOG, EVENT_SOURCE_PARSED⟩
      = ⟨2200, 600, EVENT_TYPE_INTERVAL, EVENT_ACTION_WATCHDOG, EVENT_SOURCE_PARSED⟩ :=
  ⟨Or.inl rfl,
   (schedule_interval_once exampleLibc defaultCfg 1000
      ⟨0, 600, EVENT_TYPE_INTERVAL, EVENT_ACTION_WATCHDOG, EVENT_SOURCE_PARSED⟩
      (Or.inl rfl)).1 rfl,
   by decide⟩

/-- C13, counterexample: the entry `03:20 SUSPEND`, parsed when the clock reads 11999
(03:19:59), is staged with next_trigger 12000. `event_commit_test_schedule` reads no
clock and cannot end the process: whenever it is called, the event enters the queue.
Called when the clock reads 12001 it has inserted an event whose next_trigger is
earlier than the time of the insertion. -/
theorem event_commit_inserts_past_event :
    (event_test_parse exampleLibc defaultCfg 11999 initialGlobals
      (some ["03:20 SUSPEND".toList])).1 = 0 ∧
    heapEvents (event_commit_test_schedule (event_test_parse exampleLibc defaultCfg 11999
      initialGlobals (some ["03:20 SUSPEND".toList])).2).g_heap
      = {⟨12000, 12000, EVENT_TYPE_DAILY, EVENT_ACTION_SUSPEND, EVENT_SOURCE_PARSED⟩} ∧
    ∃ e ∈ heapEvents (event_commit_test_schedule (event_test_parse exampleLibc defaultCfg
      11999 initialGlobals (some ["03:20 SUSPEND".toList])).2).g_heap,
      e.next_trigger < 12001 := by
  refine ⟨by decide, by decide, ⟨12000, 12000, 1, 1, 2⟩, by decide, by decide⟩

/-- C13, amended: `event_create` and `event_reschedule` either leave the globals as they
are (and return -1), or end the process, or insert exactly one event, whose
next_trigger is not earlier than the clock reading `now2` taken just before the
insertion, and return that next_trigger; they end the process exactly when the
arguments are accepted and the computed next_trigger is earlier than `now2`.
`event_commit_test_schedule` inserts every staged event as it is. -/
theorem event_insertions_checked (lib : libc_t) (cfg : cfg_t) (now now2 : Int)
    (st : globals) (action seconds : Int) (e : event_t) :
    (∀ v st1, event_create lib cfg now now2 st action seconds = .returned v st1 →
      (v = -1 ∧ st1 = st) ∨ ∃ e1, now2 ≤ e1.next_trigger ∧ v = e1.next_trigger ∧
        st1 = { st with g_heap := eventheap_insert st.g_heap e1 }) ∧
    (∀ v ev st1, event_reschedule lib cfg now now2 st (some e) = .returned v ev st1 →
      (v = -1 ∧ ev = some e ∧ st1 = st) ∨ ∃ e1, now2 ≤ e1.next_trigger ∧ v = e1.next_trigger ∧
        ev = some e1 ∧ st1 = { st with g_heap := eventheap_insert st.g_heap e1 }) ∧
    (event_reschedule lib cfg now now2 st (some e) = .exited ↔
      e.type ≠ EVENT_TYPE_ONCE ∧ (__schedule_next_trigger lib cfg now e).next_trigger < now2) ∧
    (∀ l, st.g_parsed = some l →
      (event_commit_test_schedule st).g_heap = insertAll st.g_heap l) := by
  refine ⟨?_, ?_, ?_, ?_⟩
  · intro v st1 h
    unfold event_create at h
    by_cases hc : action > EVENT_ACTION_MAXVALUE ∨ action < 1 ∨ seconds < 1
    · rw [if_pos hc] at h
      simp only [create_result.returned.injEq] at h
      exact Or.inl ⟨h.1.symm, h.2.symm⟩
    · rw [if_neg hc] at h
      simp only at h
      split at h
      · simp at h
      · rename_i hlt
        simp only [create_result.returned.injEq] at h
        exact Or.inr ⟨_, not_lt.mp hlt, h.1.symm, h.2.symm⟩
  · intro v ev st1 h
    unfold event_reschedule at h
    simp only at h
    by_cases hc : e.type = EVENT_TYPE_ONCE
    · rw [if_pos hc] at h
      simp only [reschedule_result.returned.injEq] at h
      exact Or.inl ⟨h.1.symm, h.2.1.symm, h.2.2.symm⟩
    · rw [if_neg hc] at h
      split at h
      · simp at h
      · rename_i hlt
        simp only [reschedule_result.returned.injEq] at h
        exact Or.inr ⟨_, not_lt.mp hlt, h.1.symm, h.2.1.symm, h.2.2.symm⟩
  · unfold event_reschedule
    simp only
    by_cases hc : e.type = EVENT_TYPE_ONCE
    · rw [if_pos hc]
      simp [hc]
    · rw [if_neg hc]
      by_cases hlt : (__schedule_next_trigger lib cfg now e).next_trigger < now2
      · rw [if_pos hlt]
        simp [hc, hlt]
      · rw [if_neg hlt]
        simp [hlt]
  · intro l hl
    unfold event_commit_test_schedule
    rw [hl]
    rfl

/-- C14: on a queue that satisfies the heap invariant and holds events of the sources
INTERNAL and PARSED, `event_schedule_clear(EVENT_SOURCE_PARSED)` returns, leaves the
staging globals alone, and the queue then satisfies the invariant and holds exactly the
events of source INTERNAL that it held before, each with all its fields (so none of
source PARSED is left). When the staged events are of source PARSED, as those of
`event_test_parse` are, a parse followed by `event_commit_test_schedule` and
`event_schedule_clear(EVENT_SOURCE_PARSED)` leaves exactly the INTERNAL events that
were in the queue before. -/
theorem event_schedule_clear_parsed (st : globals) (hinv : heapInvariant st.g_heap)
    (hsrc : ∀ e ∈ heapEvents st.g_heap,
      e.source = EVENT_SOURCE_INTERNAL ∨ e.source = EVENT_SOURCE_PARSED) :
    (∃ st1, event_schedule_clear st EVENT_SOURCE_PARSED = some st1 ∧
      st1.g_parsed = st.g_parsed ∧ st1.g_errors = st.g_errors ∧
      heapInvariant st1.g_heap ∧
      heapEvents st1.g_heap
        = (heapEvents st.g_heap).filter (fun e => e.source = EVENT_SOURCE_INTERNAL) ∧
      ∀ e ∈ heapEvents st1.g_heap, e.source ≠ EVENT_SOURCE_PARSED) ∧
    ((∀ l, st.g_parsed = some l → ∀ e ∈ l, e.source = EVENT_SOURCE_PARSED) →
      ∀ (lib : libc_t) (cfg : cfg_t) (now : Int) (array : Option (List (List Char))),
      ∃ st2, event_schedule_clear
          (event_commit_test_schedule (event_test_parse lib cfg now st array).2)
          EVENT_SOURCE_PARSED = some st2 ∧
        heapInvariant st2.g_heap ∧
        heapEvents st2.g_heap
          = (heapEvents st.g_heap).filter (fun e => e.source = EVENT_SOURCE_INTERNAL)) := by
  have hfilter : ∀ m : Multiset event_t,
      (∀ e ∈ m, e.source = EVENT_SOURCE_INTERNAL ∨ e.source = EVENT_SOURCE_PARSED) →
      m.filter (fun e => Int.land e.source EVENT_SOURCE_PARSED = 0)
        = m.filter (fun e => e.source = EVENT_SOURCE_INTERNAL) := by
    intro m hm
    apply Multiset.filter_congr
    intro e he
    exact land_parsed e (hm e he)
  have h2 : ¬ EVENT_SOURCE_PARSED > 2 := by decide
  constructor
  · obtain ⟨st1, a, b, c, d, _, f⟩ := event_schedule_clear_spec st EVENT_SOURCE_PARSED hinv
    refine ⟨st1, a, b, c, d, ?_, ?_⟩
    · rw [f h2, hfilter _ hsrc]
    · intro e he
      rw [f h2, hfilter _ hsrc] at he
      rw [(Multiset.mem_filter.mp he).2]
      decide
  · intro hst lib cfg now array
    have hheap := event_test_parse_heap lib cfg now st array
    obtain ⟨c1, c2, _, _⟩ := commit_events (event_test_parse lib cfg now st array)
      (by rw [hheap]; exact hinv)
    obtain ⟨st2, a, _, _, d, _, f⟩ := event_schedule_clear_spec
      (event_commit_test_schedule (event_test_parse lib cfg now st array).2)
      EVENT_SOURCE_PARSED c1
    refine ⟨st2, a, d, ?_⟩
    have hs := staged_source lib cfg now st array hst
    rw [f h2, c2, hheap, Multiset.filter_add, hfilter _ hsrc]
    have hz : Multiset.filter (fun e => Int.land e.source EVENT_SOURCE_PARSED = 0)
        (staged (event_test_parse lib cfg now st array) : Multiset event_t) = 0 := by
      apply Multiset.filter_eq_nil.mpr
      intro e he
      rw [hs e (by simpa using he)]
      decide
    rw [hz, add_zero]

/-- C14, instance: the example queue holds one INTERNAL and three PARSED events; the
INTERNAL one is what is left, also after the schedule `03:20 SUSPEND` was committed. -/
theorem event_schedule_clear_parsed_witness :
    heapInvariant exampleHeap ∧
    ∃ st1, event_schedule_clear ⟨none, none, exampleHeap⟩ EVENT_SOURCE_PARSED = some st1 ∧
      st1.g_parsed = none ∧ st1.g_errors = none ∧
      heapInvariant st1.g_heap ∧
      heapEvents st1.g_heap
        = (heapEvents exampleHeap).filter (fun e => e.source = EVENT_SOURCE_INTERNAL) ∧
      ∀ e ∈ heapEvents st1.g_heap, e.source ≠ EVENT_SOURCE_PARSED :=
  ⟨by decide,
   (event_schedule_clear_parsed ⟨none, none, exampleHeap⟩ (by decide) (by decide)).1⟩

/-- C15: on a queue that satisfies the heap invariant, for every value of `source`
(EVENT_SOURCE_INTERNAL = 1, EVENT_SOURCE_PARSED = 2 and both = 3 among them), two calls
of `event_schedule_clear(source)` in a row return and leave the queue with the same
multiset of events as one call. -/
theorem event_schedule_clear_idempotent (st : globals) (source : Int)
    (hinv : heapInvariant st.g_heap) :
    ∃ st1 st2, event_schedule_clear st source = some st1 ∧
      event_schedule_clear st1 source = some st2 ∧
      heapEvents st2.g_heap = heapEvents st1.g_heap ∧
      st2.g_parsed = st1.g_parsed ∧ st2.g_errors = st1.g_errors := by
  obtain ⟨st1, a, _, _, d, e, f⟩ := event_schedule_clear_spec st source hinv
  obtain ⟨st2, a2, b2, c2, _, e2, f2⟩ := event_schedule_clear_spec st1 source d
  refine ⟨st1, st2, a, a2, ?_, b2, c2⟩
  by_cases hs : source > 2
  · rw [e hs, e2 hs]
  · rw [f2 hs, f hs, Multiset.filter_filter]
    apply Multiset.filter_congr
    intro x _
    simp

/-- C15, instance: the example queue cleared of its PARSED events twice. -/
theorem event_schedule_clear_idempotent_witness :
    heapInvariant exampleHeap ∧
    ∃ st1 st2, event_schedule_clear ⟨none, none, exampleHeap⟩ EVENT_SOURCE_PARSED = some st1 ∧
      event_schedule_clear st1 EVENT_SOURCE_PARSED = some st2 ∧
      heapEvents st2.g_heap = heapEvents st1.g_heap ∧
      st2.g_parsed = st1.g_parsed ∧ st2.g_errors = st1.g_errors :=
  ⟨by decide,
   event_schedule_clear_idempotent ⟨none, none, exampleHeap⟩ EVENT_SOURCE_PARSED (by decide)⟩

/-- C16: on a queue that satisfies the heap invariant, in a state where the error
buffer is only set while the staging list is (which `event_test_parse` and
`event_test_clear` maintain), `event_commit_test_schedule` leaves a queue that
satisfies the invariant and holds the events it held before plus exactly the staged
events, its size grown by the length of the staging list, and leaves the staging list
and the error buffer NULL; when nothing is staged the queue is unchanged. -/
theorem event_commit_is_add (st : globals) (hinv : heapInvariant st.g_heap)
    (herr : st.g_parsed = none → st.g_errors = none) :
    heapInvariant (event_commit_test_schedule st).g_heap ∧
    heapEvents (event_commit_test_schedule st).g_heap
      = heapEvents st.g_heap + ((st.g_parsed.getD [] : List event_t) : Multiset event_t) ∧
    eventheap_size (event_commit_test_schedule st).g_heap
      = eventheap_size st.g_heap + (st.g_parsed.getD []).length ∧
    (event_commit_test_schedule st).g_parsed = none ∧
    (event_commit_test_schedule st).g_errors = none ∧
    (st.g_parsed.getD [] = [] → (event_commit_test_schedule st).g_heap = st.g_heap) := by
  unfold event_commit_test_schedule
  cases hg : st.g_parsed with
  | none =>
    simp only [Option.getD_none]
    exact ⟨hinv, by simp, by simp, hg, herr hg, fun _ => trivial⟩
  | some l =>
    simp only [event_test_clear, Option.getD_some]
    obtain ⟨a, b, c⟩ := insertAll_spec l st.g_heap hinv
    refine ⟨a, c, b, trivial, trivial, fun hl => ?_⟩
    rw [hl]
    rfl

/-- C16, instance: the schedule `03:20 SUSPEND`, `@00:10 WATCHDOG` committed to the
example queue. -/
theorem event_commit_is_add_witness :
    heapInvariant exampleHeap ∧
    eventheap_size (event_commit_test_schedule (event_test_parse exampleLibc defaultCfg 1000
      ⟨none, none, exampleHeap⟩
      (some ["03:20 SUSPEND".toList, "@00:10 WATCHDOG".toList])).2).g_heap = 4 + 2 ∧
    (event_commit_test_schedule (event_test_parse exampleLibc defaultCfg 1000
      ⟨none, none, exampleHeap⟩
      (some ["03:20 SUSPEND".toList, "@00:10 WATCHDOG".toList])).2).g_parsed = none :=
  ⟨by decide,
   (event_commit_is_add (event_test_parse exampleLibc defaultCfg 1000
      ⟨none, none, exampleHeap⟩
      (some ["03:20 SUSPEND".toList, "@00:10 WATCHDOG".toList])).2
      (by decide) (by decide)).2.2.1,
   by decide⟩

/-! ## The interval timer -/

theorem interval_tick_cases (s : daemon_state) (fork : Int) :
    (interval_tick s fork = .child ∧ suspendedTick s fork = false ∧ s.worker_pid = 0 ∧
      fork = 0) ∨
    ∃ s1, interval_tick s fork = .parent s1 ∧
      s1.n_interval_ticks = toInt32 (s.n_interval_ticks + 1) ∧
      s1.suspended_by_command = s.suspended_by_command ∧
      s1.suspended_by_schedule = s.suspended_by_schedule ∧
      s1.n_datalog_success = s.n_datalog_success ∧
      ((suspendedTick s fork = true ∨ busyTick s fork = true) →
        s1.n_datalog_actions = s.n_datalog_actions ∧ s1.worker_pid = s.worker_pid ∧
        s1.worker_armed = s.worker_armed) ∧
      (forkFailedTick s fork = true →
        s1.n_datalog_actions = s.n_datalog_actions ∧ s1.worker_pid = 0 ∧
        s1.worker_armed = s.worker_armed) ∧
      ((suspendedTick s fork = false ∧ busyTick s fork = false ∧
          forkFailedTick s fork = false) →
        s1.n_datalog_actions = toInt32 (s.n_datalog_actions + 1) ∧ s1.worker_pid = fork ∧
        0 < fork ∧ s1.worker_armed = true) := by
  unfold interval_tick suspendedTick busyTick forkFailedTick suspendedTick
  simp only
  by_cases h1 : s.suspended_by_command ≠ 0 ∨ s.suspended_by_schedule ≠ 0
  · rw [if_neg (not_not.mpr h1)]
    refine Or.inr ⟨_, rfl, rfl, rfl, rfl, rfl, ?_, ?_, ?_⟩
    · intro _; exact ⟨rfl, rfl, rfl⟩
    · intro h; rcases h1 with h1 | h1 <;> simp [h1] at h
    · intro h; rcases h1 with h1 | h1 <;> simp [h1] at h
  · rw [if_pos h1]
    have h1a : s.suspended_by_command = 0 := by
      by_contra hc; exact h1 (Or.inl hc)
    have h1b : s.suspended_by_schedule = 0 := by
      by_contra hc; exact h1 (Or.inr hc)
    by_cases h2 : s.worker_pid ≠ 0
    · rw [if_pos h2]
      refine Or.inr ⟨_, rfl, rfl, rfl, rfl, rfl, ?_, ?_, ?_⟩
      · intro _; exact ⟨rfl, rfl, rfl⟩
      · intro h; simp [h2] at h
      · intro h; simp [h1a, h1b, h2] at h
    · rw [if_neg h2]
      have h2a : s.worker_pid = 0 := by
        by_contra hc; exact h2 hc
      by_cases h3 : fork < 0
      · rw [if_pos h3]
        refine Or.inr ⟨_, rfl, rfl, rfl, rfl, rfl, ?_, ?_, ?_⟩
        · intro h; simp [h1a, h1b, h2a] at h
        · intro _; exact ⟨rfl, rfl, rfl⟩
        · intro h; simp [h1a, h1b, h2a, h3] at h
      · rw [if_neg h3]
        by_cases h4 : fork > 0
        · rw [if_pos h4]
          refine Or.inr ⟨_, rfl, rfl, rfl, rfl, rfl, ?_, ?_, ?_⟩
          · intro h; simp [h1a, h1b, h2a] at h
          · intro h; simp [h1a, h1b, h2a, h3] at h
          · intro _; exact ⟨rfl, rfl, h4, rfl⟩
        · rw [if_neg h4]
          refine Or.inl ⟨rfl, ?_, h2a, by omega⟩
          simp [h1a, h1b]

theorem loop_step_counts (s : daemon_state) (ev : loop_event) (s1 : daemon_state)
    (h : loop_step s ev = some s1)
    (hlo1 : -2147483648 ≤ s.n_interval_ticks) (hhi1 : s.n_interval_ticks + 1 ≤ 2147483647)
    (hlo2 : -2147483648 ≤ s.n_datalog_actions) (hhi2 : s.n_datalog_actions + 1 ≤ 2147483647) :
    s1.n_interval_ticks = s.n_interval_ticks + (tickOf anyTick s ev : Int) ∧
    s1.n_datalog_actions + (tickOf suspendedTick s ev : Int) + (tickOf busyTick s ev : Int)
      + (tickOf forkFailedTick s ev : Int)
      = s.n_datalog_actions + (tickOf anyTick s ev : Int) ∧
    s.n_datalog_actions ≤ s1.n_datalog_actions ∧
    s1.n_datalog_actions ≤ s.n_datalog_actions + 1 := by
  cases ev with
  | interval fork =>
    simp only [loop_step] at h
    rcases interval_tick_cases s fork with ⟨hc, _⟩ | ⟨s2, hp, ht, _, _, _, hA, hB, hC⟩
    · rw [hc] at h; simp at h
    · rw [hp] at h
      simp only [Option.some.injEq] at h
      subst h
      rw [toInt32_of_range _ (by omega) (by omega)] at ht
      simp only [tickOf, anyTick, if_true, Nat.cast_one]
      refine ⟨ht, ?_⟩
      by_cases h1 : suspendedTick s fork = true
      · have hb : busyTick s fork = false := by simp [busyTick, h1]
        have hf : forkFailedTick s fork = false := by simp [forkFailedTick, h1]
        rw [(hA (Or.inl h1)).1, h1, hb, hf]
        simp
      · have h1f : suspendedTick s fork = false := by simpa using h1
        by_cases h2 : busyTick s fork = true
        · have hf : forkFailedTick s fork = false := by
            simp only [busyTick, h1f, Bool.not_false, Bool.true_and, decide_eq_true_eq] at h2
            simp [forkFailedTick, h2]
          rw [(hA (Or.inr h2)).1, h1f, h2, hf]
          simp
        · have h2f : busyTick s fork = false := by simpa using h2
          by_cases h3 : forkFailedTick s fork = true
          · rw [(hB h3).1, h1f, h2f, h3]
            simp
          · have h3f : forkFailedTick s fork = false := by simpa using h3
            rw [(hC ⟨h1f, h2f, h3f⟩).1, h1f, h2f, h3f,
              toInt32_of_range _ (by omega) (by omega)]
            simp
  | sigusr1 =>
    simp only [loop_step, Option.some.injEq] at h
    subst h
    unfold handle_SIGUSR1
    split <;> simp [tickOf]
  | sigusr2 =>
    simp only [loop_step, Option.some.injEq] at h
    subst h
    unfold handle_SIGUSR2
    split <;> simp [tickOf]
  | sigchld pid success =>
    simp only [loop_step, Option.some.injEq] at h
    subst h
    unfold handle_SIGCHLD
    split
    · simp [tickOf]
    · split
      · simp only [tickOf]
        split <;> simp
      · simp [tickOf]
  | suspend =>
    simp only [loop_step, Option.some.injEq] at h
    subst h
    simp [daemon_suspend, tickOf]
  | resume =>
    simp only [loop_step, Option.some.injEq] at h
    subst h
    simp [daemon_resume, tickOf]

theorem tickOf_le_one (p : daemon_state → Int → Bool) (s : daemon_state) (ev : loop_event) :
    tickOf p s ev ≤ 1 := by
  cases ev <;> simp [tickOf]
  split <;> omega

theorem loop_run_counts : ∀ (evs : List loop_event) (s s1 : daemon_state),
    loop_run s evs = some s1 →
    -2147483648 ≤ s.n_interval_ticks → s.n_interval_ticks + evs.length ≤ 2147483647 →
    -2147483648 ≤ s.n_datalog_actions → s.n_datalog_actions + evs.length ≤ 2147483647 →
    s1.n_interval_ticks = s.n_interval_ticks + (countTicks anyTick s evs : Int) ∧
    s1.n_datalog_actions + (countTicks suspendedTick s evs : Int)
      + (countTicks busyTick s evs : Int) + (countTicks forkFailedTick s evs : Int)
      = s.n_datalog_actions + (countTicks anyTick s evs : Int) := by
  intro evs
  induction evs with
  | nil =>
    intro s s1 h _ _ _ _
    simp only [loop_run, Option.some.injEq] at h
    subst h
    simp [countTicks]
  | cons ev rest ih =>
    intro s s1 h hlo1 hhi1 hlo2 hhi2
    simp only [List.length_cons, Nat.cast_add, Nat.cast_one] at hhi1 hhi2
    simp only [loop_run] at h
    cases hs : loop_step s ev with
    | none => rw [hs] at h; simp at h
    | some s2 =>
      rw [hs] at h
      simp only at h
      obtain ⟨a1, a2, a3, a4⟩ := loop_step_counts s ev s2 hs hlo1 (by omega) hlo2 (by omega)
      have t1 := tickOf_le_one anyTick s ev
      have t2 := tickOf_le_one suspendedTick s ev
      have t3 := tickOf_le_one busyTick s ev
      have t4 := tickOf_le_one forkFailedTick s ev
      obtain ⟨b1, b2⟩ := ih s2 s1 h (by omega) (by omega) (by omega) (by omega)
      simp only [countTicks, hs, Nat.cast_add]
      constructor <;> omega

/-! ## Claims about the interval timer -/

/-- C20, counterexample: a single interval tick, not suspended and with no worker
recorded, at which `fork()` fails: the tick is counted, no worker is launched, and the
tick is neither a suspended nor a busy one. -/
theorem interval_tick_fork_failure :
    loop_run initialDaemon [.interval (-1)]
      = some { initialDaemon with n_interval_ticks := 1 } ∧
    countTicks anyTick initialDaemon [.interval (-1)] = 1 ∧
    countTicks suspendedTick initialDaemon [.interval (-1)] = 0 ∧
    countTicks busyTick initialDaemon [.interval (-1)] = 0 ∧
    ({ initialDaemon with n_interval_ticks := 1 } : daemon_state).n_datalog_actions ≠ 1 - 0 - 0 := by
  decide

/-- C20, amended: over every sequence of events of the main loop that the daemon
process runs through (interval ticks, SIGUSR1, SIGUSR2, SIGCHLD, scheduled SUSPEND and
RESUME), as long as the `int` counters do not overflow, n_interval_ticks grows by the
number of ticks and n_datalog_actions grows by the number of ticks minus the ticks at
which a suspend flag was set, minus the non-suspended ticks at which a worker pid was
recorded, minus the remaining ticks at which `fork()` failed. At a tick with a worker
pid recorded the pid and the state of the worker timer stay as they are. -/
theorem worker_launch_count (s s1 : daemon_state) (evs : List loop_event)
    (hrun : loop_run s evs = some s1)
    (hlo1 : -2147483648 ≤ s.n_interval_ticks)
    (hhi1 : s.n_interval_ticks + evs.length ≤ 2147483647)
    (hlo2 : -2147483648 ≤ s.n_datalog_actions)
    (hhi2 : s.n_datalog_actions + evs.length ≤ 2147483647) :
    s1.n_interval_ticks = s.n_interval_ticks + (countTicks anyTick s evs : Int) ∧
    s1.n_datalog_actions = s.n_datalog_actions + (countTicks anyTick s evs : Int)
      - (countTicks suspendedTick s evs : Int) - (countTicks busyTick s evs : Int)
      - (countTicks forkFailedTick s evs : Int) ∧
    (∀ (s0 : daemon_state) (fork : Int), s0.worker_pid ≠ 0 →
      ∃ s2, interval_tick s0 fork = .parent s2 ∧ s2.worker_pid = s0.worker_pid ∧
        s2.worker_armed = s0.worker_armed ∧ s2.n_datalog_actions = s0.n_datalog_actions) := by
  obtain ⟨a, b⟩ := loop_run_counts evs s s1 hrun hlo1 hhi1 hlo2 hhi2
  refine ⟨a, by omega, ?_⟩
  intro s0 fork hpid
  rcases interval_tick_cases s0 fork with ⟨_, _, hc, _⟩ | ⟨s2, hp, _, _, _, _, hA, _, _⟩
  · exact absurd hc hpid
  · refine ⟨s2, hp, ?_⟩
    by_cases h1 : suspendedTick s0 fork = true
    · obtain ⟨x, y, z⟩ := hA (Or.inl h1)
      exact ⟨y, z, x⟩
    · have hb : busyTick s0 fork = true := by
        simp only [Bool.not_eq_true] at h1
        simp [busyTick, h1, hpid]
      obtain ⟨x, y, z⟩ := hA (Or.inr hb)
      exact ⟨y, z, x⟩

/-- C20, instance: a launch, a tick while the worker runs, its exit, a tick while
suspended by SIGUSR1, a failed fork and a second launch. -/
theorem worker_launch_count_witness :
    loop_run initialDaemon [.interval 100, .interval 101, .sigchld 100 true, .sigusr1,
      .interval 102, .sigusr2, .interval (-1), .interval 103]
      = some ⟨5, 2, 1, 103, true, 0, 0⟩ ∧
    (5 : Int) = 0 + (countTicks anyTick initialDaemon [.interval 100, .interval 101,
      .sigchld 100 true, .sigusr1, .interval 102, .sigusr2, .interval (-1),
      .interval 103] : Int) ∧
    (2 : Int) = 0 + (5 : Int) - (1 : Int) - (1 : Int) - (1 : Int) :=
  ⟨by decide,
   (worker_launch_count initialDaemon ⟨5, 2, 1, 103, true, 0, 0⟩
      [.interval 100, .interval 101, .sigchld 100 true, .sigusr1, .interval 102, .sigusr2,
       .interval (-1), .interval 103] (by decide) (by decide) (by decide) (by decide)
      (by decide)).1,
   by decide⟩

/-! ## DAILY events in a time zone without daylight saving -/

theorem hms_of_offset (L : Int) (h : 0 ≤ L) :
    GETHOURS L * 3600 + GETMINUTES L * 60 + GETSECONDS L = L % 86400 := by
  unfold GETHOURS GETMINUTES GETSECONDS SECONDS_PER_DAY SECONDS_PER_HOUR SECONDS_PER_MINUTE
  rw [Int.tmod_eq_emod h (by norm_num), Int.tmod_eq_emod h (by norm_num),
    Int.tmod_eq_emod h (by norm_num),
    Int.tdiv_eq_ediv (Int.emod_nonneg _ (by norm_num)) (by norm_num),
    Int.tdiv_eq_ediv (Int.emod_nonneg _ (by norm_num)) (by norm_num)]
  omega

theorem schedule_daily_fixed (off : Int) (cfg : cfg_t) (now : Int) (e : event_t)
    (hd : e.type = EVENT_TYPE_DAILY) :
    __schedule_next_trigger (fixedZoneLibc off) cfg now e =
      { e with
        localoffset := dailyOffset e
        next_trigger :=
          if (now + off) / 86400 * 86400 + dailyOffset e % 86400 - off ≤ now
          then (now + off) / 86400 * 86400 + dailyOffset e % 86400 - off + 86400
          else (now + off) / 86400 * 86400 + dailyOffset e % 86400 - off } := by
  have hL : (if e.localoffset ≥ SECONDS_PER_DAY + 2 * SECONDS_PER_HOUR then e.localoffset
      else if e.localoffset < 0 then 0 else e.localoffset) = dailyOffset e := by
    unfold dailyOffset SECONDS_PER_DAY SECONDS_PER_HOUR
    split
    · rw [if_neg (by omega)]
    · rfl
  have h0 : 0 ≤ dailyOffset e := by
    unfold dailyOffset; split <;> omega
  have hms := hms_of_offset (dailyOffset e) h0
  unfold __schedule_next_trigger
  simp only [if_pos hd, hL]
  simp only [__update_today, fixedZoneLibc]
  simp only [gt_iff_lt, lt_self_iff_false, false_and, if_false]
  generalize GETHOURS (dailyOffset e) = hh at hms ⊢
  generalize GETMINUTES (dailyOffset e) = mm at hms ⊢
  generalize GETSECONDS (dailyOffset e) = ss at hms ⊢
  generalize dailyOffset e = L at hms h0 ⊢
  have e1 : (now + off) / 86400 * 86400 + hh * 3600 + mm * 60 + ss - off
      = (now + off) / 86400 * 86400 + L % 86400 - off := by omega
  rw [e1]
  congr 1
  split
  · omega
  · rfl

theorem event_gettriggered_le (g g1 : Option (List event_t)) (t : Int) (e : event_t)
    (h : event_gettriggered g t = (some e, g1)) : e.next_trigger ≤ t := by
  unfold event_gettriggered eventheap_fetchtriggered at h
  cases g with
  | none => simp at h
  | some l =>
    simp only at h
    split at h
    · simp at h
    · split at h
      · simp at h
      · rename_i h1 h2
        unfold eventheap_fetch at h
        simp only [if_neg h1, Prod.mk.injEq, Option.some.injEq] at h
        rw [← h.1]
        unfold VAL at h2
        omega

/-! ## DAILY events in a time zone with daylight saving -/

/-- What `mktime` of `dstZoneLibc` returns for a `tm_isdst` that is zero or positive. -/
theorem dstZone_mktime_hint (off save : Int) (dst : Int → Bool) (l : tm)
    (h : 0 ≤ l.tm_isdst) :
    ((dstZoneLibc off save dst).mktime l).1
      = l.tm_mday * 86400 + l.tm_hour * 3600 + l.tm_min * 60 + l.tm_sec - off
        - (if l.tm_isdst > 0 then save else 0) := by
  simp only [dstZoneLibc]
  by_cases hp : l.tm_isdst > 0
  · rw [if_pos hp, if_pos hp]
  · rw [if_neg hp, if_neg hp, if_pos (by omega)]
    omega

/-- The second call of `mktime` in `__schedule_next_trigger`, with `tm_mday` of the
normalised struct raised by one, returns the first result plus 24 h. -/
theorem dstZone_mktime_next_day (off save : Int) (dst : Int → Bool) (l : tm) :
    ((dstZoneLibc off save dst).mktime
      { ((dstZoneLibc off save dst).mktime l).2 with
        tm_mday := ((dstZoneLibc off save dst).mktime l).2.tm_mday + 1 }).1
      = ((dstZoneLibc off save dst).mktime l).1 + 86400 := by
  simp only [dstZoneLibc]
  generalize (if l.tm_isdst > 0 then
      l.tm_mday * 86400 + l.tm_hour * 3600 + l.tm_min * 60 + l.tm_sec - off - save
    else if l.tm_isdst = 0 then
      l.tm_mday * 86400 + l.tm_hour * 3600 + l.tm_min * 60 + l.tm_sec - off
    else if dst (l.tm_mday * 86400 + l.tm_hour * 3600 + l.tm_min * 60 + l.tm_sec
        - off - save) = true then
      l.tm_mday * 86400 + l.tm_hour * 3600 + l.tm_min * 60 + l.tm_sec - off - save
    else l.tm_mday * 86400 + l.tm_hour * 3600 + l.tm_min * 60 + l.tm_sec - off) = t
  cases hdst : dst t
  · simp only [Bool.false_eq_true, if_false, add_zero, gt_iff_lt, lt_self_iff_false, if_true]
    omega
  · simp only [if_true, gt_iff_lt, zero_lt_one]
    omega

/-- The zone at a fixed offset is the zone of `dstZoneLibc` in which daylight saving is
never in force and adds nothing. -/
theorem fixedZone_is_dstZone (off : Int) :
    fixedZoneLibc off = dstZoneLibc off 0 (fun _ => false) := by
  unfold fixedZoneLibc dstZoneLibc
  congr 1
  · funext t
    simp
  · funext l
    simp only [Bool.false_eq_true, if_false, add_zero, sub_zero, ite_self, sub_add_cancel]

/-- At a settled clock reading the date of `g_today.lst` is the date on the time scale
of the schedule. -/
theorem update_today_settled (off save : Int) (dst : Int → Bool) (cfg : cfg_t) (now : Int)
    (ha : 0 ≤ cfg.apply_dst) (h : todaySettled off save dst cfg now) :
    (__update_today (dstZoneLibc off save dst) cfg now).lst.tm_mday
      = (now + scheduleOffset off save cfg) / 86400 := by
  unfold todaySettled SECONDS_PER_DAY SECONDS_PER_HOUR at h
  obtain ⟨h1, h2⟩ := h
  simp only [__update_today, dstZoneLibc, scheduleOffset, SECONDS_PER_HOUR]
  by_cases hpos : cfg.apply_dst > 0
  · have hz : ¬ cfg.apply_dst = 0 := by omega
    simp only [hz, and_false, if_false, hpos, if_true]
    cases hdst : dst now
    · simp only [Bool.false_eq_true, if_false, add_zero]
      rw [← add_assoc]
      exact h2 hpos hdst
    · simp only [if_true]
      rw [add_assoc]
  · have hz : cfg.apply_dst = 0 := by omega
    simp only [hz, gt_iff_lt, lt_self_iff_false, if_false, and_true, add_zero]
    cases hdst : dst now
    · simp
    · simp only [if_true, zero_lt_one, if_true]
      exact h1 hz hdst

/-- The trigger time of a DAILY event in the zone of `dstZoneLibc`, from the date that
`__update_today` reads. -/
theorem schedule_daily_dst (off save : Int) (dst : Int → Bool) (cfg : cfg_t) (now : Int)
    (e : event_t) (ha : 0 ≤ cfg.apply_dst) (hd : e.type = EVENT_TYPE_DAILY) :
    __schedule_next_trigger (dstZoneLibc off save dst) cfg now e =
      { e with
        localoffset := dailyOffset e
        next_trigger :=
          if (__update_today (dstZoneLibc off save dst) cfg now).lst.tm_mday * 86400
              + dailyOffset e % 86400 - scheduleOffset off save cfg ≤ now
          then (__update_today (dstZoneLibc off save dst) cfg now).lst.tm_mday * 86400
              + dailyOffset e % 86400 - scheduleOffset off save cfg + 86400
          else (__update_today (dstZoneLibc off save dst) cfg now).lst.tm_mday * 86400
              + dailyOffset e % 86400 - scheduleOffset off save cfg } := by
  have hL : (if e.localoffset ≥ SECONDS_PER_DAY + 2 * SECONDS_PER_HOUR then e.localoffset
      else if e.localoffset < 0 then 0 else e.localoffset) = dailyOffset e := by
    unfold dailyOffset SECONDS_PER_DAY SECONDS_PER_HOUR
    split
    · rw [if_neg (by omega)]
    · rfl
  have h0 : 0 ≤ dailyOffset e := by
    unfold dailyOffset; split <;> omega
  have hms := hms_of_offset (dailyOffset e) h0
  unfold __schedule_next_trigger
  simp only [if_pos hd, hL]
  rw [dstZone_mktime_next_day, dstZone_mktime_hint _ _ _ _ (by exact ha)]
  have hnow : (__update_today (dstZoneLibc off save dst) cfg now).now = now := rfl
  rw [hnow]
  simp only [scheduleOffset]
  generalize (__update_today (dstZoneLibc off save dst) cfg now).lst.tm_mday = D
  generalize GETHOURS (dailyOffset e) = hh at hms ⊢
  generalize GETMINUTES (dailyOffset e) = mm at hms ⊢
  generalize GETSECONDS (dailyOffset e) = ss at hms ⊢
  generalize dailyOffset e = L at hms h0 ⊢
  have e1 : D * 86400 + hh * 3600 + mm * 60 + ss - off - (if cfg.apply_dst > 0 then save else 0)
      = D * 86400 + L % 86400 - (off + if cfg.apply_dst > 0 then save else 0) := by omega
  rw [e1]

/-- The trigger time of a DAILY event at a settled clock reading: the next occurrence of
its time of day on the time scale of the schedule. -/
theorem schedule_daily_settled (off save : Int) (dst : Int → Bool) (cfg : cfg_t) (now : Int)
    (e : event_t) (ha : 0 ≤ cfg.apply_dst) (hd : e.type = EVENT_TYPE_DAILY)
    (hs : todaySettled off save dst cfg now) :
    __schedule_next_trigger (dstZoneLibc off save dst) cfg now e =
      { e with
        localoffset := dailyOffset e
        next_trigger :=
          if (now + scheduleOffset off save cfg) / 86400 * 86400
              + dailyOffset e % 86400 - scheduleOffset off save cfg ≤ now
          then (now + scheduleOffset off save cfg) / 86400 * 86400
              + dailyOffset e % 86400 - scheduleOffset off save cfg + 86400
          else (now + scheduleOffset off save cfg) / 86400 * 86400
              + dailyOffset e % 86400 - scheduleOffset off save cfg } := by
  rw [schedule_daily_dst off save dst cfg now e ha hd,
    update_today_settled off save dst cfg now ha hs]

/-- In a zone without daylight saving every clock reading is settled. -/
theorem todaySettled_fixed (off : Int) (cfg : cfg_t) (now : Int) :
    todaySettled off 0 (fun _ => false) cfg now := by
  unfold todaySettled
  constructor
  · intro _ h
    simp at h
  · intro _ _
    rw [add_zero]

/-- With daylight saving of one hour, a clock reading is settled unless, with
`apply_dst` zero, daylight saving began within the last hour and standard time is
before 01:00, or, with `apply_dst` positive, daylight saving is not in force and
standard time is 23:00 or later. -/
theorem todaySettled_hour (off : Int) (dst : Int → Bool) (cfg : cfg_t) (now : Int) :
    todaySettled off 3600 dst cfg now ↔
      ¬ (cfg.apply_dst = 0 ∧ dst now = true ∧ dst (now - 3600) = false ∧
          (now + off) % 86400 < 3600) ∧
      ¬ (0 < cfg.apply_dst ∧ dst now = false ∧ 82800 ≤ (now + off) % 86400) := by
  unfold todaySettled SECONDS_PER_HOUR SECONDS_PER_DAY
  constructor
  · rintro ⟨h1, h2⟩
    constructor
    · rintro ⟨a, b, c, d⟩
      have := h1 a b
      rw [c] at this
      simp only [Bool.false_eq_true, if_false, add_zero] at this
      omega
    · rintro ⟨a, b, c⟩
      have := h2 a b
      omega
  · rintro ⟨h1, h2⟩
    constructor
    · intro a b
      cases c : dst (now - 3600)
      · simp only [Bool.false_eq_true, if_false, add_zero]
        have : ¬ (now + off) % 86400 < 3600 := fun d => h1 ⟨a, b, c, d⟩
        omega
      · simp only [if_true]
        congr 1
        omega
    · intro a b
      have : ¬ 82800 ≤ (now + off) % 86400 := fun c => h2 ⟨a, b, c⟩
      omega

/-- In the hour that `todaySettled` leaves out, the trigger time of a DAILY event is
not later than the clock. Two hours east of universal time, daylight saving of one
hour from 90000 on, `apply_dst` positive: at 76200 (23:10 standard time, no daylight
saving yet) `__update_today` reads the standard-time date, the event of 00:10 gets the
trigger time 76200, the clock reading itself, and that of 00:05 gets 75900, with which
`event_reschedule` ends the process. With `apply_dst` zero and daylight saving from
79200 on (midnight standard time), at 79800 the event of 00:10 gets the trigger time
79800. -/
theorem schedule_daily_unsettled :
    ¬ todaySettled 7200 3600 (fun t => decide (90000 ≤ t)) ⟨0, 45, 1⟩ 76200 ∧
    (__schedule_next_trigger (dstZoneLibc 7200 3600 (fun t => decide (90000 ≤ t)))
      ⟨0, 45, 1⟩ 76200
      ⟨0, 600, EVENT_TYPE_DAILY, EVENT_ACTION_SUSPEND, EVENT_SOURCE_PARSED⟩).next_trigger
      = 76200 ∧
    (__schedule_next_trigger (dstZoneLibc 7200 3600 (fun t => decide (90000 ≤ t)))
      ⟨0, 45, 1⟩ 76200
      ⟨0, 300, EVENT_TYPE_DAILY, EVENT_ACTION_SUSPEND, EVENT_SOURCE_PARSED⟩).next_trigger
      = 75900 ∧
    event_reschedule (dstZoneLibc 7200 3600 (fun t => decide (90000 ≤ t))) ⟨0, 45, 1⟩
      76200 76200 initialGlobals
      (some ⟨75900, 300, EVENT_TYPE_DAILY, EVENT_ACTION_SUSPEND, EVENT_SOURCE_PARSED⟩)
      = .exited ∧
    ¬ todaySettled 7200 3600 (fun t => decide (79200 ≤ t)) defaultCfg 79800 ∧
    (__schedule_next_trigger (dstZoneLibc 7200 3600 (fun t => decide (79200 ≤ t)))
      defaultCfg 79800
      ⟨0, 600, EVENT_TYPE_DAILY, EVENT_ACTION_SUSPEND, EVENT_SOURCE_PARSED⟩).next_trigger
      = 79800 := by
  refine ⟨by decide, by decide, by decide, by decide, by decide, by decide⟩

/-! ## Claims about DAILY events -/

/-- C12, counterexample: the DAILY event of `00:02 SUSPEND`, scheduled at clock 60 for
120, is returned by `event_gettriggered(5000)` (the loop comes to it 81 minutes late)
and `event_reschedule` with the clock at 5000 gives it the next_trigger 86520, the next
00:02, which is earlier than 5000 + 23 h = 87800. -/
theorem daily_reschedule_late :
    __schedule_next_trigger exampleLibc defaultCfg 60
      ⟨0, 120, EVENT_TYPE_DAILY, EVENT_ACTION_SUSPEND, EVENT_SOURCE_PARSED⟩
      = ⟨120, 120, EVENT_TYPE_DAILY, EVENT_ACTION_SUSPEND, EVENT_SOURCE_PARSED⟩ ∧
    event_gettriggered
      (some [⟨120, 120, EVENT_TYPE_DAILY, EVENT_ACTION_SUSPEND, EVENT_SOURCE_PARSED⟩]) 5000
      = (some ⟨120, 120, EVENT_TYPE_DAILY, EVENT_ACTION_SUSPEND, EVENT_SOURCE_PARSED⟩,
         some []) ∧
    event_reschedule exampleLibc defaultCfg 5000 5000 ⟨none, none, some []⟩
      (some ⟨120, 120, EVENT_TYPE_DAILY, EVENT_ACTION_SUSPEND, EVENT_SOURCE_PARSED⟩)
      = .returned 86520
          (some ⟨86520, 120, EVENT_TYPE_DAILY, EVENT_ACTION_SUSPEND, EVENT_SOURCE_PARSED⟩)
          ⟨none, none,
            some [⟨86520, 120, EVENT_TYPE_DAILY, EVENT_ACTION_SUSPEND, EVENT_SOURCE_PARSED⟩]⟩ ∧
    ¬ ((5000 : Int) + 23 * SECONDS_PER_HOUR ≤ 86520) := by
  decide

/-- C12, amended: in a time zone in which local time is standard time (`off` seconds
east of universal time) plus `save` seconds while daylight saving is in force, with an
`apply_dst` that is zero or positive, and at clock readings that are settled
(`todaySettled`): the next_trigger that `__schedule_next_trigger` computes for a DAILY
event at clock `now` is strictly later than `now` and at most `now` + 24 h. When such
an event is returned by `event_gettriggered(t)` not more than one hour after its
next_trigger and is handed to `event_reschedule` with the clock at `t`, it is inserted
again with the old next_trigger plus 24 h, which lies between t + 23 h and t + 24 h,
whether or not daylight saving begins or ends in between. -/
theorem daily_reschedule_bounds (off save : Int) (dst : Int → Bool) (cfg : cfg_t)
    (now : Int) (e : event_t) (g g1 : Option (List event_t)) (t : Int) (st : globals)
    (ha : 0 ≤ cfg.apply_dst)
    (hd : e.type = EVENT_TYPE_DAILY)
    (hnow : todaySettled off save dst cfg now)
    (ht : todaySettled off save dst cfg t)
    (hfire : event_gettriggered g t
      = (some (__schedule_next_trigger (dstZoneLibc off save dst) cfg now e), g1))
    (hlate : t ≤ (__schedule_next_trigger (dstZoneLibc off save dst) cfg now e).next_trigger
      + SECONDS_PER_HOUR) :
    now < (__schedule_next_trigger (dstZoneLibc off save dst) cfg now e).next_trigger ∧
    (__schedule_next_trigger (dstZoneLibc off save dst) cfg now e).next_trigger
      ≤ now + SECONDS_PER_DAY ∧
    ∃ e2, event_reschedule (dstZoneLibc off save dst) cfg t t st
        (some (__schedule_next_trigger (dstZoneLibc off save dst) cfg now e))
        = .returned e2.next_trigger (some e2)
            { st with g_heap := eventheap_insert st.g_heap e2 } ∧
      e2.next_trigger
        = (__schedule_next_trigger (dstZoneLibc off save dst) cfg now e).next_trigger
          + SECONDS_PER_DAY ∧
      t + 23 * SECONDS_PER_HOUR ≤ e2.next_trigger ∧
      e2.next_trigger ≤ t + 24 * SECONDS_PER_HOUR := by
  have hle := event_gettriggered_le g g1 t _ hfire
  have h0 : 0 ≤ dailyOffset e := by
    unfold dailyOffset; split <;> omega
  have hdd : dailyOffset { e with localoffset := dailyOffset e } = dailyOffset e := by
    unfold dailyOffset
    simp only
    split <;> simp
  have h1 := schedule_daily_settled off save dst cfg now e ha hd hnow
  generalize __schedule_next_trigger (dstZoneLibc off save dst) cfg now e = e1 at *
  have ht1 : e1.type = EVENT_TYPE_DAILY := by rw [h1]; exact hd
  have ho1 : dailyOffset e1 = dailyOffset e := by rw [h1]; exact hdd
  have h2 := schedule_daily_settled off save dst cfg t e1 ha ht1 ht
  rw [ho1] at h2
  generalize scheduleOffset off save cfg = o at h1 h2
  have hn1 : e1.next_trigger =
      if (now + o) / 86400 * 86400 + dailyOffset e % 86400 - o ≤ now
      then (now + o) / 86400 * 86400 + dailyOffset e % 86400 - o + 86400
      else (now + o) / 86400 * 86400 + dailyOffset e % 86400 - o := by rw [h1]
  unfold SECONDS_PER_HOUR at hlate ⊢
  unfold SECONDS_PER_DAY
  have hx0 : 0 ≤ dailyOffset e % 86400 := Int.emod_nonneg _ (by norm_num)
  have hx1 : dailyOffset e % 86400 < 86400 := Int.emod_lt_of_pos _ (by norm_num)
  generalize dailyOffset e % 86400 = x at *
  have hX : (if (t + o) / 86400 * 86400 + x - o ≤ t
      then (t + o) / 86400 * 86400 + x - o + 86400
      else (t + o) / 86400 * 86400 + x - o) = e1.next_trigger + 86400 := by
    rw [hn1] at hle hlate ⊢
    split at hle <;> split <;> omega
  rw [hX] at h2
  refine ⟨by rw [hn1]; split <;> omega, by rw [hn1]; split <;> omega, ?_⟩
  unfold event_reschedule
  have hnot : ¬ e1.type = EVENT_TYPE_ONCE := by rw [ht1]; decide
  simp only [if_neg hnot]
  rw [h2]
  simp only
  rw [if_neg (by omega)]
  refine ⟨{ e1 with localoffset := dailyOffset e, next_trigger := e1.next_trigger + 86400 },
    rfl, rfl, ?_, ?_⟩
  · show t + 23 * 3600 ≤ e1.next_trigger + 86400
    omega
  · show e1.next_trigger + 86400 ≤ t + 24 * 3600
    omega

/-- C12, instance: `03:20 SUSPEND` in a zone two hours east of universal time in which
daylight saving of one hour begins at 90000 (03:00 standard time of the second day),
with `apply_dst` zero. Scheduled at clock 4805 of the first day for 91200 (03:20
standard time of the second day, 04:20 local time as daylight saving is in force by
then), the event is handed out at 91200 and scheduled again for 177600, 24 h later. -/
theorem daily_reschedule_bounds_witness :
    __schedule_next_trigger (dstZoneLibc 7200 3600 (fun t => decide (90000 ≤ t)))
      defaultCfg 4805
      ⟨4800, 12000, EVENT_TYPE_DAILY, EVENT_ACTION_SUSPEND, EVENT_SOURCE_PARSED⟩
      = ⟨91200, 12000, EVENT_TYPE_DAILY, EVENT_ACTION_SUSPEND, EVENT_SOURCE_PARSED⟩ ∧
    ((dstZoneLibc 7200 3600 (fun t => decide (90000 ≤ t))).localtime_r 91200).tm_hour = 4 ∧
    ((dstZoneLibc 7200 3600 (fun t => decide (90000 ≤ t))).localtime_r 91200).tm_min = 20 ∧
    ∃ e2, event_reschedule (dstZoneLibc 7200 3600 (fun t => decide (90000 ≤ t)))
        defaultCfg 91200 91200 initialGlobals
        (some (__schedule_next_trigger (dstZoneLibc 7200 3600 (fun t => decide (90000 ≤ t)))
          defaultCfg 4805
          ⟨4800, 12000, EVENT_TYPE_DAILY, EVENT_ACTION_SUSPEND, EVENT_SOURCE_PARSED⟩))
        = .returned e2.next_trigger (some e2)
            { initialGlobals with g_heap := eventheap_insert initialGlobals.g_heap e2 } ∧
      e2.next_trigger = (__schedule_next_trigger
          (dstZoneLibc 7200 3600 (fun t => decide (90000 ≤ t))) defaultCfg 4805
          ⟨4800, 12000, EVENT_TYPE_DAILY, EVENT_ACTION_SUSPEND, EVENT_SOURCE_PARSED⟩).next_trigger
        + SECONDS_PER_DAY ∧
      91200 + 23 * SECONDS_PER_HOUR ≤ e2.next_trigger ∧
      e2.next_trigger ≤ 91200 + 24 * SECONDS_PER_HOUR :=
  ⟨by decide, by decide, by decide,
   (daily_reschedule_bounds 7200 3600 (fun t => decide (90000 ≤ t)) defaultCfg 4805
      ⟨4800, 12000, EVENT_TYPE_DAILY, EVENT_ACTION_SUSPEND, EVENT_SOURCE_PARSED⟩
      (some [⟨91200, 12000, EVENT_TYPE_DAILY, EVENT_ACTION_SUSPEND, EVENT_SOURCE_PARSED⟩])
      (some []) 91200 initialGlobals (by decide) rfl (by decide) (by decide) (by decide)
      (by decide)).2.2⟩

/-! ## Serialising events -/

theorem printf_02d_facts (n : Int) (h0 : 0 ≤ n) (h1 : n < 100) :
    printf_02d n ≠ [] ∧ (printf_02d n).all isdigit = true ∧
    (digitsValue (printf_02d n) : Int) = n := by
  obtain ⟨k, rfl⟩ := Int.eq_ofNat_of_zero_le h0
  have hk : k < 100 := by omega
  clear h0 h1
  interval_cases k <;> decide

theorem hours_minutes_range (lo : Int) (h0 : 0 ≤ lo) :
    0 ≤ GETHOURS lo ∧ GETHOURS lo ≤ 23 ∧ 0 ≤ GETMINUTES lo ∧ GETMINUTES lo ≤ 59 ∧
    (lo < 86400 → lo % 60 = 0 → 3600 * GETHOURS lo + 60 * GETMINUTES lo = lo) := by
  unfold GETHOURS GETMINUTES SECONDS_PER_DAY SECONDS_PER_HOUR SECONDS_PER_MINUTE
  rw [Int.tmod_eq_emod h0 (by norm_num), Int.tmod_eq_emod h0 (by norm_num),
    Int.tdiv_eq_ediv (Int.emod_nonneg _ (by norm_num)) (by norm_num),
    Int.tdiv_eq_ediv (Int.emod_nonneg _ (by norm_num)) (by norm_num)]
  omega

theorem actionstring2code_range (a : List Char) :
    0 ≤ __actionstring2code a ∧ __actionstring2code a ≤ 7 := by
  unfold __actionstring2code
  split
  · omega
  · simp only [event_action, List.drop_succ_cons, List.drop_zero, actionstring2code_loop]
    repeat' split
    all_goals omega

theorem specEvent_facts (s : List Char) (ty lo act : Int)
    (h : specEvent s = some (ty, lo, act)) :
    (ty = EVENT_TYPE_DAILY ∨ ty = EVENT_TYPE_INTERVAL ∨ ty = EVENT_TYPE_ONCE) ∧
    0 ≤ lo ∧ lo % 60 = 0 ∧ 1 ≤ act ∧ act ≤ 7 := by
  unfold specEvent at h
  split at h
  · simp at h
  · rename_i hh rest _
    split at h
    · simp at h
    · rename_i hneg
      split at h
      · simp at h
      · rename_i c rest1
        split at h
        · simp at h
        · split at h
          · simp at h
          · rename_i mm rest2 _
            split at h
            · simp at h
            · rename_i hm
              split at h
              · simp at h
              · split at h
                · simp at h
                · rename_i hact
                  simp only [Option.some.injEq, Prod.mk.injEq] at h
                  obtain ⟨h1, h2, h3⟩ := h
                  have hr := actionstring2code_range (List.dropWhile isspace rest2)
                  refine ⟨?_, by omega, by omega, by omega, by omega⟩
                  rw [← h1]
                  unfold prefixType
                  split
                  · exact Or.inr (Or.inl rfl)
                  · split
                    · exact Or.inr (Or.inr rfl)
                    · exact Or.inl rfl

theorem eventstr_specEvent (e : event_t)
    (hty : e.type = EVENT_TYPE_DAILY ∨ e.type = EVENT_TYPE_INTERVAL ∨ e.type = EVENT_TYPE_ONCE)
    (h0 : 0 ≤ e.localoffset) (hday : e.localoffset < 86400) (h60 : e.localoffset % 60 = 0)
    (ha1 : 1 ≤ e.action) (ha7 : e.action ≤ 7) :
    bsprint_eventstr [] (some e) ≠ [] ∧ numbersFit (bsprint_eventstr [] (some e)) = true ∧
    specEvent (bsprint_eventstr [] (some e)) = some (e.type, e.localoffset, e.action) := by
  obtain ⟨r1, r2, r3, r4, r5⟩ := hours_minutes_range e.localoffset h0
  obtain ⟨p1, p2, p3⟩ := printf_02d_facts (GETHOURS e.localoffset) r1 (by omega)
  obtain ⟨q1, q2, q3⟩ := printf_02d_facts (GETMINUTES e.localoffset) r3 (by omega)
  have heq : bsprint_eventstr [] (some e) =
      entryText (event_type.getD e.type.toNat ⟨[], []⟩).pfx
        (printf_02d (GETHOURS e.localoffset)) (printf_02d (GETMINUTES e.localoffset))
        [' '] (event_action.getD e.action.toNat ⟨[], 0⟩).name := rfl
  have hpre : ((event_type.getD e.type.toNat ⟨[], []⟩).pfx = [] ∨
      (event_type.getD e.type.toNat ⟨[], []⟩).pfx = ['@'] ∨
      (event_type.getD e.type.toNat ⟨[], []⟩).pfx = ['!']) ∧
      entryType (event_type.getD e.type.toNat ⟨[], []⟩).pfx = e.type := by
    rcases hty with h | h | h <;> rw [h] <;> decide
  have hk : ((e.action.toNat : Nat) : Int) = e.action := Int.toNat_of_nonneg (by omega)
  have hw : wellFormedParts (event_type.getD e.type.toNat ⟨[], []⟩).pfx
      (printf_02d (GETHOURS e.localoffset)) (printf_02d (GETMINUTES e.localoffset))
      [' '] (event_action.getD e.action.toNat ⟨[], 0⟩).name e.action.toNat = true := by
    unfold wellFormedParts
    simp only [Bool.and_eq_true, Bool.or_eq_true, decide_eq_true_eq, Bool.not_eq_eq_eq_not,
      Bool.not_true, List.isEmpty_eq_false, bne_iff_ne, ne_eq]
    refine ⟨⟨⟨⟨⟨⟨⟨⟨⟨⟨⟨?_, ?_⟩, p2⟩, ?_⟩, q2⟩, ?_⟩, ?_⟩, ?_⟩, ?_⟩, ?_⟩, ?_⟩, ?_⟩
    · rcases hpre.1 with h | h | h
      · exact Or.inl (Or.inl h)
      · exact Or.inl (Or.inr h)
      · exact Or.inr h
    · simpa using p1
    · simpa using q1
    · omega
    · decide
    · omega
    · omega
    · simp [strcasecmp_eq]
    · right; omega
    · omega
  obtain ⟨n1, n2, n3⟩ := wellFormed_specEvent _ _ _ _ _ _ hw
  rw [heq]
  refine ⟨n1, n2, ?_⟩
  rw [n3, hpre.2, p3, q3, hk, r5 hday h60]

theorem reparse_triples (lib : libc_t) (cfg : cfg_t) (now : Int) : ∀ l : List event_t,
    (∀ e ∈ l, specEvent (bsprint_eventstr [] (some e)) = some (eventTriple e) ∧
      0 ≤ e.localoffset) →
    ((eventStrings l).filterMap (specStaged lib cfg now)).map eventTriple
      = l.map eventTriple := by
  intro l
  induction l with
  | nil => intro _; rfl
  | cons e rest ih =>
    intro h
    obtain ⟨h1, h2⟩ := h e (List.mem_cons_self _ _)
    have hs : specStaged lib cfg now (bsprint_eventstr [] (some e)) =
        some (__schedule_next_trigger lib cfg now
          { next_trigger := 0, localoffset := e.localoffset, type := e.type,
            action := e.action, source := EVENT_SOURCE_PARSED }) := by
      unfold specStaged
      rw [h1]
      rfl
    have ih2 := ih (fun x hx => h x (List.mem_cons_of_mem _ hx))
    unfold eventStrings at ih2 ⊢
    rw [List.map_cons, List.filterMap_cons, hs]
    simp only [List.map_cons]
    rw [ih2]
    congr 1
    unfold eventTriple
    rw [schedule_type, schedule_action, schedule_localoffset _ _ _ _ (by exact h2)]

/-! ## Claims about the round trip -/

/-- The hours that `bsprint_eventstr` writes are those of GETHOURS, counted modulo
24 h: the entry `!49:59 POWEROFF` of the unit test is accepted and stages a ONCE event
with local offset 179940. Committed to an empty queue and written by `bsprint_eventstr`
it reads `!01:59 POWEROFF`, and parsing that text stages a ONCE event with local offset
7140. -/
theorem roundtrip_loses_days :
    (event_test_parse exampleLibc defaultCfg 1000 initialGlobals
      (some ["!49:59 POWEROFF".toList])).1 = 0 ∧
    (event_commit_test_schedule (event_test_parse exampleLibc defaultCfg 1000 initialGlobals
      (some ["!49:59 POWEROFF".toList])).2).g_heap
      = some [⟨180940, 179940, EVENT_TYPE_ONCE, EVENT_ACTION_POWEROFF, EVENT_SOURCE_PARSED⟩] ∧
    eventStrings [⟨180940, 179940, EVENT_TYPE_ONCE, EVENT_ACTION_POWEROFF, EVENT_SOURCE_PARSED⟩]
      = ["!01:59 POWEROFF".toList] ∧
    (event_test_parse exampleLibc defaultCfg 1000 initialGlobals
      (some ["!01:59 POWEROFF".toList])).1 = 0 ∧
    (staged (event_test_parse exampleLibc defaultCfg 1000 initialGlobals
      (some ["!01:59 POWEROFF".toList]))).map eventTriple
      = [(EVENT_TYPE_ONCE, 7140, EVENT_ACTION_POWEROFF)] := by
  refine ⟨by decide, by decide, by decide, by decide, by decide⟩

/-- C17, counterexample: with power control on and a power-up delay of 300 s the
schedule `05:00 RESUME` is accepted without errors and stages the RESUME event together
with a POWERON event at 04:55. Committed to an empty queue, the two events are written
by `bsprint_eventstr` as `04:55 POWERON` and `05:00 RESUME`; parsing these strings is
accepted without errors and stages three events, a second POWERON at 04:55 among them,
so the multiset of (type, local offset, action) is not that of the queued events. -/
theorem roundtrip_adds_poweron :
    (event_test_parse exampleLibc powerCfg 1000 initialGlobals
      (some ["05:00 RESUME".toList])).1 = 0 ∧
    (event_commit_test_schedule (event_test_parse exampleLibc powerCfg 1000 initialGlobals
      (some ["05:00 RESUME".toList])).2).g_heap
      = some [⟨17700, 17700, EVENT_TYPE_DAILY, EVENT_ACTION_POWERON, EVENT_SOURCE_PARSED⟩,
          ⟨18000, 18000, EVENT_TYPE_DAILY, EVENT_ACTION_RESUME, EVENT_SOURCE_PARSED⟩] ∧
    eventStrings [⟨17700, 17700, EVENT_TYPE_DAILY, EVENT_ACTION_POWERON, EVENT_SOURCE_PARSED⟩,
        ⟨18000, 18000, EVENT_TYPE_DAILY, EVENT_ACTION_RESUME, EVENT_SOURCE_PARSED⟩]
      = ["04:55 POWERON".toList, "05:00 RESUME".toList] ∧
    (event_test_parse exampleLibc powerCfg 1000 initialGlobals
      (some ["04:55 POWERON".toList, "05:00 RESUME".toList])).1 = 0 ∧
    (staged (event_test_parse exampleLibc powerCfg 1000 initialGlobals
      (some ["04:55 POWERON".toList, "05:00 RESUME".toList]))).map eventTriple
      = [(EVENT_TYPE_DAILY, 17700, EVENT_ACTION_POWERON),
         (EVENT_TYPE_DAILY, 17700, EVENT_ACTION_POWERON),
         (EVENT_TYPE_DAILY, 18000, EVENT_ACTION_RESUME)] ∧
    (((staged (event_test_parse exampleLibc powerCfg 1000 initialGlobals
        (some ["04:55 POWERON".toList, "05:00 RESUME".toList]))).map eventTriple
        : List (Int × Int × Int)) : Multiset (Int × Int × Int))
      ≠ (([⟨17700, 17700, EVENT_TYPE_DAILY, EVENT_ACTION_POWERON, EVENT_SOURCE_PARSED⟩,
          ⟨18000, 18000, EVENT_TYPE_DAILY, EVENT_ACTION_RESUME, EVENT_SOURCE_PARSED⟩].map
          eventTriple : List (Int × Int × Int)) : Multiset (Int × Int × Int)) := by
  refine ⟨by decide, by decide, by decide, by decide, by decide, by decide⟩

/-- C17, amended: let `event_test_parse` accept a schedule without errors, none of
whose numbers overflows the parser's `int` arithmetic, with power control off or a
zero power-up delay (no POWERON event is added) and every staged local offset below
24 h. After `event_commit_test_schedule` into an empty queue, the strings that
`bsprint_eventstr` writes for the queued events (taken in any order) are accepted
without errors again, and the events staged from them have the same multiset of
(type, local offset, action) as the queued events, which is that of the events staged
first. -/
theorem roundtrip_same_events (lib : libc_t) (cfg : cfg_t) (now now2 : Int)
    (st st2 : globals) (array : List (List Char)) (l : List event_t)
    (hfit : ∀ s ∈ array, s ≠ [] → numbersFit s = true)
    (h0 : (event_test_parse lib cfg now st (some array)).1 = 0)
    (hq : eventheap_size st.g_heap = 0)
    (hpc : ¬ (cfg.powercontrol ≠ 0 ∧ cfg.powerupdelay ≠ 0))
    (hday : ∀ e ∈ staged (event_test_parse lib cfg now st (some array)),
      e.localoffset < SECONDS_PER_DAY)
    (hl : (l : Multiset event_t) = heapEvents (event_commit_test_schedule
      (event_test_parse lib cfg now st (some array)).2).g_heap) :
    (event_test_parse lib cfg now2 st2 (some (eventStrings l))).1 = 0 ∧
    (((staged (event_test_parse lib cfg now2 st2 (some (eventStrings l)))).map eventTriple
        : List (Int × Int × Int)) : Multiset (Int × Int × Int))
      = ((l.map eventTriple : List (Int × Int × Int)) : Multiset (Int × Int × Int)) ∧
    ((l.map eventTriple : List (Int × Int × Int)) : Multiset (Int × Int × Int))
      = (((staged (event_test_parse lib cfg now st (some array))).map eventTriple
        : List (Int × Int × Int)) : Multiset (Int × Int × Int)) := by
  -- the first parse
  have hA : arrcollapse array ≠ [] := by
    intro hc
    rw [event_test_parse_empty lib cfg now st array hc] at h0
    simp at h0
  obtain ⟨e1, e2, _, e4⟩ := event_test_parse_eq lib cfg now st array hA
  have hz : discardedCount lib cfg now array = 0 := by
    rw [e1] at h0
    exact_mod_cast h0
  obtain ⟨_, hP⟩ := parse_fit lib cfg now array hfit
  have hst : staged (event_test_parse lib cfg now st (some array))
      = qsort (parsedEvents lib cfg now array) := by
    rw [e4 hz, if_neg hpc]
  -- the queue
  obtain ⟨hi, hev0⟩ := size_zero_facts st.g_heap hq
  obtain ⟨_, c2, _, _⟩ := commit_events (event_test_parse lib cfg now st (some array))
    (by rw [e2]; exact hi)
  have hlq : (l : Multiset event_t)
      = (staged (event_test_parse lib cfg now st (some array)) : Multiset event_t) := by
    rw [hl, c2, e2, hev0, zero_add]
  have hperm : l.Perm (staged (event_test_parse lib cfg now st (some array))) :=
    Multiset.coe_eq_coe.mp hlq
  have hpermP : l.Perm (parsedEvents lib cfg now array) := by
    rw [hst] at hperm
    exact hperm.trans (qsort_perm _)
  -- every queued event is written as an entry that reads as the same event
  have hev : ∀ e ∈ l, (bsprint_eventstr [] (some e) ≠ [] ∧
      numbersFit (bsprint_eventstr [] (some e)) = true ∧
      specEvent (bsprint_eventstr [] (some e)) = some (eventTriple e)) ∧
      0 ≤ e.localoffset := by
    intro e he
    have hd := hday e (hperm.mem_iff.mp he)
    have heP := hpermP.mem_iff.mp he
    rw [hP, List.mem_filterMap] at heP
    obtain ⟨s, _, hse⟩ := heP
    unfold specStaged at hse
    cases hsp : specEvent s with
    | none => rw [hsp] at hse; simp at hse
    | some t =>
      obtain ⟨ty, lo, act⟩ := t
      rw [hsp] at hse
      simp only [Option.some.injEq] at hse
      obtain ⟨f1, f2, f3, f4, f5⟩ := specEvent_facts s ty lo act hsp
      have g1 : e.type = ty := by rw [← hse, schedule_type]
      have g2 : e.action = act := by rw [← hse, schedule_action]
      have g3 : e.localoffset = lo := by rw [← hse, schedule_localoffset _ _ _ _ f2]
      unfold SECONDS_PER_DAY at hd
      exact ⟨eventstr_specEvent e (by rw [g1]; exact f1) (by omega) hd (by omega)
        (by omega) (by omega), by omega⟩
  have hlne : l ≠ [] := by
    intro hc
    have h1 := parsedEvents_length lib cfg now array
    rw [hz, ← hpermP.length_eq, hc] at h1
    simp only [List.length_nil, add_zero] at h1
    exact hA (List.length_eq_zero.mp h1.symm)
  -- the second parse
  have hmem2 : ∀ s ∈ eventStrings l, s ≠ [] ∧ numbersFit s = true ∧ specEvent s ≠ none := by
    intro s hs
    unfold eventStrings at hs
    obtain ⟨e, he, rfl⟩ := List.mem_map.mp hs
    obtain ⟨⟨a, b, c⟩, _⟩ := hev e he
    exact ⟨a, b, by rw [c]; simp⟩
  have hcol2 : arrcollapse (eventStrings l) = eventStrings l := by
    rw [arrcollapse_eq_filter, List.filter_eq_self]
    intro s hs
    simpa using (hmem2 s hs).1
  have hA2 : arrcollapse (eventStrings l) ≠ [] := by
    rw [hcol2]
    unfold eventStrings
    simpa using hlne
  obtain ⟨g1, _, _, g4⟩ := event_test_parse_eq lib cfg now2 st2 (eventStrings l) hA2
  obtain ⟨k1, k2⟩ := parse_fit lib cfg now2 (eventStrings l) (fun s hs _ => (hmem2 s hs).2.1)
  have hz2 : discardedCount lib cfg now2 (eventStrings l) = 0 := by
    rw [k1, hcol2, List.countP_eq_zero]
    intro s hs
    rw [malformed_iff_specEvent_none]
    exact (hmem2 s hs).2.2
  refine ⟨by rw [g1, hz2]; rfl, ?_, ?_⟩
  · rw [g4 hz2, if_neg hpc]
    apply Multiset.coe_eq_coe.mpr
    refine ((qsort_perm _).map eventTriple).trans ?_
    rw [k2, hcol2, reparse_triples lib cfg now2 l (fun e he => ⟨(hev e he).1.2.2, (hev e he).2⟩)]
  · exact Multiset.coe_eq_coe.mpr (hperm.map eventTriple)

/-- C17, instance: the schedule `03:20 SUSPEND`, `@09:30 IMPORTTMPFS`. -/
theorem roundtrip_same_events_witness :
    (event_test_parse exampleLibc defaultCfg 2000 initialGlobals
      (some (eventStrings [⟨12000, 12000, 1, 1, 2⟩, ⟨35200, 34200, 2, 5, 2⟩]))).1 = 0 ∧
    (((staged (event_test_parse exampleLibc defaultCfg 2000 initialGlobals
      (some (eventStrings [⟨12000, 12000, 1, 1, 2⟩, ⟨35200, 34200, 2, 5, 2⟩])))).map
        eventTriple : List (Int × Int × Int)) : Multiset (Int × Int × Int))
      = (([⟨12000, 12000, 1, 1, 2⟩, ⟨35200, 34200, 2, 5, 2⟩].map eventTriple
        : List (Int × Int × Int)) : Multiset (Int × Int × Int)) ∧
    eventStrings [⟨12000, 12000, 1, 1, 2⟩, ⟨35200, 34200, 2, 5, 2⟩]
      = ["03:20 SUSPEND".toList, "@09:30 IMPORTTMPFS".toList] :=
  ⟨(roundtrip_same_events exampleLibc defaultCfg 1000 2000 initialGlobals initialGlobals
      ["03:20 SUSPEND".toList, "@09:30 IMPORTTMPFS".toList]
      [⟨12000, 12000, 1, 1, 2⟩, ⟨35200, 34200, 2, 5, 2⟩]
      (by decide) (by decide) (by decide) (by decide) (by decide) (by decide)).1,
   (roundtrip_same_events exampleLibc defaultCfg 1000 2000 initialGlobals initialGlobals
      ["03:20 SUSPEND".toList, "@09:30 IMPORTTMPFS".toList]
      [⟨12000, 12000, 1, 1, 2⟩, ⟨35200, 34200, 2, 5, 2⟩]
      (by decide) (by decide) (by decide) (by decide) (by decide) (by decide)).2.1,
   by decide⟩

/-! ## The reload handler -/

theorem strdup_cases (choose : List cell → Nat) (h : cheap) (s : List Char) :
    (choose h.cells ∈ freedAddresses h.cells ∧ strdup choose h s =
      (choose h.cells, { h with cells := h.cells.set (choose h.cells - 1) (.live s) })) ∨
    strdup choose h s = (h.cells.length + 1, { h with cells := h.cells ++ [.live s] }) := by
  unfold strdup
  by_cases hc : choose h.cells ∈ freedAddresses h.cells
  · exact Or.inl ⟨hc, by rw [if_pos hc]⟩
  · exact Or.inr (by rw [if_neg hc])

/-! ## Claims about the reload handler -/

/-- C18, the code at the failing input, for every allocator: the live configuration has
neither ping hosts nor a schedule, the queue holds the INTERNAL event IMPORTTMPFS, and
the configuration file now reads `schedule = 04:10 SUSPEND`. `handle_SIGHUP` commits
the new configuration (`cfg.event.liststring` is then `04:10 SUSPEND`), without
undefined behaviour, and the queue holds the INTERNAL event and no PARSED event, while
`event_test_parse` of the new string stages one event. The queue is the same when the
live configuration has the default ping hosts. With the file reading `schedule = foo`,
which `event_test_parse` rejects with one error, the handler commits the new
configuration all the same. -/
theorem reload_ignores_new_schedule (choose : List cell → Nat) :
    (∃ s1, handle_SIGHUP
        (exampleEnv choose (.lines ⟨fun c => c, none, some (some "04:10 SUSPEND".toList), 0⟩))
        ⟨exampleConfig 0 0, ⟨[], false⟩, ⟨none, none, some [importEvent]⟩, exampleTimers⟩
        = some s1 ∧
      s1.heap.undefined = false ∧
      deref s1.heap s1.cfg.event_liststring = some "04:10 SUSPEND".toList ∧
      s1.globals.g_heap = some [importEvent]) ∧
    (event_test_parse exampleLibc (eventCfg (exampleConfig 0 0)) 1000 initialGlobals
      (str2arr (some "04:10 SUSPEND".toList))).1 = 0 ∧
    (staged (event_test_parse exampleLibc (eventCfg (exampleConfig 0 0)) 1000 initialGlobals
      (str2arr (some "04:10 SUSPEND".toList)))).map eventTriple
      = [(EVENT_TYPE_DAILY, 15000, EVENT_ACTION_SUSPEND)] ∧
    (∃ s2, handle_SIGHUP
        (exampleEnv choose (.lines ⟨fun c => c, none, some (some "04:10 SUSPEND".toList), 0⟩))
        ⟨exampleConfig 1 0, ⟨[.live CFG_DEFAULT_INET_PINGHOSTS], false⟩,
         ⟨none, none, some [importEvent]⟩, exampleTimers⟩
        = some s2 ∧
      s2.globals.g_heap = some [importEvent]) ∧
    (∃ s3, handle_SIGHUP
        (exampleEnv choose (.lines ⟨fun c => c, none, some (some "foo".toList), 0⟩))
        ⟨exampleConfig 0 0, ⟨[], false⟩, ⟨none, none, some [importEvent]⟩, exampleTimers⟩
        = some s3 ∧
      s3.heap.undefined = false ∧
      deref s3.heap s3.cfg.event_liststring = some "foo".toList) ∧
    (event_test_parse exampleLibc (eventCfg (exampleConfig 0 0)) 1000 initialGlobals
      (str2arr (some "foo".toList))).1 = 1 := by
  refine ⟨⟨_, rfl, ?_, ?_, ?_⟩, by decide, by decide, ⟨_, rfl, ?_⟩, ⟨_, rfl, ?_, ?_⟩,
    by decide⟩
  · rfl
  · rfl
  · rfl
  · rfl
  · rfl
  · rfl

/-- C19, the code at the failing input, for every allocator: the live configuration has
the default ping hosts and the schedule `03:20 SUSPEND`. When the configuration file
cannot be opened, and likewise when it is read but a check of `cfg_check` fails,
`handle_SIGHUP` returns with the struct `cfg`, the queue and the timers as they were and
without undefined behaviour so far, but the buffer that `cfg.event.liststring` points
to has been freed: the schedule string of the live configuration is gone. -/
theorem reload_failure_frees_live_schedule (choose : List cell → Nat) :
    deref ⟨[.live CFG_DEFAULT_INET_PINGHOSTS, .live "03:20 SUSPEND".toList], false⟩
      (exampleConfig 1 2).event_liststring = some "03:20 SUSPEND".toList ∧
    (∃ s1, handle_SIGHUP (exampleEnv choose .unreadable)
        ⟨exampleConfig 1 2,
         ⟨[.live CFG_DEFAULT_INET_PINGHOSTS, .live "03:20 SUSPEND".toList], false⟩,
         ⟨none, none, some [importEvent]⟩, exampleTimers⟩ = some s1 ∧
      s1.cfg = exampleConfig 1 2 ∧
      s1.globals = ⟨none, none, some [importEvent]⟩ ∧ s1.timers = exampleTimers ∧
      s1.heap.undefined = false ∧
      deref s1.heap s1.cfg.event_liststring = none) ∧
    (∃ s2, handle_SIGHUP
        { exampleEnv choose (.lines ⟨fun c => c, none, none, 0⟩) with
          check_files := fun _ => none }
        ⟨exampleConfig 1 2,
         ⟨[.live CFG_DEFAULT_INET_PINGHOSTS, .live "03:20 SUSPEND".toList], false⟩,
         ⟨none, none, some [importEvent]⟩, exampleTimers⟩ = some s2 ∧
      s2.cfg = exampleConfig 1 2 ∧
      s2.globals = ⟨none, none, some [importEvent]⟩ ∧ s2.timers = exampleTimers ∧
      s2.heap.undefined = false ∧
      deref s2.heap s2.cfg.event_liststring = none) := by
  have hfa : freedAddresses [cell.freed, cell.live "03:20 SUSPEND".toList] = [1] := by decide
  have e1 : handle_SIGHUP (exampleEnv choose .unreadable)
        ⟨exampleConfig 1 2,
         ⟨[.live CFG_DEFAULT_INET_PINGHOSTS, .live "03:20 SUSPEND".toList], false⟩,
         ⟨none, none, some [importEvent]⟩, exampleTimers⟩
      = some ⟨exampleConfig 1 2,
          cfg_free (exampleConfig 1 2)
            (exampleConfig (strdup choose ⟨[.freed, .live "03:20 SUSPEND".toList], false⟩
              CFG_DEFAULT_INET_PINGHOSTS).1 0)
            (free (strdup choose ⟨[.freed, .live "03:20 SUSPEND".toList], false⟩
              CFG_DEFAULT_INET_PINGHOSTS).2 2),
          ⟨none, none, some [importEvent]⟩, exampleTimers⟩ := rfl
  have e2 : handle_SIGHUP
        { exampleEnv choose (.lines ⟨fun c => c, none, none, 0⟩) with
          check_files := fun _ => none }
        ⟨exampleConfig 1 2,
         ⟨[.live CFG_DEFAULT_INET_PINGHOSTS, .live "03:20 SUSPEND".toList], false⟩,
         ⟨none, none, some [importEvent]⟩, exampleTimers⟩
      = some ⟨exampleConfig 1 2,
          free (strdup choose ⟨[.freed, .live "03:20 SUSPEND".toList], false⟩
              CFG_DEFAULT_INET_PINGHOSTS).2 2,
          ⟨none, none, some [importEvent]⟩, exampleTimers⟩ := rfl
  rw [e1, e2]
  refine ⟨by decide, ⟨_, rfl, rfl, rfl, rfl, ?_⟩, ⟨_, rfl, rfl, rfl, rfl, ?_⟩⟩
  · rcases strdup_cases choose ⟨[.freed, .live "03:20 SUSPEND".toList], false⟩
      CFG_DEFAULT_INET_PINGHOSTS with ⟨hm, hs⟩ | hs
    · have h1 : choose [cell.freed, cell.live "03:20 SUSPEND".toList] = 1 := by
        simp only at hm
        rw [hfa] at hm
        simpa using hm
      simp only [h1] at hs
      rw [hs]
      decide
    · rw [hs]
      decide
  · rcases strdup_cases choose ⟨[.freed, .live "03:20 SUSPEND".toList], false⟩
      CFG_DEFAULT_INET_PINGHOSTS with ⟨hm, hs⟩ | hs
    · have h1 : choose [cell.freed, cell.live "03:20 SUSPEND".toList] = 1 := by
        simp only at hm
        rw [hfa] at hm
        simpa using hm
      simp only [h1] at hs
      rw [hs]
      decide
    · rw [hs]
      decide

/-! ## The staging list and the error buffer -/

theorem event_test_parse_errors_invariant (lib : libc_t) (cfg : cfg_t) (now : Int)
    (st : globals) (array : Option (List (List Char)))
    (h : st.g_parsed = none → st.g_errors = none) :
    (event_test_parse lib cfg now st array).2.g_parsed = none →
    (event_test_parse lib cfg now st array).2.g_errors = none := by
  cases array with
  | none => exact h
  | some a =>
    by_cases hc : arrcollapse a = []
    · rw [event_test_parse_empty lib cfg now st a hc]; exact h
    · intro h1
      exfalso
      revert h1
      unfold event_test_parse
      simp only [if_neg hc]
      generalize (if st.g_parsed ≠ none then event_test_clear st else st) = st1
      generalize parse_loop lib cfg now (arrcollapse a) 0
        { errno := 0, parsed := [], n_discarded := 0, errors := st1.g_errors } = l
      split
      · simp
      · split <;> simp

/-! ## Claims about the timer values -/

theorem nanoseconds_icmp_prepare (t : Int) (h : 0 ≤ t) :
    nanoseconds (icmp_prepare t).it_value = t * 1000000 := by
  simp only [nanoseconds, icmp_prepare]
  rw [Int.tdiv_eq_ediv h (by norm_num), Int.tmod_eq_emod h (by norm_num)]
  omega

theorem nanoseconds_init_scrubber_struct (t : Int) (h : 0 ≤ t) :
    nanoseconds (init_scrubber_struct t).it_value = t / 1000 * 1000000000 + t % 1000 := by
  simp only [nanoseconds, init_scrubber_struct]
  rw [Int.tdiv_eq_ediv h (by norm_num), Int.tmod_eq_emod h (by norm_num)]

/-- C28, the code at the failing input: for the timeout of 200 ms `init_scrubber_struct`
sets a deadline of 200 nanoseconds, while `icmp_prepare` and the worker timeout of
`daemon_initialize` multiply the remainder by 1000000 (200 ms and 4800 ms are set
exactly). For every timeout of 200..5000 ms the deadline of the scrubber is
`t / 1000` seconds and `t % 1000` nanoseconds, which is `t` milliseconds only for
1000, 2000, 3000, 4000 and 5000. -/
theorem init_scrubber_struct_nanoseconds :
    init_scrubber_struct 200 = ⟨⟨0, 200⟩, ⟨0, 0⟩⟩ ∧
    nanoseconds (init_scrubber_struct 200).it_value = 200 ∧
    nanoseconds (icmp_prepare 200).it_value = 200 * 1000000 ∧
    nanoseconds worker_tspec.it_value = DAEMON_DATALOGGER_TIMEOUT * 1000000 ∧
    (∀ t : Int, 200 ≤ t → t ≤ 5000 →
      nanoseconds (init_scrubber_struct t).it_value = t / 1000 * 1000000000 + t % 1000 ∧
      nanoseconds (icmp_prepare t).it_value = t * 1000000 ∧
      (nanoseconds (init_scrubber_struct t).it_value = t * 1000000 ↔ t % 1000 = 0)) := by
  refine ⟨by decide, by decide, by decide, by decide, ?_⟩
  intro t h1 h2
  rw [nanoseconds_init_scrubber_struct t (by omega), nanoseconds_icmp_prepare t (by omega)]
  refine ⟨rfl, rfl, ?_⟩
  omega

/-! ## Claims about the commands and the start of the daemon -/

theorem main_commands_values (cfg : config_t) (i : initdb_calls) (w : writeconfig_calls)
    (d : Bool) :
    main_commands cfg i w d = none ∨ main_commands cfg i w d = some EXIT_SUCCESS ∨
    main_commands cfg i w d = some EXIT_FAILURE := by
  unfold main_commands
  simp only
  split_ifs <;> simp

/-- C21, the code at the failing input: `-createdb` with a database file that exists and
can be read and written, the user answering the prompt with no. `cmd_initdb` returns
EXIT_CANCELLED (2) and `main` ends the process with EXIT_FAILURE (1); likewise for
`-writeconfig`. No run of the commands ends with status 2: the status is 1 or 0 (a run
in which every command succeeds ends with 0). -/
theorem main_commands_cancelled :
    cmd_initdb ⟨0, 0, 0, 0, 0, 0, 0⟩ = EXIT_CANCELLED ∧
    (∀ w d, main_commands { exampleConfig 0 0 with cmd_createdatabase := 1 }
      ⟨0, 0, 0, 0, 0, 0, 0⟩ w d = some EXIT_FAILURE) ∧
    cmd_writeconfig ⟨0, 0, 0, 0, 0⟩ = EXIT_CANCELLED ∧
    (∀ i d, main_commands { exampleConfig 0 0 with cmd_createconfigfile := 1 }
      i ⟨0, 0, 0, 0, 0⟩ d = some EXIT_FAILURE) ∧
    (∀ cfg i w d, main_commands cfg i w d ≠ some EXIT_CANCELLED) ∧
    main_commands { exampleConfig 0 0 with cmd_createdatabase := 1 }
      ⟨0, 0, 1, 0, 0, 0, 0⟩ ⟨0, 0, 0, 0, 0⟩ true = some EXIT_SUCCESS ∧
    main_commands { exampleConfig 0 0 with cmd_createdatabase := 1 }
      ⟨0, 0, 1, 1, 0, 0, 0⟩ ⟨0, 0, 0, 0, 0⟩ true = some EXIT_FAILURE := by
  refine ⟨by decide, fun w d => rfl, by decide, ?_, ?_, by decide, by decide⟩
  · intro i d
    unfold main_commands
    simp only [exampleConfig]
    split_ifs <;> first | rfl | simp_all [cmd_writeconfig, EXIT_CANCELLED, EXIT_FAILURE, EXIT_SUCCESS]
  · intro cfg i w d h
    rcases main_commands_values cfg i w d with h1 | h1 | h1 <;> rw [h1] at h <;>
      simp [EXIT_SUCCESS, EXIT_FAILURE, EXIT_CANCELLED] at h

theorem event_create_interval (lib : libc_t) (cfg : cfg_t) (now now2 : Int) (st : globals)
    (action seconds : Int) (h1 : 1 ≤ action) (h2 : action ≤ 7) (h3 : 1 ≤ seconds)
    (ht : (event_action.getD action.toNat ⟨[], 0⟩).default_type ≠ EVENT_TYPE_DAILY) :
    event_create lib cfg now now2 st action seconds =
      if now + seconds < now2 then .exited
      else .returned (now + seconds)
        { st with g_heap := eventheap_insert st.g_heap ⟨now + seconds, seconds,
            (event_action.getD action.toNat ⟨[], 0⟩).default_type, action,
            EVENT_SOURCE_INTERNAL⟩ } := by
  unfold event_create
  rw [if_neg (by simp only [EVENT_ACTION_MAXVALUE, EVENT_ACTION_WATCHDOG]; omega)]
  simp only [__schedule_next_trigger, __update_today]
  rw [if_neg ht]
  simp

theorem strdup_address (choose : List cell → Nat) (h : cheap) (s : List Char) :
    (strdup choose h s).1 ≠ 0 := by
  rcases strdup_cases choose h s with ⟨hc, e⟩ | e
  · rw [e]
    simp only [freedAddresses, List.mem_filterMap] at hc
    obtain ⟨i, _, hi⟩ := hc
    split at hi
    · simp only [Option.some.injEq] at hi
      show choose h.cells ≠ 0
      omega
    · simp at hi
  · rw [e]
    simp

/-- C24, the code at the failing input, for every allocator: `cfg.execute.tmpfs` is TRUE,
the mount, the two changes of the effective user and `database_initialize` succeed, the
clock is at 1000. `predaemon_initialize` puts the INTERNAL INTERVAL event IMPORTTMPFS
(600 s, due at 1600) into the queue and returns EXIT_FAILURE, because `event_create`
returns the trigger time 1600, which the caller takes for a failure. With a clock that
is not negative, no call with `cfg.execute.tmpfs` TRUE returns EXIT_SUCCESS. -/
theorem predaemon_initialize_tmpfs (choose : List cell → Nat) :
    predaemon_initialize (examplePredaemon choose)
      { exampleConfig 0 0 with execute_tmpfs := 1 } ⟨[], false⟩ initialGlobals
      = .returned EXIT_FAILURE
          { exampleConfig 0 0 with execute_tmpfs := 1, database_tmpfsfilename := 1 }
          ⟨[.live DAEMON_TMPFS_DATABASEFILE], false⟩ ⟨none, none, some [importEvent]⟩ ∧
    event_create exampleLibc (eventCfg (exampleConfig 0 0)) 1000 1000 initialGlobals
      EVENT_ACTION_IMPORTTMPFS DAEMON_IMPORTTMPFS_INTERVAL
      = .returned 1600 ⟨none, none, some [importEvent]⟩ ∧
    (∀ (env : predaemon_env) (cfg : config_t) (h : cheap) (st : globals),
      cfg.execute_tmpfs = 1 → 0 ≤ env.now →
      ∀ c h1 st1, predaemon_initialize env cfg h st ≠ .returned EXIT_SUCCESS c h1 st1) := by
  refine ⟨rfl, by decide, ?_⟩
  intro env cfg h st ht hn c h1 st1
  unfold predaemon_initialize predaemon_auto
  rw [if_neg (by omega)]
  simp only [ht, if_true]
  rw [event_create_interval _ _ _ _ _ _ _ (by decide) (by decide) (by decide) (by decide)]
  have h600 : ¬ (env.now + DAEMON_IMPORTTMPFS_INTERVAL = 0) := by
    simp only [DAEMON_IMPORTTMPFS_INTERVAL]; omega
  split_ifs <;> simp_all [EXIT_SUCCESS, EXIT_FAILURE]
/-! ## Claims about `event_create` -/

/-- C25, counterexample: with valid arguments (WATCHDOG, 1 second) and the clock
read as 1000 in `__update_today` and as 1002 afterwards, `event_create` neither returns
-1 nor inserts an event: the process exits. -/
theorem event_create_exits :
    event_create exampleLibc defaultCfg 1000 1002 initialGlobals EVENT_ACTION_WATCHDOG 1
      = .exited := by
  decide

/-- C25, amended: with a second clock reading `now2` that is not negative,
`event_create` returns -1 with the queue unchanged if and only if `action < 1`,
`action > 7` or `seconds < 1`. Otherwise the new event `e` has the source INTERNAL, the
given action, the default type of the action and the local offset `seconds`, and its
trigger time is `now + seconds` when the type is INTERVAL or ONCE; if that trigger time
is before `now2` the process exits, and if not, the function returns the trigger time,
which is not negative, and the queue holds `e` in addition to what it held. -/
theorem event_create_outcomes (lib : libc_t) (cfg : cfg_t) (now now2 : Int) (st : globals)
    (action seconds : Int) (hinv : heapInvariant st.g_heap) (h0 : 0 ≤ now2) :
    (event_create lib cfg now now2 st action seconds = .returned (-1) st ↔
      (action < 1 ∨ action > EVENT_ACTION_MAXVALUE ∨ seconds < 1)) ∧
    (¬ (action < 1 ∨ action > EVENT_ACTION_MAXVALUE ∨ seconds < 1) →
      ∃ e : event_t,
        e.source = EVENT_SOURCE_INTERNAL ∧ e.action = action ∧
        e.type = (event_action.getD action.toNat ⟨[], 0⟩).default_type ∧
        e.localoffset = seconds ∧
        (e.type = EVENT_TYPE_INTERVAL ∨ e.type = EVENT_TYPE_ONCE →
          e.next_trigger = now + seconds) ∧
        (e.next_trigger < now2 → event_create lib cfg now now2 st action seconds = .exited) ∧
        (now2 ≤ e.next_trigger →
          0 ≤ e.next_trigger ∧
          event_create lib cfg now now2 st action seconds
            = .returned e.next_trigger { st with g_heap := eventheap_insert st.g_heap e } ∧
          heapEvents (eventheap_insert st.g_heap e) = e ::ₘ heapEvents st.g_heap ∧
          eventheap_size (eventheap_insert st.g_heap e) = eventheap_size st.g_heap + 1)) := by
  have key : ¬ (action < 1 ∨ action > EVENT_ACTION_MAXVALUE ∨ seconds < 1) →
      event_create lib cfg now now2 st action seconds =
        if (__schedule_next_trigger lib cfg now
            ⟨0, seconds, (event_action.getD action.toNat ⟨[], 0⟩).default_type, action,
              EVENT_SOURCE_INTERNAL⟩).next_trigger < now2 then .exited
        else .returned (__schedule_next_trigger lib cfg now
            ⟨0, seconds, (event_action.getD action.toNat ⟨[], 0⟩).default_type, action,
              EVENT_SOURCE_INTERNAL⟩).next_trigger
          { st with g_heap := eventheap_insert st.g_heap (__schedule_next_trigger lib cfg now
            ⟨0, seconds, (event_action.getD action.toNat ⟨[], 0⟩).default_type, action,
              EVENT_SOURCE_INTERNAL⟩) } := by
    intro hv
    unfold event_create
    rw [if_neg (by omega)]
  constructor
  · constructor
    · intro h
      by_contra hv
      rw [key hv] at h
      split at h
      · simp at h
      · simp only [create_result.returned.injEq] at h
        omega
    · intro hv
      unfold event_create
      rw [if_pos (by omega)]
  · intro hv
    refine ⟨__schedule_next_trigger lib cfg now
      ⟨0, seconds, (event_action.getD action.toNat ⟨[], 0⟩).default_type, action,
        EVENT_SOURCE_INTERNAL⟩, ?_, ?_, ?_, ?_, ?_, ?_, ?_⟩
    · rw [schedule_source]
    · rw [schedule_action]
    · rw [schedule_type]
    · rw [schedule_localoffset]
      simp only; omega
    · rw [schedule_type]
      intro ht
      simp only [__schedule_next_trigger, __update_today]
      rw [if_neg (by
        simp only [EVENT_TYPE_INTERVAL, EVENT_TYPE_ONCE, EVENT_TYPE_DAILY] at ht ⊢
        omega)]
      simp
    · intro hlt
      rw [key hv, if_pos hlt]
    · intro hge
      refine ⟨by omega, ?_, (eventheap_insert_spec _ _ hinv).2.2, (eventheap_insert_spec _ _ hinv).2.1⟩
      rw [key hv, if_neg (by omega)]

/-- C25, instance: WATCHDOG every three hours, made at clock 1000. -/
theorem event_create_outcomes_witness :
    (event_create exampleLibc defaultCfg 1000 1000 initialGlobals EVENT_ACTION_WATCHDOG 10800
        = .returned (-1) initialGlobals ↔
      (EVENT_ACTION_WATCHDOG < 1 ∨ EVENT_ACTION_WATCHDOG > EVENT_ACTION_MAXVALUE ∨
        (10800 : Int) < 1)) ∧
    event_create exampleLibc defaultCfg 1000 1000 initialGlobals EVENT_ACTION_WATCHDOG 10800
      = .returned 11800 ⟨none, none,
          some [⟨11800, 10800, EVENT_TYPE_INTERVAL, EVENT_ACTION_WATCHDOG,
            EVENT_SOURCE_INTERNAL⟩]⟩ :=
  ⟨(event_create_outcomes exampleLibc defaultCfg 1000 1000 initialGlobals
      EVENT_ACTION_WATCHDOG 10800 (by decide) (by decide)).1, by decide⟩

/-! ## Claims about the order of the blocks in one wake -/

/-- C26, counterexample: the interval timer and the worker timeout are both
ready and the worker 4711 is still recorded. The block of the interval timer runs
first (the tick is counted and skipped), and `kill(4711, SIGKILL)` is the last call of
the wake. -/
theorem wake_tick_before_kill :
    wake ⟨5, 3, 2, 4711, true, 0, 0⟩ true true 4712 0
      = .parent ⟨6, 3, 2, 4711, false, 0, 0⟩
          [.acknowledge_interval, .acknowledge_worker, .disarm_worker, .kill 4711] := by
  decide

/-- C26, amended: when the interval timer and the worker timeout are both ready in a
wake and a worker is still recorded, the interval tick is processed first: it is
counted, no worker is forked, and the recorded worker is kept. Only then the worker
timeout is served: its timer is disarmed and the kill signal is sent to the recorded
worker (the daemon exits if `kill` fails). -/
theorem wake_interval_before_worker (s : daemon_state) (fork kill : Int)
    (hw : s.worker_pid ≠ 0) :
    ∃ s1, interval_tick s fork = .parent s1 ∧
      s1.n_interval_ticks = toInt32 (s.n_interval_ticks + 1) ∧
      s1.n_datalog_actions = s.n_datalog_actions ∧
      s1.worker_pid = s.worker_pid ∧
      interval_tick_calls s fork = [.acknowledge_interval] ∧
      (kill = 0 → wake s true true fork kill
        = .parent { s1 with worker_armed := false }
            [.acknowledge_interval, .acknowledge_worker, .disarm_worker,
              .kill s.worker_pid]) ∧
      (kill ≠ 0 → wake s true true fork kill
        = .exited [.acknowledge_interval, .acknowledge_worker, .disarm_worker,
              .kill s.worker_pid]) := by
  have h1 : interval_tick s fork
      = .parent { s with n_interval_ticks := toInt32 (s.n_interval_ticks + 1) } := by
    unfold interval_tick
    simp only
    split_ifs <;> rfl
  have h2 : interval_tick_calls s fork = [.acknowledge_interval] := by
    unfold interval_tick_calls
    split_ifs <;> rfl
  refine ⟨_, h1, rfl, rfl, rfl, h2, ?_, ?_⟩
  · intro hk
    unfold wake
    simp only [if_true, h1, h2, worker_timeout]
    rw [if_neg (by simpa using hk)]
    rfl
  · intro hk
    unfold wake
    simp only [if_true, h1, h2, worker_timeout]
    rw [if_pos hk]
    rfl

/-- C26, instance: tick 6 arrives together with the timeout of the worker 4711. -/
theorem wake_interval_before_worker_witness :
    ∃ s1, interval_tick ⟨5, 3, 2, 4711, true, 0, 0⟩ 4712 = .parent s1 ∧
      s1.n_interval_ticks = toInt32 ((5 : Int) + 1) ∧
      s1.n_datalog_actions = 3 ∧
      s1.worker_pid = 4711 ∧
      interval_tick_calls ⟨5, 3, 2, 4711, true, 0, 0⟩ 4712 = [.acknowledge_interval] ∧
      ((0 : Int) = 0 → wake ⟨5, 3, 2, 4711, true, 0, 0⟩ true true 4712 0
        = .parent { s1 with worker_armed := false }
            [.acknowledge_interval, .acknowledge_worker, .disarm_worker, .kill 4711]) ∧
      ((0 : Int) ≠ 0 → wake ⟨5, 3, 2, 4711, true, 0, 0⟩ true true 4712 0
        = .exited [.acknowledge_interval, .acknowledge_worker, .disarm_worker,
              .kill 4711]) :=
  wake_interval_before_worker ⟨5, 3, 2, 4711, true, 0, 0⟩ 4712 0 (by decide)

/-! ## Claims about the ramdisk setting of the live configuration -/

/-- C30, the code at the failing input, for every allocator: the live configuration has
`execute.tmpfs` FALSE (the invariant holds), and SIGHUP arrives while the default
configuration file does not exist (the same happens with a file that has no line
`ramdisk`, and with the line `ramdisk = TRUE`). `handle_SIGHUP` commits the new
configuration without undefined behaviour; in it `execute.tmpfs` is AUTO (2), resp.
TRUE (1), and `database.tmpfsfilename` is NULL, so that the insert target of
`datalogger` is NULL. At the entry of the main loop the invariant holds: when
`predaemon_initialize` returns EXIT_SUCCESS for a configuration whose
`execute.tmpfs` is FALSE, TRUE or AUTO, then `execute.tmpfs` is FALSE or
`database.tmpfsfilename` is not NULL. -/
theorem reload_breaks_tmpfs_invariant (choose : List cell → Nat) :
    (exampleConfig 0 0).execute_tmpfs = 0 ∧
    (∃ s1, handle_SIGHUP (exampleEnv choose .absent)
        ⟨exampleConfig 0 0, ⟨[], false⟩, ⟨none, none, none⟩, exampleTimers⟩ = some s1 ∧
      s1.heap.undefined = false ∧
      s1.cfg.execute_tmpfs = 2 ∧ s1.cfg.database_tmpfsfilename = 0 ∧
      datalogger_datafile s1.cfg s1.heap = none) ∧
    (∃ s2, handle_SIGHUP (exampleEnv choose (.lines ⟨fun c => c, none, none, 0⟩))
        ⟨exampleConfig 0 0, ⟨[], false⟩, ⟨none, none, none⟩, exampleTimers⟩ = some s2 ∧
      s2.heap.undefined = false ∧
      s2.cfg.execute_tmpfs = 2 ∧ s2.cfg.database_tmpfsfilename = 0 ∧
      datalogger_datafile s2.cfg s2.heap = none) ∧
    (∃ s3, handle_SIGHUP
        (exampleEnv choose (.lines ⟨fun c => { c with execute_tmpfs := 1 }, none, none, 0⟩))
        ⟨exampleConfig 0 0, ⟨[], false⟩, ⟨none, none, none⟩, exampleTimers⟩ = some s3 ∧
      s3.heap.undefined = false ∧
      s3.cfg.execute_tmpfs = 1 ∧ s3.cfg.database_tmpfsfilename = 0 ∧
      datalogger_datafile s3.cfg s3.heap = none) ∧
    (∀ (env : predaemon_env) (cfg : config_t) (h : cheap) (st : globals) c h1 st1,
      (cfg.execute_tmpfs = 0 ∨ cfg.execute_tmpfs = 1 ∨ cfg.execute_tmpfs = 2) →
      predaemon_initialize env cfg h st = .returned EXIT_SUCCESS c h1 st1 →
      c.execute_tmpfs = 0 ∨ c.database_tmpfsfilename ≠ 0) := by
  refine ⟨rfl, ⟨_, rfl, rfl, rfl, rfl, rfl⟩, ⟨_, rfl, rfl, rfl, rfl, rfl⟩,
    ⟨_, rfl, rfl, rfl, rfl, rfl⟩, ?_⟩
  intro env cfg h st c h1 st1 ht hr
  unfold predaemon_initialize at hr
  have hs := strdup_address env.choose h DAEMON_TMPFS_DATABASEFILE
  split at hr
  · simp [EXIT_SUCCESS, EXIT_FAILURE] at hr
  · rename_i tmpfs hauto
    have htm : tmpfs = 0 ∨ tmpfs = 1 := by
      unfold predaemon_auto at hauto
      split at hauto
      · split at hauto
        · simp at hauto
        · split at hauto <;> simp at hauto <;> omega
      · simp at hauto
        omega
    simp only at hr
    split at hr
    · split at hr
      · simp [EXIT_SUCCESS, EXIT_FAILURE] at hr
      · split at hr
        · simp [EXIT_SUCCESS, EXIT_FAILURE] at hr
        · split at hr
          · simp [EXIT_SUCCESS, EXIT_FAILURE] at hr
          · split at hr
            · simp [EXIT_SUCCESS, EXIT_FAILURE] at hr
            · split at hr
              · simp at hr
              · split at hr
                · simp [EXIT_SUCCESS, EXIT_FAILURE] at hr
                · simp only [predaemon_result.returned.injEq] at hr
                  right
                  rw [← hr.2.1]
                  exact hs
    · simp only [predaemon_result.returned.injEq] at hr
      left
      rw [← hr.2.1]
      simp only
      rcases htm with h0 | h0
      · exact h0
      · rename_i hne
        exact absurd h0 hne

/-! ## keyval.c: trimming -/

theorem getD_append_cons (a t : List Char) (x d : Char) :
    (a ++ x :: t).getD a.length d = x := by
  rw [List.getD_eq_getElem?_getD, List.getElem?_append_right (le_refl _)]
  simp

theorem trimcpy_end_stop (a t : List Char) (x : Char) (begin : Nat)
    (hx : isspace x = false) :
    trimcpy_end (a ++ x :: t) begin (a.length + 1) = a.length + 1 := by
  rw [trimcpy_end, getD_append_cons, hx]
  simp

theorem trimcpy_end_begin (src : List Char) (begin n : Nat) (h : n ≤ begin + 1) :
    trimcpy_end src begin n = n := by
  cases n with
  | zero => rfl
  | succ e =>
    rw [trimcpy_end, if_neg]
    intro hc
    omega

theorem trimcpy_end_spaces (a r t : List Char) (begin : Nat) (hb : begin < a.length)
    (hr : ∀ c ∈ r, isspace c = true) :
    trimcpy_end (a ++ r ++ t) begin (a.length + r.length) =
      trimcpy_end (a ++ r ++ t) begin a.length := by
  induction r using List.reverseRecOn generalizing t with
  | nil => simp
  | append_singleton r x ih =>
    have hx : isspace x = true := hr x (by simp)
    have e1 : a ++ (r ++ [x]) ++ t = (a ++ r) ++ x :: t := by simp
    have e2 : a.length + (r ++ [x]).length = (a ++ r).length + 1 := by simp; omega
    rw [e1, e2, trimcpy_end, getD_append_cons, hx, if_pos]
    · have e3 : (a ++ r) ++ x :: t = a ++ r ++ (x :: t) := by simp
      rw [e3, List.length_append]
      exact ih (x :: t) (fun c hc => hr c (by simp [hc]))
    · constructor
      · simp only [List.length_append]; omega
      · rfl

theorem trimSpace_decomp (s : List Char) :
    ∃ l r, s = l ++ trimSpace s ++ r ∧ (∀ c ∈ l, isspace c = true) ∧
      (∀ c ∈ r, isspace c = true) ∧
      (∀ c ∈ (trimSpace s).head?, isspace c = false) ∧
      (∀ c ∈ (trimSpace s).getLast?, isspace c = false) := by
  have hX : (s.dropWhile isspace) = trimSpace s ++
      ((s.dropWhile isspace).reverse.takeWhile isspace).reverse := by
    have := List.takeWhile_append_dropWhile isspace (s.dropWhile isspace).reverse
    have h2 := congrArg List.reverse this
    rw [List.reverse_append, List.reverse_reverse] at h2
    exact h2.symm
  refine ⟨s.takeWhile isspace, ((s.dropWhile isspace).reverse.takeWhile isspace).reverse,
    ?_, ?_, ?_, ?_, ?_⟩
  · rw [List.append_assoc, ← hX, List.takeWhile_append_dropWhile]
  · intro c hc
    exact List.mem_takeWhile_imp hc
  · intro c hc
    exact List.mem_takeWhile_imp (List.mem_reverse.1 hc)
  · intro c hc
    have h1 := List.head?_dropWhile_not isspace s
    cases hm : trimSpace s with
    | nil => rw [hm] at hc; simp at hc
    | cons m ms =>
      rw [hm] at hc hX
      simp only [List.head?_cons, Option.mem_def, Option.some.injEq] at hc
      rw [hX] at h1
      simp only [List.cons_append, List.head?_cons] at h1
      rw [← hc]
      simpa using h1
  · intro c hc
    have h1 := List.head?_dropWhile_not isspace (s.dropWhile isspace).reverse
    unfold trimSpace at hc
    rw [List.getLast?_reverse] at hc
    rw [Option.mem_def] at hc
    rw [hc] at h1
    simpa using h1

theorem trimcpy_eq (s t : List Char) (ht : ∀ c ∈ t.head?, isspace c = false) :
    __trimcpy (s ++ t) s.length = trimSpace s := by
  obtain ⟨l, r, hs, hl, hr, hh, hlast⟩ := trimSpace_decomp s
  have htw : t.takeWhile isspace = [] := by
    cases t with
    | nil => rfl
    | cons c t =>
      have := ht c (by simp)
      simp [List.takeWhile, this]
  cases hm : trimSpace s with
  | nil =>
    rw [hm] at hs
    simp only [List.append_nil] at hs
    have hall : ∀ c ∈ s, isspace c = true := by
      intro c hc
      rw [hs] at hc
      rcases List.mem_append.1 hc with h | h
      · exact hl c h
      · exact hr c h
    have hb : ((s ++ t).takeWhile isspace).length = s.length := by
      rw [List.takeWhile_append_of_pos hall, htw]
      simp
    unfold __trimcpy
    simp only [hb]
    split
    · rfl
    · rw [trimcpy_end_begin _ _ _ (by omega)]
      simp
  | cons m ms =>
    rw [hm] at hs hh hlast
    have hm0 : isspace m = false := hh m (by simp)
    have hb : ((s ++ t).takeWhile isspace) = l := by
      rw [hs]
      simp only [List.append_assoc, List.cons_append]
      rw [List.takeWhile_append_of_pos hl]
      simp [List.takeWhile, hm0]
    unfold __trimcpy
    simp only [hb]
    rw [if_neg (by rw [hs]; simp)]
    -- the last character of m :: ms
    obtain ⟨ms1, x, hx⟩ : ∃ ms1 x, m :: ms = ms1 ++ [x] :=
      ⟨(m :: ms).dropLast, (m :: ms).getLast (by simp),
        (List.dropLast_append_getLast (by simp)).symm⟩
    have hx0 : isspace x = false := by
      apply hlast
      rw [hx]
      simp
    have hsrc : s ++ t = (l ++ ms1 ++ [x]) ++ r ++ t := by
      rw [hs, hx]; simp
    have hlen : s.length = (l ++ ms1 ++ [x]).length + r.length := by
      rw [hs, hx]; simp; omega
    have he : trimcpy_end (s ++ t) l.length s.length = (l ++ ms1).length + 1 := by
      rw [hsrc, hlen, trimcpy_end_spaces _ _ _ _ (by simp) hr]
      have e1 : l ++ ms1 ++ [x] ++ r ++ t = (l ++ ms1) ++ x :: (r ++ t) := by simp
      have e2 : (l ++ ms1 ++ [x]).length = (l ++ ms1).length + 1 := by simp; omega
      rw [e1, e2]
      exact trimcpy_end_stop _ _ _ _ hx0
    rw [he, hs]
    have e5 : (l ++ ms1).length + 1 - l.length = (m :: ms).length := by
      rw [hx]; simp; omega
    rw [e5]
    simp

theorem trimcpy_eq_end (s : List Char) : __trimcpy s s.length = trimSpace s := by
  have := trimcpy_eq s [] (by simp)
  simpa using this

theorem trimSpace_of_ends (s : List Char) (h1 : ∀ c ∈ s.head?, isspace c = false)
    (h2 : ∀ c ∈ s.getLast?, isspace c = false) : trimSpace s = s := by
  unfold trimSpace
  have e1 : s.dropWhile isspace = s := by
    cases s with
    | nil => rfl
    | cons c s =>
      have := h1 c (by simp)
      simp [List.dropWhile, this]
  rw [e1]
  have e2 : s.reverse.dropWhile isspace = s.reverse := by
    cases hr : s.reverse with
    | nil => rfl
    | cons c r =>
      have : isspace c = false := by
        apply h2
        have := congrArg List.head? hr
        rw [List.head?_reverse] at this
        simpa using this
      simp [List.dropWhile, this]
  rw [e2, List.reverse_reverse]

/-! ## keyval.c: lines without comment and escape characters -/

theorem remove_comments_plain (s : List Char) (h1 : '#' ∉ s) (h2 : '\\' ∉ s) :
    remove_comments_loop s false = s := by
  induction s with
  | nil => rfl
  | cons c s ih =>
    simp only [List.mem_cons, not_or] at h1 h2
    rw [remove_comments_loop, if_neg (by simp [Ne.symm h2.1]), if_neg (by simp [Ne.symm h1.1]),
      ih h1.2 h2.2]

theorem sanitize_plain (s : List Char) (h2 : '\\' ∉ s) : sanitize_loop s false = s := by
  induction s with
  | nil => rfl
  | cons c s ih =>
    simp only [List.mem_cons, not_or] at h2
    rw [sanitize_loop, if_neg (by simp [Ne.symm h2.1]), if_neg (by simp), ih h2.2]

theorem equalsign_plain (s : List Char) (i d e : Nat) (h1 : '#' ∉ s) (h2 : '\\' ∉ s)
    (h3 : '=' ∉ s) : getkeyval_equalsign s i false d e = (d, e) := by
  induction s generalizing i with
  | nil => rfl
  | cons c s ih =>
    simp only [List.mem_cons, not_or] at h1 h2 h3
    rw [getkeyval_equalsign, if_neg (by simp [Ne.symm h2.1]), if_neg (by simp [Ne.symm h1.1]),
      if_neg (by simp [Ne.symm h3.1]), ih _ h1.2 h2.2 h3.2]

theorem equalsign_plain_append (k rest : List Char) (i d e : Nat) (h1 : '#' ∉ k)
    (h2 : '\\' ∉ k) (h3 : '=' ∉ k) :
    getkeyval_equalsign (k ++ rest) i false d e =
      getkeyval_equalsign rest (i + k.length) false d e := by
  induction k generalizing i with
  | nil => rfl
  | cons c s ih =>
    simp only [List.mem_cons, not_or] at h1 h2 h3
    rw [List.cons_append, getkeyval_equalsign, if_neg (by simp [Ne.symm h2.1]),
      if_neg (by simp [Ne.symm h1.1]), if_neg (by simp [Ne.symm h3.1]), ih _ h1.2 h2.2 h3.2]
    congr 1
    simp only [List.length_cons]
    omega

theorem splitDelim_ne_nil (s : List Char) : splitDelim s ≠ [] := by
  induction s with
  | nil => simp [splitDelim]
  | cons c s ih =>
    rw [splitDelim]
    split
    · simp
    · split <;> simp

theorem splitDelim_cons (c : Char) (s : List Char) (hc : isdelim c = false) :
    splitDelim (c :: s) = (c :: (splitDelim s).headD []) :: (splitDelim s).tail := by
  rw [splitDelim, if_neg (by simp [hc])]
  cases h : splitDelim s with
  | nil => exact absurd h (splitDelim_ne_nil s)
  | cons p ps => rfl

theorem isspace_of_delim (c : Char) (h : isdelim c = true) : isspace c = false := by
  simp only [isdelim, Bool.or_eq_true, decide_eq_true_eq] at h
  rcases h with h | h <;> rw [h] <;> decide

theorem values_plain (pre rest : List Char) (h2 : '\\' ∉ rest) :
    getkeyval_values rest (pre ++ rest) pre.length false =
      trimSpace (pre ++ (splitDelim rest).headD []) ::
        (splitDelim rest).tail.map trimSpace := by
  induction rest generalizing pre with
  | nil =>
    rw [getkeyval_values]
    simp only [List.append_nil, if_true]
    rw [trimcpy_eq_end]
    simp [splitDelim]
  | cons c rest ih =>
    simp only [List.mem_cons, not_or] at h2
    rw [getkeyval_values, if_neg (by simp [Ne.symm h2.1])]
    by_cases hc : isdelim c = true
    · rw [if_pos ⟨hc, rfl⟩]
      rw [trimcpy_eq pre (c :: rest) (by
        intro x hx
        simp only [List.head?_cons, Option.mem_def, Option.some.injEq] at hx
        rw [← hx]
        exact isspace_of_delim c hc)]
      have := ih [] h2.2
      simp only [List.nil_append, List.length_nil] at this
      rw [this, splitDelim, if_pos hc]
      simp only [List.headD_cons, List.append_nil, List.tail_cons]
      congr 1
      cases h : splitDelim rest with
      | nil => exact absurd h (splitDelim_ne_nil rest)
      | cons p ps => simp
    · rw [if_neg (by simp [hc])]
      have := ih (pre ++ [c]) h2.2
      simp only [List.append_assoc, List.singleton_append, List.length_append,
        List.length_singleton] at this
      rw [this, splitDelim_cons c rest (by simpa using hc)]
      simp

theorem splitDelim_length (s : List Char) :
    (splitDelim s).length = s.countP isdelim + 1 := by
  induction s with
  | nil => rfl
  | cons c s ih =>
    by_cases hc : isdelim c = true
    · rw [splitDelim, if_pos hc, List.countP_cons_of_pos _ _ hc, List.length_cons, ih]
    · rw [splitDelim_cons c s (by simpa using hc), List.countP_cons_of_neg _ _ hc,
        List.length_cons, List.length_tail, ih]
      omega

theorem splitDelim_mem (s p : List Char) (hp : p ∈ splitDelim s) : ∀ c ∈ p, c ∈ s := by
  induction s generalizing p with
  | nil =>
    simp only [splitDelim, List.mem_singleton] at hp
    rw [hp]
    simp
  | cons x s ih =>
    by_cases hx : isdelim x = true
    · rw [splitDelim, if_pos hx] at hp
      rcases List.mem_cons.1 hp with h | h
      · rw [h]; simp
      · intro c hc
        exact List.mem_cons_of_mem _ (ih p h c hc)
    · rw [splitDelim_cons x s (by simpa using hx)] at hp
      rcases List.mem_cons.1 hp with h | h
      · intro c hc
        rw [h] at hc
        rcases List.mem_cons.1 hc with h1 | h1
        · rw [h1]; simp
        · apply List.mem_cons_of_mem
          cases hs : splitDelim s with
          | nil => rw [hs] at h1; simp at h1
          | cons q qs =>
            rw [hs] at h1
            exact ih q (by rw [hs]; simp) c (by simpa using h1)
      · intro c hc
        exact List.mem_cons_of_mem _ (ih p (List.mem_of_mem_tail h) c hc)

theorem trimSpace_mem (s : List Char) : ∀ c ∈ trimSpace s, c ∈ s := by
  intro c hc
  unfold trimSpace at hc
  rw [List.mem_reverse] at hc
  have h1 := (List.dropWhile_sublist isspace).subset hc
  rw [List.mem_reverse] at h1
  exact (List.dropWhile_sublist isspace).subset h1

theorem keyval_plain (k v : List Char) (hk1 : '#' ∉ k) (hk2 : '\\' ∉ k) (hk3 : '=' ∉ k)
    (hv1 : '#' ∉ v) (hv2 : '\\' ∉ v) (hv3 : '=' ∉ v) :
    keyval_create (some (k ++ '=' :: v)) =
      some (trimSpace k :: (splitDelim v).map trimSpace) := by
  have hl1 : '#' ∉ k ++ '=' :: v := by simp [hk1, hv1]
  have hl2 : '\\' ∉ k ++ '=' :: v := by simp [hk2, hv2]
  unfold keyval_create __remove_comments
  simp only
  rw [remove_comments_plain _ hl1 hl2]
  have hr : getkeyval_equalsign (k ++ '=' :: v) 0 false 0 0 = (1, k.length) := by
    rw [equalsign_plain_append k _ 0 0 0 hk1 hk2 hk3]
    show getkeyval_equalsign ('=' :: v) (0 + k.length) false 0 0 = (1, k.length)
    rw [getkeyval_equalsign, if_neg (by simp), if_neg (by simp), if_pos (by simp),
      equalsign_plain v _ _ _ hv1 hv2 hv3]
    simp
  unfold __getkeyval
  simp only [hr, ne_eq, not_true_eq_false, if_false]
  rw [trimcpy_eq k ('=' :: v) (by simp; decide)]
  have hd : (k ++ '=' :: v).drop (k.length + 1) = v := by
    rw [← List.drop_drop]
    simp
  rw [hd]
  have hv := values_plain [] v hv2
  simp only [List.nil_append, List.length_nil] at hv
  rw [hv]
  have hsp : trimSpace ((splitDelim v).headD []) :: (splitDelim v).tail.map trimSpace
      = (splitDelim v).map trimSpace := by
    cases h : splitDelim v with
    | nil => exact absurd h (splitDelim_ne_nil v)
    | cons p ps => simp
  rw [hsp]
  unfold __sanitize_values
  simp only [List.map_cons, Option.some.injEq, List.cons.injEq]
  constructor
  · apply sanitize_plain
    intro h
    exact hk2 (trimSpace_mem k _ h)
  · rw [List.map_map]
    apply List.map_congr_left
    intro p hp
    simp only [Function.comp]
    apply sanitize_plain
    intro h
    exact hv2 (splitDelim_mem v p hp _ (trimSpace_mem p _ h))

theorem split_at_equalsign (line : List Char) (h3 : line.count '=' = 1) :
    line = line.takeWhile (fun c => c ≠ '=') ++
      '=' :: (line.dropWhile (fun c => c ≠ '=')).drop 1 ∧
    '=' ∉ line.takeWhile (fun c => c ≠ '=') ∧
    '=' ∉ (line.dropWhile (fun c => c ≠ '=')).drop 1 := by
  have hk : '=' ∉ line.takeWhile (fun c => c ≠ '=') := by
    intro h
    have := List.mem_takeWhile_imp h
    simp at this
  have hsplit := List.takeWhile_append_dropWhile (fun c => decide (c ≠ '=')) line
  cases hd : line.dropWhile (fun c => c ≠ '=') with
  | nil =>
    rw [hd, List.append_nil] at hsplit
    rw [hsplit] at hk
    have := List.count_eq_zero.2 hk
    omega
  | cons x v =>
    have hx := List.head?_dropWhile_not (fun c => decide (c ≠ '=')) line
    rw [hd] at hx hsplit
    simp only [List.head?_cons, ne_eq, decide_not, Bool.not_eq_false',
      decide_eq_true_eq] at hx
    rw [hx] at hsplit
    refine ⟨?_, hk, ?_⟩
    · simp only [List.drop_one, List.tail_cons]
      exact hsplit.symm
    · simp only [List.drop_one, List.tail_cons]
      intro hv
      have hc : line.count '=' =
          (line.takeWhile (fun c => c ≠ '=')).count '=' + (('=' :: v).count '=') := by
        conv_lhs => rw [← hsplit]
        rw [List.count_append]
      rw [List.count_cons_self] at hc
      have := List.count_pos_iff.2 hv
      omega

/-- C22: for a line without `#` and backslash that contains exactly one `=`,
`keyval_create` returns the key, which is the text before the `=` without the white
space around it, followed by the pieces of the text after the `=` between the
delimiters `,` and `;`, each without the white space around it, in their order and
with the empty pieces kept; `keyval_nvalues` is the number of the delimiters after the
`=` plus one. -/
theorem keyval_create_plain_line (line : List Char) (h1 : '#' ∉ line) (h2 : '\\' ∉ line)
    (h3 : line.count '=' = 1) :
    keyval_create (some line) = some (specKeyval line) ∧
    keyval_nvalues (keyval_create (some line)) =
      (((line.dropWhile (fun c => c ≠ '=')).drop 1).countP isdelim : Int) + 1 := by
  obtain ⟨hl, hk3, hv3⟩ := split_at_equalsign line h3
  have hsub1 : ∀ c, c ∈ line.takeWhile (fun c => c ≠ '=') → c ∈ line :=
    fun c hc => (List.takeWhile_sublist _).subset hc
  have hsub2 : ∀ c, c ∈ (line.dropWhile (fun c => c ≠ '=')).drop 1 → c ∈ line :=
    fun c hc => (List.dropWhile_sublist _).subset ((List.drop_sublist _ _).subset hc)
  have key := keyval_plain (line.takeWhile (fun c => c ≠ '='))
    ((line.dropWhile (fun c => c ≠ '=')).drop 1)
    (fun h => h1 (hsub1 _ h)) (fun h => h2 (hsub1 _ h)) hk3
    (fun h => h1 (hsub2 _ h)) (fun h => h2 (hsub2 _ h)) hv3
  rw [← hl] at key
  refine ⟨key, ?_⟩
  rw [key]
  simp only [keyval_nvalues, List.length_cons, List.length_map, splitDelim_length]
  push_cast
  omega

/-- C22, instance: the line `pip=,,,pop` of the unit test, and the texts of two
further lines. -/
theorem keyval_create_plain_line_witness :
    (keyval_create (some "pip=,,,pop".toList) = some (specKeyval "pip=,,,pop".toList) ∧
     keyval_nvalues (keyval_create (some "pip=,,,pop".toList)) =
      (((("pip=,,,pop".toList).dropWhile (fun c => c ≠ '=')).drop 1).countP isdelim : Int)
        + 1) ∧
    specKeyval "pip=,,,pop".toList = ["pip".toList, [], [], [], "pop".toList] ∧
    specKeyval "=".toList = [[], []] ∧
    specKeyval " big thing = some value ; x\n".toList
      = ["big thing".toList, "some value".toList, "x".toList] :=
  ⟨keyval_create_plain_line "pip=,,,pop".toList (by decide) (by decide) (by decide),
    by decide, by decide, by decide⟩

/-! ## keyval.c: escapes and comments -/

theorem escape_cons (c : Char) (s : List Char) :
    escape (c :: s) = (if c = ',' ∨ c = ';' ∨ c = '=' ∨ c = '#' ∨ c = '\\' then ['\\', c]
      else [c]) ++ escape s := by
  rw [escape]
  split <;> rfl

theorem remove_comments_escape (s t : List Char) :
    remove_comments_loop (escape s ++ t) false = escape s ++ remove_comments_loop t false := by
  induction s with
  | nil => rfl
  | cons c s ih =>
    rw [escape]
    split
    · simp only [List.cons_append]
      rw [remove_comments_loop, if_pos (by simp), remove_comments_loop, if_neg (by simp),
        if_neg (by simp), ih]
    · rename_i hc
      simp only [not_or] at hc
      simp only [List.cons_append]
      rw [remove_comments_loop, if_neg (by simp [hc.2.2.2.2]), if_neg (by simp [hc.2.2.2.1]), ih]

theorem isdelim_cases (c : Char) (h : isdelim c = true) : c = ',' ∨ c = ';' := by
  simpa [isdelim] using h

theorem remove_comments_escapeValues (rest : List (Char × List Char)) (t : List Char)
    (hrest : ∀ p ∈ rest, isdelim p.1 = true) :
    remove_comments_loop (escapeValues rest ++ t) false =
      escapeValues rest ++ remove_comments_loop t false := by
  induction rest with
  | nil => rfl
  | cons p rest ih =>
    have hd := isdelim_cases p.1 (hrest p (by simp))
    rw [escapeValues]
    simp only [List.cons_append, List.append_assoc]
    rw [remove_comments_loop, if_neg (by rcases hd with h | h <;> rw [h] <;> simp),
      if_neg (by rcases hd with h | h <;> rw [h] <;> simp), remove_comments_escape,
      ih (fun q hq => hrest q (by simp [hq]))]

theorem equalsign_escape (s t : List Char) (i d e : Nat) :
    getkeyval_equalsign (escape s ++ t) i false d e =
      getkeyval_equalsign t (i + (escape s).length) false d e := by
  induction s generalizing i with
  | nil => rfl
  | cons c s ih =>
    rw [escape]
    split
    · simp only [List.cons_append, List.length_cons]
      rw [getkeyval_equalsign, if_pos (by simp), getkeyval_equalsign, if_neg (by simp),
        if_neg (by simp), if_neg (by simp), ih]
      congr 1
      omega
    · rename_i hc
      simp only [not_or] at hc
      simp only [List.cons_append, List.length_cons]
      rw [getkeyval_equalsign, if_neg (by simp [hc.2.2.2.2]), if_neg (by simp [hc.2.2.2.1]),
        if_neg (by simp [hc.2.2.1]), ih]
      congr 1
      omega

theorem equalsign_escapeValues (rest : List (Char × List Char)) (i d e : Nat)
    (hrest : ∀ p ∈ rest, isdelim p.1 = true) :
    getkeyval_equalsign (escapeValues rest) i false d e = (d, e) := by
  induction rest generalizing i with
  | nil => rfl
  | cons p rest ih =>
    have hd := isdelim_cases p.1 (hrest p (by simp))
    rw [escapeValues]
    rw [getkeyval_equalsign, if_neg (by rcases hd with h | h <;> rw [h] <;> simp),
      if_neg (by rcases hd with h | h <;> rw [h] <;> simp),
      if_neg (by rcases hd with h | h <;> rw [h] <;> simp), equalsign_escape,
      ih _ (fun q hq => hrest q (by simp [hq]))]

theorem sanitize_escape (s : List Char) : sanitize_loop (escape s) false = s := by
  induction s with
  | nil => rfl
  | cons c s ih =>
    rw [escape]
    split
    · rw [sanitize_loop, if_pos (by simp), sanitize_loop, if_neg (by simp)]
      split <;> rw [ih]
    · rename_i hc
      simp only [not_or] at hc
      rw [sanitize_loop, if_neg (by simp [hc.2.2.2.2]), if_neg (by simp [hc.2.2.2.2]), ih]

theorem values_escape (v pre R : List Char) :
    getkeyval_values (escape v ++ R) (pre ++ (escape v ++ R)) pre.length false =
      getkeyval_values R (pre ++ (escape v ++ R)) (pre.length + (escape v).length) false := by
  induction v generalizing pre with
  | nil => rfl
  | cons c v ih =>
    rw [escape]
    split
    · simp only [List.cons_append, List.length_cons]
      rw [getkeyval_values, if_pos (by simp), getkeyval_values, if_neg (by simp),
        if_neg (by simp)]
      have := ih (pre ++ ['\\', c])
      simp only [List.append_assoc, List.cons_append, List.nil_append, List.length_append,
        List.length_cons, List.length_nil] at this
      rw [show pre.length + 1 + 1 = pre.length + (0 + 1 + 1) by omega, this]
      congr 1
      omega
    · rename_i hc
      simp only [not_or] at hc
      simp only [List.cons_append, List.length_cons]
      rw [getkeyval_values, if_neg (by simp [hc.2.2.2.2]),
        if_neg (by simp [isdelim, hc.1, hc.2.1])]
      have := ih (pre ++ [c])
      simp only [List.append_assoc, List.cons_append, List.nil_append, List.length_append,
        List.length_cons, List.length_nil] at this
      rw [show pre.length + 1 = pre.length + (0 + 1) by omega, this]
      congr 1
      omega

theorem values_escapeValues (v : List Char) (rest : List (Char × List Char))
    (hrest : ∀ p ∈ rest, isdelim p.1 = true) :
    getkeyval_values (escape v ++ escapeValues rest) (escape v ++ escapeValues rest) 0 false =
      trimSpace (escape v) :: rest.map (fun p => trimSpace (escape p.2)) := by
  induction rest generalizing v with
  | nil =>
    have := values_escape v [] []
    simp only [List.nil_append, List.length_nil, List.append_nil, Nat.zero_add] at this
    simp only [escapeValues, List.append_nil, List.map_nil]
    rw [this, getkeyval_values]
    simp only [if_true]
    rw [trimcpy_eq_end]
  | cons p rest ih =>
    have hd := hrest p (by simp)
    have := values_escape v [] (escapeValues (p :: rest))
    simp only [List.nil_append, List.length_nil, Nat.zero_add] at this
    rw [this, escapeValues, getkeyval_values,
      if_neg (by rcases isdelim_cases p.1 hd with h | h <;> rw [h] <;> simp),
      if_pos ⟨hd, rfl⟩,
      trimcpy_eq (escape v) _ (by
        intro x hx
        simp only [List.head?_cons, Option.mem_def, Option.some.injEq] at hx
        rw [← hx]
        exact isspace_of_delim _ hd),
      ih p.2 (fun q hq => hrest q (by simp [hq]))]
    simp

theorem escape_head (s : List Char) (h : ∀ c ∈ s.head?, isspace c = false) :
    ∀ c ∈ (escape s).head?, isspace c = false := by
  cases s with
  | nil => simp [escape]
  | cons x s =>
    have hx := h x (by simp)
    rw [escape]
    split
    · intro c hc
      simp only [List.head?_cons, Option.mem_def, Option.some.injEq] at hc
      rw [← hc]
      decide
    · intro c hc
      simp only [List.head?_cons, Option.mem_def, Option.some.injEq] at hc
      rw [← hc]
      exact hx

theorem escape_getLast (s : List Char) : (escape s).getLast? = s.getLast? := by
  induction s with
  | nil => rfl
  | cons x s ih =>
    cases s with
    | nil =>
      rw [escape]
      split <;> simp [escape]
    | cons y s =>
      have hne : escape (y :: s) ≠ [] := by
        rw [escape]
        split <;> simp
      rw [escape_cons, List.getLast?_append_of_ne_nil _ hne, ih,
        List.getLast?_cons_cons]

theorem trimSpace_escape (s : List Char) (h : trimSpace s = s) :
    trimSpace (escape s) = escape s := by
  obtain ⟨l, r, _, _, _, hh, hl⟩ := trimSpace_decomp s
  rw [h] at hh hl
  apply trimSpace_of_ends
  · exact escape_head s hh
  · rw [escape_getLast]
    exact hl

theorem keyval_escaped (k v0 : List Char) (rest : List (Char × List Char))
    (tail : List Char) (hk : trimSpace k = k) (hv0 : trimSpace v0 = v0)
    (hrest : ∀ p ∈ rest, isdelim p.1 = true ∧ trimSpace p.2 = p.2)
    (htail : tail = [] ∨ tail.head? = some '#') :
    keyval_create (some (escape k ++ '=' :: (escape v0 ++ escapeValues rest) ++ tail)) =
      some (k :: v0 :: rest.map Prod.snd) := by
  have hd : ∀ p ∈ rest, isdelim p.1 = true := fun p hp => (hrest p hp).1
  have htl : remove_comments_loop tail false = [] := by
    rcases htail with h | h
    · rw [h]; rfl
    · cases tail with
      | nil => rfl
      | cons c t =>
        simp only [List.head?_cons, Option.some.injEq] at h
        rw [h, remove_comments_loop, if_neg (by simp), if_pos (by simp)]
  have hrc : remove_comments_loop
      (escape k ++ '=' :: (escape v0 ++ escapeValues rest) ++ tail) false =
      escape k ++ '=' :: (escape v0 ++ escapeValues rest) := by
    rw [List.append_assoc, remove_comments_escape]
    simp only [List.cons_append, List.append_assoc]
    rw [remove_comments_loop, if_neg (by simp), if_neg (by simp), remove_comments_escape,
      remove_comments_escapeValues _ _ hd, htl]
    simp
  have heq : getkeyval_equalsign (escape k ++ '=' :: (escape v0 ++ escapeValues rest))
      0 false 0 0 = (1, (escape k).length) := by
    rw [equalsign_escape, getkeyval_equalsign, if_neg (by simp), if_neg (by simp),
      if_pos (by simp), equalsign_escape, equalsign_escapeValues _ _ _ _ hd]
    simp
  unfold keyval_create __remove_comments
  simp only
  rw [hrc]
  unfold __getkeyval
  simp only [heq, ne_eq, not_true_eq_false, if_false]
  rw [trimcpy_eq (escape k) _ (by simp; decide), trimSpace_escape k hk]
  have hdrop : (escape k ++ '=' :: (escape v0 ++ escapeValues rest)).drop
      ((escape k).length + 1) = escape v0 ++ escapeValues rest := by
    rw [← List.drop_drop]
    simp
  rw [hdrop, values_escapeValues v0 rest hd, trimSpace_escape v0 hv0]
  unfold __sanitize_values
  simp only [List.map_cons, sanitize_escape, List.map_map, Option.some.injEq, List.cons.injEq,
    true_and]
  apply List.map_congr_left
  intro p hp
  simp only [Function.comp]
  rw [trimSpace_escape p.2 (hrest p hp).2, sanitize_escape]

theorem equalsign_count (s : List Char) (esc : Bool) (i d e : Nat) :
    (getkeyval_equalsign (remove_comments_loop s esc) i esc d e).1 =
      d + unescapedEquals s esc := by
  induction s generalizing esc i d e with
  | nil => simp [remove_comments_loop, getkeyval_equalsign, unescapedEquals]
  | cons c s ih =>
    cases esc with
    | true =>
      rw [remove_comments_loop, if_neg (by simp), if_neg (by simp), getkeyval_equalsign,
        if_neg (by simp), if_neg (by simp), if_neg (by simp), ih, unescapedEquals]
      simp
    | false =>
      rw [remove_comments_loop, unescapedEquals]
      simp only [Bool.false_eq_true, if_false, and_true]
      by_cases h1 : c = '\\'
      · rw [if_pos h1, if_pos h1, getkeyval_equalsign, if_pos ⟨h1, rfl⟩, ih]
      · rw [if_neg h1, if_neg h1]
        by_cases h2 : c = '#'
        · rw [if_pos h2, if_pos h2]
          simp [getkeyval_equalsign]
        · rw [if_neg h2, if_neg h2, getkeyval_equalsign, if_neg (by simp [h1]),
            if_neg (by simp [h2])]
          by_cases h3 : c = '='
          · rw [if_pos ⟨h3, rfl⟩, if_pos h3, ih]
            omega
          · rw [if_neg (by simp [h3]), if_neg h3, ih]

theorem keyval_create_none_iff (line : List Char) :
    keyval_create (some line) = none ↔ unescapedEquals line false ≠ 1 := by
  have h := equalsign_count line false 0 0 0
  rw [Nat.zero_add] at h
  unfold keyval_create __remove_comments
  simp only
  unfold __getkeyval
  simp only [h]
  by_cases hc : unescapedEquals line false = 1
  · simp [hc, __sanitize_values]
  · simp [hc, __sanitize_values]

/-- C23: a line made of a key and of values in which a backslash stands before every
`,`, `;`, `=`, `#` and backslash, with an `=` after the key, a `,` or `;` before every
further value and possibly a comment that starts with `#` at the end, gives the key and
the values as they were before the backslashes were added (key and values have no
white space at their ends): an escaped character does not delimit, separate or start a
comment and comes out without its backslash, a doubled backslash comes out as one, and
the comment is removed. `keyval_create` returns NULL if and only if the number of `=`
that are neither escaped nor in the comment is not one. The two examples of the rules
come out as `3,4` and `4`, and as the one value with its `#`, `;`, `=` and backslash. -/
theorem keyval_create_escapes (k v0 : List Char) (rest : List (Char × List Char))
    (tail : List Char) (hk : trimSpace k = k) (hv0 : trimSpace v0 = v0)
    (hrest : ∀ p ∈ rest, isdelim p.1 = true ∧ trimSpace p.2 = p.2)
    (htail : tail = [] ∨ tail.head? = some '#') :
    keyval_create (some (escape k ++ '=' :: (escape v0 ++ escapeValues rest) ++ tail)) =
      some (k :: v0 :: rest.map Prod.snd) ∧
    (∀ line, keyval_create (some line) = none ↔ unescapedEquals line false ≠ 1) ∧
    keyval_create (some "k = 3\\,4,4".toList) = some ["k".toList, "3,4".toList, "4".toList] ∧
    keyval_create (some "k = ncon\\#.a\\;01\\=debug\\\\release".toList) =
      some ["k".toList, "ncon#.a;01=debug\\release".toList] :=
  ⟨keyval_escaped k v0 rest tail hk hv0 hrest htail, keyval_create_none_iff,
    by decide, by decide⟩

/-- C23, instance: a key with three values, two of them with escaped characters, and a
comment; and a line whose only `=` is escaped. -/
theorem keyval_create_escapes_witness :
    keyval_create (some ("goldkey=val1,val2\\=false;\\#1 prize\\\\# note".toList)) =
      some ["goldkey".toList, "val1".toList, "val2=false".toList, "#1 prize\\".toList] ∧
    unescapedEquals "Invalid\\=KeyVal String".toList false = 0 ∧
    keyval_create (some "Invalid\\=KeyVal String".toList) = none :=
  ⟨(keyval_create_escapes "goldkey".toList "val1".toList
      [(',', "val2=false".toList), (';', "#1 prize\\".toList)] "# note".toList
      (by decide) (by decide) (by decide) (by decide)).1,
    by decide,
    ((keyval_create_escapes "goldkey".toList "val1".toList
      [(',', "val2=false".toList), (';', "#1 prize\\".toList)] "# note".toList
      (by decide) (by decide) (by decide) (by decide)).2.1 _).2 (by decide)⟩

/-! ## Claims about the configuration file -/

set_option maxRecDepth 100000 in
/-- C29, the code at the failing input: the live configuration is the default one
(`daemon` TRUE, `ramdisk` AUTO) with the schedule `04:30 SUSPEND`, every file exists
and can be accessed. `cfg_writefile` writes the ramdisk setting under the key `daemon`
(the file has the lines `daemon = TRUE` and `daemon = AUTO` and no line `ramdisk`), and
`cfg_read_file` rejects that file with an error. For the live configuration with
`daemon` FALSE and `ramdisk` FALSE the file has `daemon = FALSE` and `daemon = TRUE`;
it is accepted, and the configuration read has `daemon` TRUE (1) and `ramdisk` AUTO
(2), while the other settings, the ping hosts and the schedule are the written ones. -/
theorem cfg_writefile_roundtrip_fails :
    (cfg_writefile_lines { exampleConfig 1 2 with execute_tmpfs := 2 } exampleHeap2
        CFG_DEFAULT_FILECONFIG).filter
      (fun l => "daemon".toList.isPrefixOf l || "ramdisk".toList.isPrefixOf l)
      = ["daemon = TRUE\n".toList, "daemon = AUTO\n".toList] ∧
    (roundtrip { exampleConfig 1 2 with execute_tmpfs := 2 } exampleHeap2).1 = EXIT_FAILURE ∧
    (cfg_writefile_lines { exampleConfig 1 2 with execute_as_daemon := 0 } exampleHeap2
        CFG_DEFAULT_FILECONFIG).filter
      (fun l => "daemon".toList.isPrefixOf l || "ramdisk".toList.isPrefixOf l)
      = ["daemon = FALSE\n".toList, "daemon = TRUE\n".toList] ∧
    ({ exampleConfig 1 2 with execute_as_daemon := 0 } : config_t).execute_tmpfs = 0 ∧
    roundtrip { exampleConfig 1 2 with execute_as_daemon := 0 } exampleHeap2
      = (EXIT_SUCCESS, { exampleConfig 2 3 with execute_as_daemon := 1, execute_tmpfs := 2 },
          ⟨[.live CFG_DEFAULT_INET_PINGHOSTS, .live CFG_DEFAULT_INET_PINGHOSTS,
            .live "04:30 SUSPEND".toList], false⟩) := by
  refine ⟨by decide, by decide, by decide, by decide, by decide⟩

/-! ## The loop of the schedule timer -/

theorem schedule_daily_later (off : Int) (cfg : cfg_t) (now : Int) (e : event_t)
    (hd : e.type = EVENT_TYPE_DAILY) :
    now < (__schedule_next_trigger (fixedZoneLibc off) cfg now e).next_trigger := by
  rw [schedule_daily_fixed off cfg now e hd]
  simp only
  split <;> omega

theorem schedule_drain_spins (fuel : Nat) : ∀ n : Nat,
    schedule_drain exampleLibc defaultCfg 1000 (constClock 1000) fuel n
      ⟨none, none, some [⟨1000, 0, EVENT_TYPE_INTERVAL, EVENT_ACTION_WATCHDOG,
        EVENT_SOURCE_PARSED⟩]⟩ initialDaemon = .out_of_fuel := by
  induction fuel with
  | zero => intro n; rfl
  | succ fuel ih =>
    intro n
    rw [schedule_drain]
    exact ih (n + 1)

/-- A DAILY event whose new trigger time is the clock reading fires in every pass. -/
theorem schedule_drain_daily_spins (fuel : Nat) : ∀ n : Nat,
    schedule_drain (dstZoneLibc 7200 3600 (fun t => decide (90000 ≤ t))) ⟨0, 45, 1⟩ 76200
      (constClock 76200) fuel n
      ⟨none, none, some [⟨76200, 600, EVENT_TYPE_DAILY, EVENT_ACTION_SUSPEND,
        EVENT_SOURCE_PARSED⟩]⟩ (daemon_suspend initialDaemon) = .out_of_fuel := by
  induction fuel with
  | zero => intro n; rfl
  | succ fuel ih =>
    intro n
    rw [schedule_drain]
    exact ih (n + 1)

/-- An INTERVAL event with a zero interval, and a DAILY event whose trigger time is not
later than the clock, stay due in the loop of the schedule timer. The accepted schedule `@00:00 WATCHDOG` (interval of zero seconds) gives an event that
fires in every pass while the clock reads 1000, whatever the bound on the passes, and
when the clock reads 1001 after three passes the process exits at the fourth event. The
DAILY event of 00:10 whose trigger time is computed with `apply_dst` positive at 76200
(see `schedule_daily_unsettled`) fires in every pass while the clock reads 76200. -/
theorem schedule_drain_stays_due :
    (event_test_parse exampleLibc defaultCfg 1000 initialGlobals
      (some ["@00:00 WATCHDOG".toList])).1 = 0 ∧
    (event_commit_test_schedule (event_test_parse exampleLibc defaultCfg 1000 initialGlobals
      (some ["@00:00 WATCHDOG".toList])).2).g_heap
      = some [⟨1000, 0, EVENT_TYPE_INTERVAL, EVENT_ACTION_WATCHDOG, EVENT_SOURCE_PARSED⟩] ∧
    (∀ fuel, schedule_drain exampleLibc defaultCfg 1000 (constClock 1000) fuel 0
      ⟨none, none, some [⟨1000, 0, EVENT_TYPE_INTERVAL, EVENT_ACTION_WATCHDOG,
        EVENT_SOURCE_PARSED⟩]⟩ initialDaemon = .out_of_fuel) ∧
    schedule_drain exampleLibc defaultCfg 1000
      (fun k => if k < 3 then ⟨1000, 1000, 1000, 1000⟩ else ⟨1001, 1001, 1001, 1001⟩) 10 0
      ⟨none, none, some [⟨1000, 0, EVENT_TYPE_INTERVAL, EVENT_ACTION_WATCHDOG,
        EVENT_SOURCE_PARSED⟩]⟩ initialDaemon = .exited 4 ∧
    (∀ fuel, schedule_drain (dstZoneLibc 7200 3600 (fun t => decide (90000 ≤ t)))
      ⟨0, 45, 1⟩ 76200 (constClock 76200) fuel 0
      ⟨none, none, some [⟨76200, 600, EVENT_TYPE_DAILY, EVENT_ACTION_SUSPEND,
        EVENT_SOURCE_PARSED⟩]⟩ (daemon_suspend initialDaemon) = .out_of_fuel) := by
  refine ⟨by decide, by decide, fun fuel => schedule_drain_spins fuel 0, by decide,
    fun fuel => schedule_drain_daily_spins fuel 0⟩

end Icmond
